import Mathlib

/-!
# Verification of the IFJ25 compiler front end

Shallow embedding of the repository's three core subsystems and proofs about
them:

* `symtable.c` — the AVL-balanced binary search tree keyed by strings;
* `scanner.c`  — the lexical scanner over a character stream;
* `parser.c`   — the recursive-descent parser / code generator.

C pointers become inductive trees, `FILE*` streams become lists of characters
or tokens, out-parameters and booleans become `Option`, and machine `int`
fields that stay non-negative in every reachable state (tree heights,
counters) become `Nat` while signed quantities (balance factors, error codes)
become `Int`.
-/

namespace Ifj

/-! ## Symbol table data (`symtable.c`)

`symtable.h` is not among the repository's source files; the record layout
below is reconstructed from its uses inside `symtable.c`
(`symdata_create_var`, `symdata_create_func`, `symdata_dup`, `symdata_free`)
and from the spec's description of the symbol-record tagged union. -/

/-- Variable type tags (`ifj25_type_t`). -/
inductive Ifj25Type where
  | tNull
  | tNum
  | tString
  | tBool
  | tUndefined
deriving DecidableEq, Repr

/-- Symbol kinds (`ifj25_symbol_kind_t`): variable, function, getter, setter. -/
inductive SymbolKind where
  | varSym
  | funcSym
  | getterSym
  | setterSym
deriving DecidableEq, Repr

/-- `VarData`: declared type plus the string member of the value union (the
only union member `symtable.c` touches). -/
structure VarData where
  type : Ifj25Type
  str : Option String
deriving DecidableEq, Repr

/-- `FuncData`: arity and ordered parameter names. -/
structure FuncData where
  arity : Int
  params : List String
deriving DecidableEq, Repr

/-- `SymbolData`: the tagged union; `var` is populated for `varSym`, `func`
for the callable kinds. -/
structure SymbolData where
  kind : SymbolKind
  var : Option VarData
  func : Option FuncData
deriving DecidableEq, Repr

/-- `symdata_create_var` from `symtable.c`. -/
def symdata_create_var (type : Ifj25Type) : SymbolData :=
  { kind := .varSym, var := some { type := type, str := none }, func := none }

/-- `symdata_create_func` from `symtable.c`. -/
def symdata_create_func (kind : SymbolKind) (arity : Int) : SymbolData :=
  { kind := kind, var := none, func := some { arity := arity, params := [] } }

/-! ## Symbol table tree (`symtable.c`)

`BSTNode` with its cached `height` field.  A `NULL` pointer is `nil`.
String keys are compared with `strcmp`; on the byte strings the compiler
manipulates this is exactly the lexicographic order `<` on `String`. -/

/-! ## Key comparison (`strcmp`)

`symtable.c` orders keys with `strcmp`.  On the byte strings the compiler
manipulates, `strcmp(a, b) < 0` is the lexicographic order on the character
sequences; it is embedded as an executable comparison so that concrete runs
reduce inside the kernel. -/

/-- Lexicographic `strcmp(a, b) < 0` on character lists. -/
def charsLt : List Char → List Char → Bool
  | [], [] => false
  | [], _ :: _ => true
  | _ :: _, [] => false
  | a :: as, b :: bs =>
    if a.toNat < b.toNat then true
    else if b.toNat < a.toNat then false
    else charsLt as bs

/-- `strcmp(a, b) < 0` on strings. -/
def strLt (a b : String) : Bool := charsLt a.data b.data


/-- `BSTNode`: key, owned data, children, cached subtree height. -/
inductive BSTNode where
  | nil
  | node (left : BSTNode) (key : String) (data : SymbolData) (right : BSTNode) (height : Nat)
deriving DecidableEq, Repr

namespace BSTNode

/-- The `max` helper from `symtable.c`: `(a > b) ? a : b`. -/
def cmax (a b : Nat) : Nat := if a > b then a else b

theorem cmax_spec (a b : Nat) :
    (cmax a b = a ∨ cmax a b = b) ∧ a ≤ cmax a b ∧ b ≤ cmax a b := by
  unfold cmax; split_ifs <;> omega

theorem cmax_eq_max (a b : Nat) : cmax a b = max a b := by
  unfold cmax; split_ifs <;> omega

/-- `height(n)` helper: cached height, `0` for `NULL`. -/
def height : BSTNode → Nat
  | .nil => 0
  | .node _ _ _ _ h => h

/-- `get_balance(n)`: left height minus right height (an `int` in C, so `Int`). -/
def get_balance : BSTNode → Int
  | .nil => 0
  | .node l _ _ r _ => (height l : Int) - (height r : Int)

/-- `rotate_right(y)`.  The C code dereferences `y->left`, so it is only ever
called on a node whose left child is non-`NULL`; on other shapes we return the
input unchanged (that branch is unreachable from `balance_node`). -/
def rotate_right : BSTNode → BSTNode
  | .node (.node ll lk ld lr _) k d r _ =>
    let yh := 1 + cmax (height lr) (height r)
    let xh := 1 + cmax (height ll) yh
    .node ll lk ld (.node lr k d r yh) xh
  | t => t

/-- `rotate_left(y)`; mirror image of `rotate_right`. -/
def rotate_left : BSTNode → BSTNode
  | .node l k d (.node rl rk rd rr _) _ =>
    let yh := 1 + cmax (height l) (height rl)
    let xh := 1 + cmax yh (height rr)
    .node (.node l k d rl yh) rk rd rr xh
  | t => t

/-- `balance_node(node)`: the four rebalancing cases (LL, LR, RR, RL). -/
def balance_node : BSTNode → BSTNode
  | .nil => .nil
  | t@(.node l k d r h) =>
    let balance := get_balance t
    if balance > 1 ∧ get_balance l ≥ 0 then
      rotate_right t
    else if balance > 1 ∧ get_balance l < 0 then
      rotate_right (.node (rotate_left l) k d r h)
    else if balance < -1 ∧ get_balance r ≤ 0 then
      rotate_left t
    else if balance < -1 ∧ get_balance r > 0 then
      rotate_left (.node l k d (rotate_right r) h)
    else t

/-- The inline post-operation fix-up `(*tree)->height = 1 + max(...);
`*tree = balance_node(*tree);` that `bst_insert`, `bst_delete` and
`bst_replace_by_rightmost` all perform, guarded by `*tree != NULL`. -/
def updateHB : BSTNode → BSTNode
  | .nil => .nil
  | .node l k d r _ => balance_node (.node l k d r (1 + cmax (height l) (height r)))

/-- `bst_insert`: upsert.  On an existing key the data is replaced (the old
record is freed) and the function returns without touching heights; otherwise
a leaf is added and every node on the path is re-heighted and rebalanced.
Allocation failure (`NULL` return) is not modelled. -/
def bst_insert : BSTNode → String → SymbolData → BSTNode
  | .nil, key, d => .node .nil key d .nil 1
  | .node l k d0 r h, key, d =>
    if strLt key k then
      updateHB (.node (bst_insert l key d) k d0 r h)
    else if strLt k key then
      updateHB (.node l k d0 (bst_insert r key d) h)
    else
      .node l k d r h

/-- `bst_find`: exact lookup; the C out-parameter plus `bool` becomes `Option`. -/
def bst_find : BSTNode → String → Option SymbolData
  | .nil, _ => none
  | .node l k d r _, key =>
    if strLt key k then bst_find l key
    else if strLt k key then bst_find r key
    else some d

/-- `bst_replace_by_rightmost(target, tree)`: walks to the rightmost node of
`tree`, returns its key and (duplicated) data for transplantation into the
target, unlinks it, and re-heights/rebalances the path on the way back.
The result is `(transplanted key, transplanted data, new subtree)`. -/
def bst_replace_by_rightmost : BSTNode → Option (String × SymbolData × BSTNode)
  | .nil => none
  | .node l k d .nil _ => some (k, d, updateHB l)
  | .node l k d (.node rl rk rd rr rh) h =>
    match bst_replace_by_rightmost (.node rl rk rd rr rh) with
    | none => none
    | some (k1, d1, r1) => some (k1, d1, updateHB (.node l k d r1 h))

/-- `bst_delete`: `none` models the C `false` return (key absent, tree
untouched); `some t1` models `true` with the updated tree.  The childless
case returns before the fix-up; the one-child cases splice the child up and
run the fix-up on it; the two-children case transplants the in-order
predecessor obtained from `bst_replace_by_rightmost`. -/
def bst_delete : BSTNode → String → Option BSTNode
  | .nil, _ => none
  | .node l k d r h, key =>
    if strLt key k then
      match bst_delete l key with
      | none => none
      | some l1 => some (updateHB (.node l1 k d r h))
    else if strLt k key then
      match bst_delete r key with
      | none => none
      | some r1 => some (updateHB (.node l k d r1 h))
    else
      match l, r with
      | .nil, .nil => some .nil
      | .nil, .node rl rk rd rr rh => some (updateHB (.node rl rk rd rr rh))
      | .node ll lk ld lr lh, .nil => some (updateHB (.node ll lk ld lr lh))
      | .node ll lk ld lr lh, .node rl rk rd rr rh =>
        match bst_replace_by_rightmost (.node ll lk ld lr lh) with
        | none => none
        | some (k1, d1, l1) => some (updateHB (.node l1 k1 d1 (.node rl rk rd rr rh) h))

end BSTNode

open BSTNode

/-- `symtable_init()`: a table owning a `NULL` root. -/
def symtable_init : BSTNode := .nil

/-- `symtable_insert`: delegates to `bst_insert` on the root (allocation
failure, the only `false` case, is not modelled). -/
def symtable_insert (t : BSTNode) (key : String) (d : SymbolData) : BSTNode :=
  bst_insert t key d

/-- `symtable_find`: delegates to `bst_find` (the `NULL`-root early exit
coincides with `bst_find nil`). -/
def symtable_find (t : BSTNode) (key : String) : Option SymbolData :=
  bst_find t key

/-- `symtable_delete`: delegates to `bst_delete` (the `NULL`-root early
`false` coincides with `bst_delete nil`). -/
def symtable_delete (t : BSTNode) (key : String) : Option BSTNode :=
  bst_delete t key

/-! ## Sequences of table operations -/

/-- One symbol-table mutation. -/
inductive TableOp where
  | ins (key : String) (d : SymbolData)
  | del (key : String)
deriving DecidableEq, Repr

/-- Apply one operation; an unsuccessful delete leaves the tree unchanged,
exactly as the `false` branch of `bst_delete` leaves `*tree` untouched. -/
def applyOp (t : BSTNode) : TableOp → BSTNode
  | .ins key d => symtable_insert t key d
  | .del key =>
    match symtable_delete t key with
    | some t1 => t1
    | none => t

/-- Run a sequence of operations from the freshly initialized (empty) table. -/
def applyOps (ops : List TableOp) : BSTNode :=
  ops.foldl applyOp symtable_init

/-! ## Invariants -/

namespace BSTNode

/-- The AVL invariant exactly as the spec states it: at every node the
children's heights differ by at most one and the cached `height` field equals
`1 + max` of the children's heights. -/
def avlInv : BSTNode → Prop
  | .nil => True
  | .node l _ _ r h =>
    avlInv l ∧ avlInv r ∧
    (height l : Int) - (height r : Int) ≤ 1 ∧
    (height r : Int) - (height l : Int) ≤ 1 ∧
    h = 1 + cmax (height l) (height r)

/-- In-order traversal as a key/record association list. -/
def inorder : BSTNode → List (String × SymbolData)
  | .nil => []
  | .node l k d r _ => inorder l ++ (k, d) :: inorder r

/-- Strict binary-search-tree ordering, phrased on the in-order listing. -/
def ordered (t : BSTNode) : Prop :=
  (inorder t).Pairwise (fun a b => strLt a.1 b.1 = true)

/-- Model-level sorted-association-list upsert used to describe `bst_insert`. -/
def insList : List (String × SymbolData) → String → SymbolData → List (String × SymbolData)
  | [], key, d => [(key, d)]
  | (k0, d0) :: rest, key, d =>
    if strLt key k0 then (key, d) :: (k0, d0) :: rest
    else if strLt k0 key then (k0, d0) :: insList rest key d
    else (key, d) :: rest

/-- Model-level first-occurrence key removal used to describe `bst_delete`. -/
def eraseKey : List (String × SymbolData) → String → List (String × SymbolData)
  | [], _ => []
  | (k0, d0) :: rest, key => if key = k0 then rest else (k0, d0) :: eraseKey rest key

end BSTNode

/-! ## Scanner (`scanner.c`) -/

/-- Token kinds, the `TokenType` enum of `scanner.h`. -/
inductive TokenType where
  | TOKEN_EOF
  | TOKEN_EOL
  | TOKEN_ERROR
  | TOKEN_IDENTIFIER
  | TOKEN_GLOBAL_IDENTIFIER
  | TOKEN_INT_LITERAL
  | TOKEN_FLOAT_LITERAL
  | TOKEN_STRING_LITERAL
  | TOKEN_MULTILINE_STRING_LITERAL
  | TOKEN_NULL
  | TOKEN_CLASS
  | TOKEN_IF
  | TOKEN_ELSE
  | TOKEN_IS
  | TOKEN_RETURN
  | TOKEN_VAR
  | TOKEN_WHILE
  | TOKEN_STATIC
  | TOKEN_IMPORT
  | TOKEN_FOR
  | TOKEN_NUM
  | TOKEN_STRING_TYPE
  | TOKEN_NULL_TYPE
  | TOKEN_IFJ_NAMESPACE
  | TOKEN_PLUS
  | TOKEN_MINUS
  | TOKEN_MULTIPLY
  | TOKEN_DIVIDE
  | TOKEN_ASSIGN
  | TOKEN_LESS
  | TOKEN_GREATER
  | TOKEN_LESS_EQUAL
  | TOKEN_GREATER_EQUAL
  | TOKEN_EQUAL
  | TOKEN_NOT_EQUAL
  | TOKEN_LEFT_PAREN
  | TOKEN_RIGHT_PAREN
  | TOKEN_LEFT_BRACE
  | TOKEN_RIGHT_BRACE
  | TOKEN_COMMA
  | TOKEN_DOT
  | TOKEN_COLON
  | TOKEN_QUESTION
  | TOKEN_RANGE_EXCLUSIVE
  | TOKEN_RANGE_INCLUSIVE
  | TOKEN_AND
  | TOKEN_OR
  | TOKEN_NOT
deriving DecidableEq, Repr

/-- `Token` of `scanner.h`; the possibly-`NULL` `char* value` becomes an
`Option String`. -/
structure Token where
  type : TokenType
  value : Option String
  line : Int
  column : Int
deriving DecidableEq, Repr

/-- `Scanner` state.  `input` is the current character (head, the C
`current_char`) followed by the not-yet-read remainder of the source stream;
`input = []` is exactly the `is_eof_reached` condition, in which case the C
`current_char` holds `'\0'` (`current` below). -/
structure SState where
  input : List Char
  line : Int
  column : Int
deriving DecidableEq, Repr

/-- The `'\0'` character. -/
def NUL : Char := Char.ofNat 0

/-- The C `scanner->current_char`: head of the stream, `'\0'` at EOF. -/
def current (st : SState) : Char := st.input.headD NUL

/-- `scanner->is_eof_reached`. -/
def eof (st : SState) : Bool := st.input.isEmpty

/-- `peek`: next character without advancing, `'\0'` at stream end. -/
def peek (st : SState) : Char :=
  match st.input with
  | _ :: c2 :: _ => c2
  | _ => NUL

/-- `peek2`: two characters ahead, `'\0'` at stream end. -/
def peek2 (st : SState) : Char :=
  match st.input with
  | _ :: _ :: c3 :: _ => c3
  | _ => NUL

/-- Line-number bookkeeping of `advance` when the remainder is `cs`. -/
def stepLine (cs : List Char) (l : Int) : Int :=
  match cs with
  | c :: _ => if c = '\n' then l + 1 else l
  | [] => l

/-- Column bookkeeping of `advance` when the remainder is `cs`. -/
def stepCol (cs : List Char) (col : Int) : Int :=
  match cs with
  | c :: _ => if c = '\n' then 0 else col + 1
  | [] => col

/-- `advance`: pop the current character and read the next one from the
stream (EOF leaves line/column untouched, `'\n'` starts a new line, anything
else moves one column right); a no-op once EOF was reached. -/
def advance : SState → SState
  | ⟨[], l, col⟩ => ⟨[], l, col⟩
  | ⟨_ :: cs, l, col⟩ => ⟨cs, stepLine cs l, stepCol cs col⟩

/-- `scanner_init`: line 1, column 0, `current_char = '\0'`, then one
`advance` to load the first character. -/
def scanner_init (src : List Char) : SState := advance ⟨NUL :: src, 1, 0⟩

/-- C-locale `isspace`. -/
def c_isspace (c : Char) : Bool :=
  c.toNat = 32 || (9 ≤ c.toNat && c.toNat ≤ 13)

/-- C-locale `isdigit`. -/
def c_isdigit (c : Char) : Bool := 48 ≤ c.toNat && c.toNat ≤ 57

/-- C-locale `isalpha`. -/
def c_isalpha (c : Char) : Bool :=
  (65 ≤ c.toNat && c.toNat ≤ 90) || (97 ≤ c.toNat && c.toNat ≤ 122)

/-- C-locale `isalnum`. -/
def c_isalnum (c : Char) : Bool := c_isalpha c || c_isdigit c

/-- C-locale `isxdigit`. -/
def c_isxdigit (c : Char) : Bool :=
  c_isdigit c || (97 ≤ c.toNat && c.toNat ≤ 102) || (65 ≤ c.toNat && c.toNat ≤ 70)

/-- The keyword table of `scanner.c`. -/
def keywords : List (String × TokenType) :=
  [("class", .TOKEN_CLASS), ("if", .TOKEN_IF), ("else", .TOKEN_ELSE),
   ("is", .TOKEN_IS), ("null", .TOKEN_NULL), ("return", .TOKEN_RETURN),
   ("var", .TOKEN_VAR), ("while", .TOKEN_WHILE), ("Ifj", .TOKEN_IFJ_NAMESPACE),
   ("static", .TOKEN_STATIC), ("import", .TOKEN_IMPORT), ("for", .TOKEN_FOR),
   ("Num", .TOKEN_NUM), ("String", .TOKEN_STRING_TYPE), ("Null", .TOKEN_NULL_TYPE)]

/-- `is_keyword`: linear scan of the table. -/
def is_keyword (s : String) : Bool := keywords.any (fun kw => kw.1 = s)

/-- `get_keyword_type`: first table hit, `TOKEN_IDENTIFIER` otherwise. -/
def get_keyword_type (s : String) : TokenType :=
  match keywords.find? (fun kw => kw.1 = s) with
  | some kw => kw.2
  | none => .TOKEN_IDENTIFIER

/-- C-string contents of a buffer: `strlen`/`strcpy` stop at the first
embedded NUL, so everything from the first `'\0'` on is dropped. -/
def cstring (s : String) : String :=
  String.mk (s.data.takeWhile (fun c => c != NUL))

/-- `create_token`: the value is copied with `strcpy`, i.e. only up to the
first embedded NUL character of the buffer. -/
def create_token (type : TokenType) (value : Option String) (line column : Int) :
    Token :=
  { type := type,
    value := match value with
      | some s => some (cstring s)
      | none => none,
    line := line, column := column }

/-- The inner loop of `skip_whitespace`: consume horizontal whitespace
(`isspace` but not `'\n'`).  The state is split into its fields so that the
recursion is structural on the remaining input and concrete runs reduce in
the kernel; the recursive step is one `advance`. -/
def skipSpacesGo : List Char → Int → Int → SState
  | [], l, col => ⟨[], l, col⟩
  | c :: cs, l, col =>
    if c_isspace c ∧ c ≠ '\n' then skipSpacesGo cs (stepLine cs l) (stepCol cs col)
    else ⟨c :: cs, l, col⟩

/-- The line-comment loop of `skip_whitespace`: advance while the current
character is not `'\n'` and EOF is not reached, then consume the terminating
`'\n'` itself if present. -/
def skipLineCommentGo : List Char → Int → Int → SState
  | [], l, col => ⟨[], l, col⟩
  | c :: cs, l, col =>
    if c = '\n' then advance ⟨c :: cs, l, col⟩
    else skipLineCommentGo cs (stepLine cs l) (stepCol cs col)

/-- The `while (nesting > 0 && !eof)` loop of `skip_comment`; `fuel` bounds
the iteration count (any `fuel ≥` remaining input length is exact, since each
iteration advances at least once). -/
def skip_commentGo : Nat → Nat → SState → SState
  | 0, _, st => st
  | fuel + 1, nesting, st =>
    if nesting > 0 ∧ ¬ eof st then
      if current st = '/' ∧ peek st = '*' then
        skip_commentGo fuel (nesting + 1) (advance (advance st))
      else if current st = '*' ∧ peek st = '/' then
        skip_commentGo fuel (nesting - 1) (advance (advance st))
      else skip_commentGo fuel nesting (advance st)
    else st

/-- `skip_comment`: nesting starts at 1 after consuming `/` and `*`. -/
def skip_comment (fuel : Nat) (st : SState) : SState :=
  skip_commentGo fuel 1 (advance (advance st))

/-- The outer `while (true)` loop of `skip_whitespace`: spaces, then a line
or block comment and around again, or stop. -/
def skip_whitespaceGo : Nat → SState → SState
  | 0, st => st
  | fuel + 1, st =>
    let st1 := skipSpacesGo st.input st.line st.column
    if current st1 = '/' then
      if peek st1 = '/' then
        skip_whitespaceGo fuel (skipLineCommentGo st1.input st1.line st1.column)
      else if peek st1 = '*' then
        skip_whitespaceGo fuel (skip_comment fuel st1)
      else st1
    else st1

/-- `skip_whitespace` with an iteration bound. -/
def skip_whitespace (fuel : Nat) (st : SState) : SState := skip_whitespaceGo fuel st

/-- The capped buffer-filling loops of `read_identifier` / `read_number` /
`read_string`: consume characters satisfying `p`, appending each to `acc`
while `pos < cap` (`buffer[pos++] = c` guarded by the bound check).  Returns
the final `pos`, the buffer contents and the scanner state after the loop. -/
def scanWhile (cap : Nat) (p : Char → Bool) :
    List Char → Int → Int → Nat → List Char → Nat × List Char × SState
  | [], l, col, pos, acc => (pos, acc, ⟨[], l, col⟩)
  | c :: cs, l, col, pos, acc =>
    if p c then
      scanWhile cap p cs (stepLine cs l) (stepCol cs col)
        (if pos < cap then pos + 1 else pos)
        (if pos < cap then acc ++ [c] else acc)
    else (pos, acc, ⟨c :: cs, l, col⟩)

/-- Identifier constituent characters. -/
def identChar (c : Char) : Bool := c_isalnum c || c = '_'

/-- `read_identifier`: the global branch fires when the current character
and the peeked one are both `'_'`; both are consumed unconditionally into the
buffer, then the common constituent loop runs.  The regular branch re-tags
keywords through the table. -/
def read_identifier (st : SState) : Token × SState :=
  let start_line := st.line
  let start_column := st.column
  if current st = '_' ∧ peek st = '_' then
    let c0 := current st
    let st1 := advance st
    let c1 := current st1
    let st2 := advance st1
    let r := scanWhile 255 identChar st2.input st2.line st2.column 2 [c0, c1]
    (create_token .TOKEN_GLOBAL_IDENTIFIER (some (String.mk r.2.1))
      start_line start_column, r.2.2)
  else
    let r := scanWhile 255 identChar st.input st.line st.column 0 []
    let lexeme := String.mk r.2.1
    if is_keyword lexeme then
      (create_token (get_keyword_type lexeme) (some lexeme) start_line start_column,
        r.2.2)
    else
      (create_token .TOKEN_IDENTIFIER (some lexeme) start_line start_column, r.2.2)

/-- One guarded `buffer[pos++] = c` append. -/
def pushCap (cap : Nat) (pos : Nat) (acc : List Char) (c : Char) :
    Nat × List Char :=
  if pos < cap then (pos + 1, acc ++ [c]) else (pos, acc)

/-- The fraction phase of `read_number` (`scanner.c:297-310`): on a `'.'`,
push it and consume digits; the `Bool` is its `is_float` contribution. -/
def numFracPhase (pos : Nat) (acc : List Char) (st1 : SState) :
    Bool × Nat × List Char × SState :=
  if current st1 = '.' then
    let pa := pushCap 255 pos acc '.'
    let st2 := advance st1
    let r2 := scanWhile 255 c_isdigit st2.input st2.line st2.column pa.1 pa.2
    (true, r2)
  else (false, pos, acc, st1)

/-- The exponent phase of `read_number` (`scanner.c:313-334`): on `e`/`E`,
push it, optionally push a sign, consume digits. -/
def numExpoPhase (pos : Nat) (acc : List Char) (st2 : SState) :
    Bool × Nat × List Char × SState :=
  if current st2 = 'e' ∨ current st2 = 'E' then
    let pa := pushCap 255 pos acc (current st2)
    let st3 := advance st2
    let signed :=
      if current st3 = '+' ∨ current st3 = '-' then
        (pushCap 255 pa.1 pa.2 (current st3), advance st3)
      else (pa, st3)
    let r3 := scanWhile 255 c_isdigit signed.2.input signed.2.line
      signed.2.column signed.1.1 signed.1.2
    (true, r3)
  else (false, pos, acc, st2)

/-- `read_number`: hexadecimal branch, else digits, optional fraction,
optional exponent with optional sign; `is_float` exactly when a `'.'` or an
`'e'`/`'E'` was consumed. -/
def read_number (st : SState) : Token × SState :=
  let start_line := st.line
  let start_column := st.column
  if current st = '0' ∧ (peek st = 'x' ∨ peek st = 'X') then
    let c0 := current st
    let st1 := advance st
    let c1 := current st1
    let st2 := advance st1
    let r := scanWhile 255 c_isxdigit st2.input st2.line st2.column 2 [c0, c1]
    (create_token .TOKEN_INT_LITERAL (some (String.mk r.2.1))
      start_line start_column, r.2.2)
  else
    let r1 := scanWhile 255 c_isdigit st.input st.line st.column 0 []
    let frac := numFracPhase r1.1 r1.2.1 r1.2.2
    let expo := numExpoPhase frac.2.1 frac.2.2.1 frac.2.2.2
    let is_float := frac.1 || expo.1
    let tokty := if is_float then TokenType.TOKEN_FLOAT_LITERAL
      else TokenType.TOKEN_INT_LITERAL
    (create_token tokty (some (String.mk expo.2.2.1)) start_line start_column,
      expo.2.2.2)

/-- Value of one hexadecimal digit (0 for anything else, like `strtol` on an
empty/invalid prefix). -/
def hexVal (c : Char) : Nat :=
  if c_isdigit c then c.toNat - 48
  else if 97 ≤ c.toNat && c.toNat ≤ 102 then c.toNat - 87
  else if 65 ≤ c.toNat && c.toNat ≤ 70 then c.toNat - 55
  else 0

/-- `read_escape_sequence`: skip the backslash, decode one escape; an
unrecognized escape yields the raw character itself. -/
def read_escape_sequence (st : SState) : Char × SState :=
  let st1 := advance st
  let c := current st1
  if c = 'n' then ('\n', advance st1)
  else if c = 'r' then ('\r', advance st1)
  else if c = 't' then ('\t', advance st1)
  else if c = '\\' then ('\\', advance st1)
  else if c = '"' then ('"', advance st1)
  else if c = 'x' then
    let st2 := advance st1
    if c_isxdigit (current st2) then
      let h0 := current st2
      let st3 := advance st2
      if c_isxdigit (current st3) then
        let h1 := current st3
        (Char.ofNat (16 * hexVal h0 + hexVal h1), advance st3)
      else (Char.ofNat (hexVal h0), st3)
    else (NUL, st2)
  else (c, advance st1)

/-- The regular-string loop of `read_string`: until the quote or EOF; a
backslash defers to `read_escape_sequence` (which may consume several
characters, hence the fuel bound), a bare `'\n'` breaks out, anything else is
buffered under the 1023 cap. -/
def read_stringGo (quote : Char) : Nat → SState → Nat → List Char →
    Nat × List Char × SState
  | 0, st, pos, acc => (pos, acc, st)
  | fuel + 1, st, pos, acc =>
    if current st ≠ quote ∧ ¬ eof st then
      if current st = '\\' then
        let e := read_escape_sequence st
        read_stringGo quote fuel e.2
          (if pos < 1023 then pos + 1 else pos)
          (if pos < 1023 then acc ++ [e.1] else acc)
      else if current st = '\n' then (pos, acc, st)
      else
        read_stringGo quote fuel (advance st)
          (if pos < 1023 then pos + 1 else pos)
          (if pos < 1023 then acc ++ [current st] else acc)
    else (pos, acc, st)

/-- The multiline-string loop of `read_string`: until a triple quote or EOF,
no escape processing. -/
def read_mlGo : Nat → SState → Nat → List Char → Nat × List Char × SState
  | 0, st, pos, acc => (pos, acc, st)
  | fuel + 1, st, pos, acc =>
    if ¬ eof st then
      if current st = '"' ∧ peek st = '"' ∧ peek2 st = '"' then
        (pos, acc, advance (advance (advance st)))
      else
        read_mlGo fuel (advance st)
          (if pos < 1023 then pos + 1 else pos)
          (if pos < 1023 then acc ++ [current st] else acc)
    else (pos, acc, st)

/-- `read_string`: triple-quote opener selects the multiline loop (consuming
two of the three opening quotes), otherwise the regular loop runs and a
closing quote, if present, is consumed. -/
def read_string (fuel : Nat) (st : SState) : Token × SState :=
  let start_line := st.line
  let start_column := st.column
  let quote := current st
  if current st = '"' ∧ peek st = '"' ∧ peek2 st = '"' then
    let r := read_mlGo fuel (advance (advance st)) 0 []
    (create_token .TOKEN_MULTILINE_STRING_LITERAL (some (String.mk r.2.1))
      start_line start_column, r.2.2)
  else
    let r := read_stringGo quote fuel (advance st) 0 []
    let stq := r.2.2
    let stq2 := if current stq = quote then advance stq else stq
    (create_token .TOKEN_STRING_LITERAL (some (String.mk r.2.1))
      start_line start_column, stq2)

/-! ### Spec-side uncapped lexeme descriptions (for C10)

The claim speaks of "the first 255 (or 1023) characters" of a lexeme or of
a string's processed content — quantities the C code never materializes,
since its buffers are capped.  The functions below follow the spec's words:
they run the same traversals with no buffer cap, yielding the full lexeme
(or full processed content) and the input left after it, to be compared
against the capped readers. -/

/-- The full identifier lexeme starting at `cs` (global branch included). -/
def specIdentLexeme (cs : List Char) : List Char :=
  if cs.headD NUL = '_' ∧ cs.tail.headD NUL = '_' then
    cs.headD NUL :: cs.tail.headD NUL :: (cs.tail.tail.takeWhile identChar)
  else cs.takeWhile identChar

/-- Input remaining after the full identifier lexeme. -/
def specIdentRest (cs : List Char) : List Char :=
  if cs.headD NUL = '_' ∧ cs.tail.headD NUL = '_' then
    cs.tail.tail.dropWhile identChar
  else cs.dropWhile identChar

/-- Fraction contribution to the full number lexeme, given the input left
after the integer digits. -/
def specNumFrac (r1 : List Char) : List Char :=
  if r1.headD NUL = '.' then '.' :: r1.tail.takeWhile c_isdigit else []

/-- Input remaining after the fraction part. -/
def specNumFracRest (r1 : List Char) : List Char :=
  if r1.headD NUL = '.' then r1.tail.dropWhile c_isdigit else r1

/-- Whether a fraction part was taken. -/
def specNumFracFlag (r1 : List Char) : Bool := r1.headD NUL == '.'

/-- Exponent contribution to the full number lexeme (optional sign), given
the input left after the fraction part. -/
def specNumExpo (r2 : List Char) : List Char :=
  if r2.headD NUL = 'e' ∨ r2.headD NUL = 'E' then
    if r2.tail.headD NUL = '+' ∨ r2.tail.headD NUL = '-' then
      r2.headD NUL :: r2.tail.headD NUL :: (r2.tail.tail.takeWhile c_isdigit)
    else r2.headD NUL :: (r2.tail.takeWhile c_isdigit)
  else []

/-- Input remaining after the exponent part. -/
def specNumExpoRest (r2 : List Char) : List Char :=
  if r2.headD NUL = 'e' ∨ r2.headD NUL = 'E' then
    if r2.tail.headD NUL = '+' ∨ r2.tail.headD NUL = '-' then
      r2.tail.tail.dropWhile c_isdigit
    else r2.tail.dropWhile c_isdigit
  else r2

/-- Whether an exponent part was taken. -/
def specNumExpoFlag (r2 : List Char) : Bool :=
  (r2.headD NUL == 'e') || (r2.headD NUL == 'E')

/-- The full number lexeme starting at `cs`: hex prefix with hex digits, or
digits, optional fraction, optional exponent. -/
def specNumLexeme (cs : List Char) : List Char :=
  if cs.headD NUL = '0' ∧ (cs.tail.headD NUL = 'x' ∨ cs.tail.headD NUL = 'X') then
    cs.headD NUL :: cs.tail.headD NUL :: (cs.tail.tail.takeWhile c_isxdigit)
  else
    cs.takeWhile c_isdigit ++ specNumFrac (cs.dropWhile c_isdigit) ++
      specNumExpo (specNumFracRest (cs.dropWhile c_isdigit))

/-- Input remaining after the full number lexeme. -/
def specNumRest (cs : List Char) : List Char :=
  if cs.headD NUL = '0' ∧ (cs.tail.headD NUL = 'x' ∨ cs.tail.headD NUL = 'X') then
    cs.tail.tail.dropWhile c_isxdigit
  else specNumExpoRest (specNumFracRest (cs.dropWhile c_isdigit))

/-- `is_float` of the full traversal: a fraction or an exponent was taken. -/
def specNumIsFloat (cs : List Char) : Bool :=
  if cs.headD NUL = '0' ∧ (cs.tail.headD NUL = 'x' ∨ cs.tail.headD NUL = 'X') then
    false
  else
    specNumFracFlag (cs.dropWhile c_isdigit) ||
      specNumExpoFlag (specNumFracRest (cs.dropWhile c_isdigit))

/-- Uncapped mirror of `read_stringGo`: the full processed content of a
regular string body and the state at the loop's end. -/
def specStrGo (quote : Char) : Nat → SState → List Char × SState
  | 0, st => ([], st)
  | fuel + 1, st =>
    if current st ≠ quote ∧ ¬ eof st then
      if current st = '\\' then
        let e := read_escape_sequence st
        let r := specStrGo quote fuel e.2
        (e.1 :: r.1, r.2)
      else if current st = '\n' then ([], st)
      else
        let r := specStrGo quote fuel (advance st)
        (current st :: r.1, r.2)
    else ([], st)

/-- Uncapped mirror of `read_mlGo`: the full content of a multiline body. -/
def specMlGo : Nat → SState → List Char × SState
  | 0, st => ([], st)
  | fuel + 1, st =>
    if ¬ eof st then
      if current st = '"' ∧ peek st = '"' ∧ peek2 st = '"' then
        ([], advance (advance (advance st)))
      else
        let r := specMlGo fuel (advance st)
        (current st :: r.1, r.2)
    else ([], st)

/-- The full processed content of the string literal at `st`. -/
def specStrContent (fuel : Nat) (st : SState) : List Char :=
  if current st = '"' ∧ peek st = '"' ∧ peek2 st = '"' then
    (specMlGo fuel (advance (advance st))).1
  else (specStrGo (current st) fuel (advance st)).1

/-- The scanner state after the whole string literal (closing quote
included, when present). -/
def specStrEnd (fuel : Nat) (st : SState) : SState :=
  if current st = '"' ∧ peek st = '"' ∧ peek2 st = '"' then
    (specMlGo fuel (advance (advance st))).2
  else
    let e := (specStrGo (current st) fuel (advance st)).2
    if current e = current st then advance e else e

/-- Counterexample source text: a string literal opening with a `\x00`
escape (whose processed character is an embedded NUL) followed by 1100
`a`s and the closing quote. -/
def c10src : List Char :=
  '"' :: '\\' :: 'x' :: '0' :: '0' :: (List.replicate 1100 'a' ++ ['"'])


/-- `get_next_token`: EOF check, whitespace/comment skipping, then dispatch
on the first significant character exactly as the C `switch`. -/
def get_next_token (fuel : Nat) (st0 : SState) : Token × SState :=
  if eof st0 then (create_token .TOKEN_EOF none st0.line st0.column, st0)
  else
    let st := skip_whitespace fuel st0
    if eof st then (create_token .TOKEN_EOF none st.line st.column, st)
    else
      let start_line := st.line
      let start_column := st.column
      let c := current st
      if c_isalpha c || c = '_' then read_identifier st
      else if c_isdigit c then read_number st
      else if c = '"' then read_string fuel st
      else if c = '\n' then
        (create_token .TOKEN_EOL none start_line start_column, advance st)
      else if c = '+' then
        (create_token .TOKEN_PLUS none start_line start_column, advance st)
      else if c = '-' then
        (create_token .TOKEN_MINUS none start_line start_column, advance st)
      else if c = '*' then
        (create_token .TOKEN_MULTIPLY none start_line start_column, advance st)
      else if c = '/' then
        (create_token .TOKEN_DIVIDE none start_line start_column, advance st)
      else if c = '=' then
        let st1 := advance st
        if current st1 = '=' then
          (create_token .TOKEN_EQUAL none start_line start_column, advance st1)
        else (create_token .TOKEN_ASSIGN none start_line start_column, st1)
      else if c = '<' then
        let st1 := advance st
        if current st1 = '=' then
          (create_token .TOKEN_LESS_EQUAL none start_line start_column, advance st1)
        else (create_token .TOKEN_LESS none start_line start_column, st1)
      else if c = '>' then
        let st1 := advance st
        if current st1 = '=' then
          (create_token .TOKEN_GREATER_EQUAL none start_line start_column,
            advance st1)
        else (create_token .TOKEN_GREATER none start_line start_column, st1)
      else if c = '!' then
        let st1 := advance st
        if current st1 = '=' then
          (create_token .TOKEN_NOT_EQUAL none start_line start_column, advance st1)
        else (create_token .TOKEN_NOT none start_line start_column, st1)
      else if c = '(' then
        (create_token .TOKEN_LEFT_PAREN none start_line start_column, advance st)
      else if c = ')' then
        (create_token .TOKEN_RIGHT_PAREN none start_line start_column, advance st)
      else if c = '{' then
        (create_token .TOKEN_LEFT_BRACE none start_line start_column, advance st)
      else if c = '}' then
        (create_token .TOKEN_RIGHT_BRACE none start_line start_column, advance st)
      else if c = ',' then
        (create_token .TOKEN_COMMA none start_line start_column, advance st)
      else if c = '.' then
        let st1 := advance st
        if current st1 = '.' ∧ peek st1 = '.' then
          (create_token .TOKEN_RANGE_INCLUSIVE none start_line start_column,
            advance (advance st1))
        else if current st1 = '.' then
          (create_token .TOKEN_RANGE_EXCLUSIVE none start_line start_column,
            advance st1)
        else (create_token .TOKEN_DOT none start_line start_column, st1)
      else if c = ':' then
        (create_token .TOKEN_COLON none start_line start_column, advance st)
      else if c = '?' then
        (create_token .TOKEN_QUESTION none start_line start_column, advance st)
      else if c = '&' ∧ peek st = '&' then
        (create_token .TOKEN_AND none start_line start_column, advance (advance st))
      else if c = '|' ∧ peek st = '|' then
        (create_token .TOKEN_OR none start_line start_column, advance (advance st))
      else
        (create_token .TOKEN_ERROR (some (String.mk [c])) start_line start_column,
          advance st)

/-- Whole-input tokenization: repeated `get_next_token` until `TOKEN_EOF`,
which is kept as the final token.  `tfuel` bounds the token count, `fuel` is
handed to each `get_next_token` call. -/
def tokenizeGo (fuel : Nat) : Nat → SState → List Token → List Token
  | 0, _, acc => acc.reverse
  | tfuel + 1, st, acc =>
    let r := get_next_token fuel st
    if r.1.type = .TOKEN_EOF then (r.1 :: acc).reverse
    else tokenizeGo fuel tfuel r.2 (r.1 :: acc)

/-- Tokenize a source character list from a fresh scanner. -/
def tokenize (fuel : Nat) (src : List Char) : List Token :=
  tokenizeGo fuel fuel (scanner_init src) []

/-- Spec-side predicate, phrased from the spec's words: the lexeme "begins
with exactly two leading underscores". -/
def specTwoLeadingUnderscores (s : String) : Bool :=
  (s.data.takeWhile (fun c => c = '_')).length = 2

/-! ## Parser (`parser.c`, `parser.h`, `main.c`)

The C parser pulls tokens lazily from the scanner; since the scanner is a
deterministic function of its input stream, the embedding feeds the parser
the token list instead (`tokens` = tokens not yet read, `current_token` the
C field; `next_token` past the end keeps the final `TOKEN_EOF`, exactly as
`get_next_token` keeps returning `TOKEN_EOF` at a frozen position).  `FILE*
output` becomes the list of emitted lines, `stderr` the `diags` list.  C
loops and the mutual recursion of the grammar functions are embedded with a
`fuel` bound: `fuel = 0` returns the state unchanged, and every concrete run
below uses enough fuel for the bound never to bite. -/

def SUCCESS : Int := 0
def LEXICAL_ERROR : Int := 1
def SYNTAX_ERROR : Int := 2
def SEMANTIC_UNDEFINED : Int := 3
def SEMANTIC_REDEFINITION : Int := 4
def SEMANTIC_ARG_COUNT : Int := 5
def SEMANTIC_TYPE_COMPAT : Int := 6
def SEMANTIC_OTHER : Int := 10
def INTERNAL_ERROR : Int := 99

/-- The `Parser` struct of `parser.h` (the expression stack is allocated but
never pushed to in `parser.c`, so it is omitted), plus the two observable
output channels. -/
structure PState where
  tokens : List Token
  current_token : Token
  global_table : BSTNode
  local_table : BSTNode
  had_error : Bool
  error_code : Int
  label_counter : Nat
  temp_var_counter : Nat
  current_function : Option String
  in_function : Bool
  function_param_count : Nat
  output : List String
  diags : List (Int × Int × Int × String)
deriving DecidableEq, Repr

/-- One `fprintf(parser->output, ...)` line. -/
def emit (s : String) (p : PState) : PState := { p with output := p.output ++ [s] }

/-- `error`: latch flag and code only on the first failure, always append the
diagnostic (code, current token's line/column, message) to `stderr`. -/
def error (code : Int) (message : String) (p : PState) : PState :=
  let p1 := if p.had_error then p
    else { p with had_error := true, error_code := code }
  { p1 with
    diags := p1.diags ++
      [(code, p.current_token.line, p.current_token.column, message)] }

/-- `next_token`: pull the next token; at the end of the list the current
(`TOKEN_EOF`) token stays, as the C scanner then repeats `TOKEN_EOF`. -/
def next_token (p : PState) : PState :=
  match p.tokens with
  | [] => p
  | t :: ts => { p with current_token := t, tokens := ts }

/-- `accept`. -/
def accept (p : PState) (type : TokenType) : Bool := p.current_token.type == type

/-- The `expected` string table of `expect`. -/
def expectedName (type : TokenType) : String :=
  match type with
  | .TOKEN_IDENTIFIER => "identifier"
  | .TOKEN_LEFT_PAREN => "("
  | .TOKEN_RIGHT_PAREN => ")"
  | .TOKEN_LEFT_BRACE => "\x7b"
  | .TOKEN_RIGHT_BRACE => "\x7d"
  | .TOKEN_ASSIGN => "="
  | .TOKEN_EOL => "end of line"
  | _ => "specific token"

/-- The `got` string table of `expect`. -/
def gotName (type : TokenType) : String :=
  match type with
  | .TOKEN_IDENTIFIER => "identifier"
  | .TOKEN_EOF => "end of file"
  | .TOKEN_EOL => "end of line"
  | _ => "other token"

/-- `expect`: `true` on match, otherwise a latched/reported syntax error. -/
def expect (p : PState) (type : TokenType) : Bool × PState :=
  if accept p type then (true, p)
  else (false, error SYNTAX_ERROR
    ("Expected " ++ expectedName type ++ ", got " ++ gotName p.current_token.type) p)

/-- `generate_label`. -/
def generate_label (p : PState) : String × PState :=
  ("label_" ++ toString p.label_counter,
    { p with label_counter := p.label_counter + 1 })

/-- `generate_temp_var`. -/
def generate_temp_var (p : PState) : String × PState :=
  ("temp_" ++ toString p.temp_var_counter,
    { p with temp_var_counter := p.temp_var_counter + 1 })

/-- `generate_prolog`. -/
def generate_prolog (p : PState) : PState := emit "PUSHFRAME" (emit "CREATEFRAME" p)

/-- `generate_epilog`: look up the zero-arity `main` under key `main_0`;
absent ⇒ `SEMANTIC_UNDEFINED`, present ⇒ the call/exit epilog. -/
def generate_epilog (p : PState) : PState :=
  match symtable_find p.global_table "main_0" with
  | none => error SEMANTIC_UNDEFINED "main function not defined" p
  | some _ => emit "EXIT int@0" (emit "CALL $main" p)

/-- The parameter pop loop of `generate_function_prolog` (downward from
`param_count - 1`). -/
def paramLines : Nat → List String
  | 0 => []
  | i + 1 =>
    ["DEFVAR LF@param" ++ toString i, "POPS LF@param" ++ toString i] ++ paramLines i

/-- `generate_function_prolog`. -/
def generate_function_prolog (name : String) (param_count : Nat) (p : PState) :
    PState :=
  let p := emit ("LABEL $" ++ name) p
  let p := emit "CREATEFRAME" p
  let p := emit "PUSHFRAME" p
  { p with output := p.output ++ paramLines param_count }

/-- `generate_function_epilog`: `main` additionally pushes `nil`. -/
def generate_function_epilog (p : PState) : PState :=
  let p := if p.current_function = some "main" then emit "PUSHS nil@nil" p else p
  emit "RETURN" (emit "POPFRAME" p)

/-- `generate_var_declaration`. -/
def generate_var_declaration (name : String) (is_global : Bool) (p : PState) :
    PState :=
  if is_global then
    emit ("MOVE GF@" ++ name ++ " nil@nil") (emit ("DEFVAR GF@" ++ name) p)
  else
    emit ("MOVE LF@" ++ name ++ " nil@nil") (emit ("DEFVAR LF@" ++ name) p)

/-- `generate_assignment`. -/
def generate_assignment (name : String) (is_global : Bool) (p : PState) : PState :=
  if is_global then emit ("POPS GF@" ++ name) p else emit ("POPS LF@" ++ name) p

/-- `generate_binary_op` (the temp var is allocated and unused, as in C). -/
def generate_binary_op (op : TokenType) (p : PState) : PState :=
  let p := (generate_temp_var p).2
  match op with
  | .TOKEN_PLUS => emit "ADDS" p
  | .TOKEN_MINUS => emit "SUBS" p
  | .TOKEN_MULTIPLY => emit "MULS" p
  | .TOKEN_DIVIDE => emit "DIVS" p
  | _ => error INTERNAL_ERROR "Unknown binary operator" p

/-- `generate_relational_op`. -/
def generate_relational_op (op : TokenType) (p : PState) : PState :=
  let p := (generate_temp_var p).2
  match op with
  | .TOKEN_EQUAL => emit "EQS" p
  | .TOKEN_NOT_EQUAL => emit "NOTS" (emit "EQS" p)
  | .TOKEN_LESS => emit "LTS" p
  | .TOKEN_GREATER =>
    emit "LTS" (emit "PUSHS LF@temp1" (emit "PUSHS LF@temp2"
      (emit "POPS LF@temp1" (emit "POPS LF@temp2" p))))
  | .TOKEN_LESS_EQUAL =>
    emit "NOTS" (emit "LTS" (emit "PUSHS LF@temp2" (emit "PUSHS LF@temp1"
      (emit "POPS LF@temp1" (emit "POPS LF@temp2" p)))))
  | .TOKEN_GREATER_EQUAL => emit "NOTS" (emit "LTS" p)
  | _ => error INTERNAL_ERROR "Unknown relational operator" p

/-- `generate_is_op`. -/
def generate_is_op (type_token : TokenType) (p : PState) : PState :=
  let p := (generate_temp_var p).2
  let p := emit "TYPE LF@type LF@value" (emit "POPS LF@value" p)
  match type_token with
  | .TOKEN_NUM => emit "EQS" (emit "PUSHS LF@type" (emit "PUSHS string@float" p))
  | .TOKEN_STRING_TYPE =>
    emit "EQS" (emit "PUSHS LF@type" (emit "PUSHS string@string" p))
  | .TOKEN_NULL_TYPE => emit "EQS" (emit "PUSHS LF@type" (emit "PUSHS string@nil" p))
  | _ => error SYNTAX_ERROR "Invalid type in is expression" p

/-- `generate_function_call`. -/
def generate_function_call (func_name : String) (p : PState) (is_builtin : Bool) :
    PState :=
  if is_builtin then emit ("# Call to built-in function " ++ func_name) p
  else emit ("CALL $" ++ func_name) p

/-- `IS_REL_OPERATOR` macro. -/
def IS_REL_OPERATOR (t : TokenType) : Bool :=
  t == .TOKEN_EQUAL || t == .TOKEN_NOT_EQUAL || t == .TOKEN_LESS ||
  t == .TOKEN_GREATER || t == .TOKEN_LESS_EQUAL || t == .TOKEN_GREATER_EQUAL

/-- `IS_TYPE_TOKEN` macro. -/
def IS_TYPE_TOKEN (t : TokenType) : Bool :=
  t == .TOKEN_NUM || t == .TOKEN_STRING_TYPE || t == .TOKEN_NULL_TYPE

/-- The C code reads `current_token.value` (never `NULL` for the token kinds
it does this on); the embedding totalizes with `""`. -/
def tokValue (t : Token) : String := t.value.getD ""

/-- `snprintf` into a 256-byte buffer: at most 255 characters are kept. -/
def strTrunc (n : Nat) (s : String) : String := String.mk (s.data.take n)

/-- `parse_prolog`: `import "ifj25" for Ifj` followed by end of line. -/
def parse_prolog (p : PState) : PState :=
  let r := expect p .TOKEN_IMPORT
  if !r.1 then error SYNTAX_ERROR "Missing import statement" r.2
  else
  let p := next_token r.2
  let r := expect p .TOKEN_STRING_LITERAL
  if !r.1 then r.2
  else
  let p := r.2
  if p.current_token.value ≠ some "ifj25" then
    error SYNTAX_ERROR "Expected string \"ifj25\" in import" p
  else
  let p := next_token p
  let r := expect p .TOKEN_FOR
  if !r.1 then r.2
  else
  let p := next_token r.2
  let r := expect p .TOKEN_IFJ_NAMESPACE
  if !r.1 then r.2
  else
  let p := next_token r.2
  let r := expect p .TOKEN_EOL
  if !r.1 then r.2
  else next_token r.2

/-- `parse_class`: `class Program {` followed by end of line. -/
def parse_class (p : PState) : PState :=
  let r := expect p .TOKEN_CLASS
  if !r.1 then error SYNTAX_ERROR "Missing class definition" r.2
  else
  let p := next_token r.2
  let r := expect p .TOKEN_IDENTIFIER
  if !r.1 then r.2
  else
  let p := r.2
  if p.current_token.value ≠ some "Program" then
    error SYNTAX_ERROR "Expected 'Program' as class name" p
  else
  let p := next_token p
  let r := expect p .TOKEN_LEFT_BRACE
  if !r.1 then r.2
  else
  let p := next_token r.2
  let r := expect p .TOKEN_EOL
  if !r.1 then r.2
  else next_token r.2

/-- `parse_var_declaration`: `var id`, redefinition check against the local
table, insertion, declaration code. -/
def parse_var_declaration (p : PState) : PState :=
  let p := next_token p
  let r := expect p .TOKEN_IDENTIFIER
  if !r.1 then r.2
  else
  let p := r.2
  let var_name := tokValue p.current_token
  match symtable_find p.local_table var_name with
  | some _ => error SEMANTIC_REDEFINITION "Variable redefined" p
  | none =>
    let var_data := symdata_create_var .tNull
    let p := { p with local_table := symtable_insert p.local_table var_name var_data }
    let p := generate_var_declaration var_name false p
    next_token p

/-- The `while (accept COMMA)` parameter loop of `parse_function`; `none`
models the early `return` on a failed `expect`. -/
def parse_params_loop : Nat → Nat → PState → Option Nat × PState
  | 0, count, p => (some count, p)
  | fuel + 1, count, p =>
    if accept p .TOKEN_COMMA then
      let p := next_token p
      let r := expect p .TOKEN_IDENTIFIER
      if !r.1 then (none, r.2)
      else parse_params_loop fuel (count + 1) (next_token r.2)
    else (some count, p)

mutual

/-- The `while (!accept RIGHT_BRACE && !had_error)` loop of
`parse_function_definitions`; the error branch `break`s to the epilogue. -/
def parse_fd_loop : Nat → PState → PState
  | 0, p => p
  | fuel + 1, p =>
    if !(accept p .TOKEN_RIGHT_BRACE) ∧ !p.had_error then
      if accept p .TOKEN_STATIC then
        parse_fd_loop fuel (parse_function fuel p)
      else if accept p .TOKEN_EOL then
        parse_fd_loop fuel (next_token p)
      else error SYNTAX_ERROR "Expected function definition or end of class" p
    else p

/-- `parse_function`: name, getter/setter dispatch, parameter list, name+arity
key insertion with redefinition check, prolog, body, epilog. -/
def parse_function : Nat → PState → PState
  | 0, p => p
  | fuel + 1, p =>
    let p := next_token p
    let r := expect p .TOKEN_IDENTIFIER
    if !r.1 then r.2
    else
    let p := r.2
    let func_name := tokValue p.current_token
    let p := next_token p
    if accept p .TOKEN_LEFT_BRACE then parse_getter fuel func_name p
    else if accept p .TOKEN_ASSIGN then parse_setter fuel func_name p
    else
    let r := expect p .TOKEN_LEFT_PAREN
    if !r.1 then r.2
    else
    let p := next_token r.2
    let pr :=
      if !(accept p .TOKEN_RIGHT_PAREN) then
        let r := expect p .TOKEN_IDENTIFIER
        if !r.1 then (none, r.2)
        else parse_params_loop fuel 1 (next_token r.2)
      else (some 0, p)
    parse_function_tail fuel func_name pr

/-- The part of `parse_function` after parameter parsing (`none` models the
early `return` out of the parameter section). -/
def parse_function_tail : Nat → String → Option Nat × PState → PState
  | 0, _, pr => pr.2
  | fuel + 1, func_name, pr =>
    match pr with
    | (none, p) => p
    | (some param_count, p) =>
      let r := expect p .TOKEN_RIGHT_PAREN
      if !r.1 then r.2
      else
      let p := next_token r.2
      let func_data := symdata_create_func .funcSym (param_count : Int)
      let key := strTrunc 255 (func_name ++ "_" ++ toString param_count)
      match symtable_find p.global_table key with
      | some _ => error SEMANTIC_REDEFINITION "Function redefined" p
      | none =>
        let p := { p with global_table := symtable_insert p.global_table key func_data }
        let p := generate_function_prolog func_name param_count p
        let p := { p with
          current_function := some func_name, in_function := true,
          function_param_count := param_count }
        let p := { p with local_table := symtable_init }
        let p := parse_block fuel p
        let p := generate_function_epilog p
        { p with
          current_function := none, in_function := false,
          function_param_count := 0 }

/-- `parse_getter`: arity-0 entry under `name_0`, prolog, body, epilog. -/
def parse_getter : Nat → String → PState → PState
  | 0, _, p => p
  | fuel + 1, name, p =>
    let getter_data := symdata_create_func .getterSym 0
    let key := strTrunc 255 (name ++ "_0")
    match symtable_find p.global_table key with
    | some _ => error SEMANTIC_REDEFINITION "Getter redefined" p
    | none =>
      let p := { p with global_table := symtable_insert p.global_table key getter_data }
      let p := generate_function_prolog name 0 p
      let p := { p with
        current_function := some name, in_function := true,
        function_param_count := 0 }
      let p := { p with local_table := symtable_init }
      let p := parse_block fuel p
      let p := generate_function_epilog p
      { p with
        current_function := none, in_function := false,
        function_param_count := 0 }

/-- `parse_setter`: `= ( param )`, arity-1 entry under `name_1`, prolog, the
parameter in a fresh local table, body, epilog. -/
def parse_setter : Nat → String → PState → PState
  | 0, _, p => p
  | fuel + 1, name, p =>
    let p := next_token p
    let r := expect p .TOKEN_LEFT_PAREN
    if !r.1 then r.2
    else
    let p := next_token r.2
    let r := expect p .TOKEN_IDENTIFIER
    if !r.1 then r.2
    else
    let p := r.2
    let param_name := tokValue p.current_token
    let p := next_token p
    let r := expect p .TOKEN_RIGHT_PAREN
    if !r.1 then r.2
    else
    let p := next_token r.2
    let setter_data := symdata_create_func .setterSym 1
    let key := strTrunc 255 (name ++ "_1")
    match symtable_find p.global_table key with
    | some _ => error SEMANTIC_REDEFINITION "Setter redefined" p
    | none =>
      let p := { p with global_table := symtable_insert p.global_table key setter_data }
      let p := generate_function_prolog name 1 p
      let p := { p with
        current_function := some name, in_function := true,
        function_param_count := 1 }
      let p := { p with local_table := symtable_init }
      let param_data := symdata_create_var .tNull
      let p := { p with local_table := symtable_insert p.local_table param_name param_data }
      let p := parse_block fuel p
      let p := generate_function_epilog p
      { p with
        current_function := none, in_function := false,
        function_param_count := 0 }

/-- The statement loop of `parse_block`; `false` models the early `return`
when the end-of-line `expect` after a statement fails. -/
def parse_stmts_loop : Nat → PState → Bool × PState
  | 0, p => (true, p)
  | fuel + 1, p =>
    if !(accept p .TOKEN_RIGHT_BRACE) ∧ !p.had_error then
      let p := parse_statement fuel p
      if !(accept p .TOKEN_RIGHT_BRACE) then
        let r := expect p .TOKEN_EOL
        if !r.1 then (false, r.2)
        else parse_stmts_loop fuel (next_token r.2)
      else parse_stmts_loop fuel p
    else (true, p)

/-- `parse_block`: `{ EOL statements }`. -/
def parse_block : Nat → PState → PState
  | 0, p => p
  | fuel + 1, p =>
    let r := expect p .TOKEN_LEFT_BRACE
    if !r.1 then r.2
    else
    let p := next_token r.2
    let r := expect p .TOKEN_EOL
    if !r.1 then r.2
    else
    let p := next_token r.2
    let pl := parse_stmts_loop fuel p
    if !pl.1 then pl.2
    else
    let p := pl.2
    let r := expect p .TOKEN_RIGHT_BRACE
    if !r.1 then r.2
    else next_token r.2

/-- `parse_statement`: dispatch on the current token; an identifier is peeked
one token ahead to distinguish assignment (the C code restores only
`current_token`, so the `=` token itself is dropped — the embedding does the
same). -/
def parse_statement : Nat → PState → PState
  | 0, p => p
  | fuel + 1, p =>
    if accept p .TOKEN_VAR then parse_var_declaration p
    else if accept p .TOKEN_IF then parse_if_statement fuel p
    else if accept p .TOKEN_WHILE then parse_while_statement fuel p
    else if accept p .TOKEN_RETURN then parse_return fuel p
    else if accept p .TOKEN_IDENTIFIER || accept p .TOKEN_GLOBAL_IDENTIFIER then
      let saved := p.current_token
      let p := next_token p
      if accept p .TOKEN_ASSIGN then
        parse_assignment fuel { p with current_token := saved }
      else
        error SEMANTIC_OTHER
          "Function call without assignment not supported in basic version"
          { p with current_token := saved }
    else error SYNTAX_ERROR "Invalid statement" p

/-- `parse_assignment`: target (local targets must exist in the local table),
then either a function call or an expression, then the store. -/
def parse_assignment : Nat → PState → PState
  | 0, p => p
  | fuel + 1, p =>
    let choose : Option (String × Bool) :=
      if accept p .TOKEN_IDENTIFIER then some (tokValue p.current_token, false)
      else if accept p .TOKEN_GLOBAL_IDENTIFIER then some (tokValue p.current_token, true)
      else none
    parse_assignment_after fuel choose p

/-- The part of `parse_assignment` after classifying the target (`none`:
neither identifier kind was current, so the syntax error fires). -/
def parse_assignment_after : Nat → Option (String × Bool) → PState → PState
  | 0, _, p => p
  | fuel + 1, choose, p =>
    match choose with
    | none => error SYNTAX_ERROR "Expected identifier in assignment" p
    | some (var_name, is_global) =>
      if !is_global ∧ symtable_find p.local_table var_name = none then
        error SEMANTIC_UNDEFINED "Undefined local variable" p
      else
      let p := next_token p
      let p :=
        if accept p .TOKEN_IDENTIFIER then
          let func_name := tokValue p.current_token
          let p := next_token p
          if accept p .TOKEN_LEFT_PAREN then
            parse_function_call fuel func_name p
          else
            let saved := p.current_token
            let p := { p with
              current_token := {
                type := .TOKEN_IDENTIFIER,
                value := some func_name, line := p.current_token.line,
                column := p.current_token.column - 1 } }
            let p := parse_expression fuel p
            { p with current_token := saved }
        else parse_expression fuel p
      generate_assignment var_name is_global p

/-- `parse_if_statement`. -/
def parse_if_statement : Nat → PState → PState
  | 0, p => p
  | fuel + 1, p =>
    let el := generate_label p
    let en := generate_label el.2
    let p := en.2
    let p := next_token p
    let r := expect p .TOKEN_LEFT_PAREN
    if !r.1 then r.2
    else
    let p := next_token r.2
    let p := parse_expression fuel p
    let p := emit ("JUMPIFEQ " ++ el.1 ++ " LF@cond bool@false")
      (emit "POPS LF@cond" p)
    let r := expect p .TOKEN_RIGHT_PAREN
    if !r.1 then r.2
    else
    let p := next_token r.2
    let p := parse_block fuel p
    let p := emit ("LABEL " ++ el.1) (emit ("JUMP " ++ en.1) p)
    let r := expect p .TOKEN_ELSE
    if !r.1 then error SYNTAX_ERROR "Expected else in if statement" r.2
    else
    let p := next_token r.2
    let p := parse_block fuel p
    emit ("LABEL " ++ en.1) p

/-- `parse_while_statement`. -/
def parse_while_statement : Nat → PState → PState
  | 0, p => p
  | fuel + 1, p =>
    let sl := generate_label p
    let en := generate_label sl.2
    let p := en.2
    let p := emit ("LABEL " ++ sl.1) p
    let p := next_token p
    let r := expect p .TOKEN_LEFT_PAREN
    if !r.1 then r.2
    else
    let p := next_token r.2
    let p := parse_expression fuel p
    let p := emit ("JUMPIFEQ " ++ en.1 ++ " LF@cond bool@false")
      (emit "POPS LF@cond" p)
    let r := expect p .TOKEN_RIGHT_PAREN
    if !r.1 then r.2
    else
    let p := next_token r.2
    let p := parse_block fuel p
    emit ("LABEL " ++ en.1) (emit ("JUMP " ++ sl.1) p)

/-- `parse_return`: `return expression`. -/
def parse_return : Nat → PState → PState
  | 0, p => p
  | fuel + 1, p => parse_expression fuel (next_token p)

/-- The `while (accept COMMA)` argument loop of `parse_function_call`. -/
def parse_args_loop : Nat → Nat → PState → Nat × PState
  | 0, count, p => (count, p)
  | fuel + 1, count, p =>
    if accept p .TOKEN_COMMA then
      let p := next_token p
      let p := parse_expression fuel p
      parse_args_loop fuel (count + 1) p
    else (count, p)

/-- `parse_function_call`: arguments, then the `name_arity` key lookup —
built-in `Ifj.` prefix bypasses the table, an absent key latches
`SEMANTIC_UNDEFINED`. -/
def parse_function_call : Nat → String → PState → PState
  | 0, _, p => p
  | fuel + 1, func_name, p =>
    let r := expect p .TOKEN_LEFT_PAREN
    if !r.1 then r.2
    else
    let p := next_token r.2
    let ar :=
      if !(accept p .TOKEN_RIGHT_PAREN) then
        parse_args_loop fuel 1 (parse_expression fuel p)
      else (0, p)
    let arg_count := ar.1
    let p := ar.2
    let r := expect p .TOKEN_RIGHT_PAREN
    if !r.1 then r.2
    else
    let p := next_token r.2
    let key := strTrunc 255 (func_name ++ "_" ++ toString arg_count)
    if func_name.data.take 4 = ['I', 'f', 'j', '.'] then
      generate_function_call func_name p true
    else
      match symtable_find p.global_table key with
      | none => error SEMANTIC_UNDEFINED "Function not defined" p
      | some _ => generate_function_call func_name p false

/-- `parse_expression`. -/
def parse_expression : Nat → PState → PState
  | 0, p => p
  | fuel + 1, p => parse_is_expression fuel p

/-- `parse_is_expression`. -/
def parse_is_expression : Nat → PState → PState
  | 0, p => p
  | fuel + 1, p =>
    let p := parse_relation fuel p
    if accept p .TOKEN_IS then
      let p := next_token p
      if !(IS_TYPE_TOKEN p.current_token.type) then
        error SYNTAX_ERROR "Expected type after is operator" p
      else
        let type_token := p.current_token.type
        let p := next_token p
        generate_is_op type_token p
    else p

/-- The relational-operator loop of `parse_relation`. -/
def parse_relation_loop : Nat → PState → PState
  | 0, p => p
  | fuel + 1, p =>
    if IS_REL_OPERATOR p.current_token.type then
      let op := p.current_token.type
      let p := next_token p
      let p := parse_simple_expression fuel p
      parse_relation_loop fuel (generate_relational_op op p)
    else p

/-- `parse_relation`. -/
def parse_relation : Nat → PState → PState
  | 0, p => p
  | fuel + 1, p => parse_relation_loop fuel (parse_simple_expression fuel p)

/-- The `+`/`-` loop of `parse_simple_expression`. -/
def parse_simple_loop : Nat → PState → PState
  | 0, p => p
  | fuel + 1, p =>
    if accept p .TOKEN_PLUS || accept p .TOKEN_MINUS then
      let op := p.current_token.type
      let p := next_token p
      let p := parse_term fuel p
      parse_simple_loop fuel (generate_binary_op op p)
    else p

/-- `parse_simple_expression`. -/
def parse_simple_expression : Nat → PState → PState
  | 0, p => p
  | fuel + 1, p => parse_simple_loop fuel (parse_term fuel p)

/-- The `*`/`/` loop of `parse_term`. -/
def parse_term_loop : Nat → PState → PState
  | 0, p => p
  | fuel + 1, p =>
    if accept p .TOKEN_MULTIPLY || accept p .TOKEN_DIVIDE then
      let op := p.current_token.type
      let p := next_token p
      let p := parse_factor fuel p
      parse_term_loop fuel (generate_binary_op op p)
    else p

/-- `parse_term`. -/
def parse_term : Nat → PState → PState
  | 0, p => p
  | fuel + 1, p => parse_term_loop fuel (parse_factor fuel p)

/-- `parse_factor`: variables (locals must exist), literals, `null`,
parenthesized expressions. -/
def parse_factor : Nat → PState → PState
  | 0, p => p
  | fuel + 1, p =>
    if accept p .TOKEN_IDENTIFIER then
      let name := tokValue p.current_token
      match symtable_find p.local_table name with
      | none => error SEMANTIC_UNDEFINED "Undefined variable" p
      | some _ => next_token (emit ("PUSHS LF@" ++ name) p)
    else if accept p .TOKEN_GLOBAL_IDENTIFIER then
      next_token (emit ("PUSHS GF@" ++ tokValue p.current_token) p)
    else if accept p .TOKEN_INT_LITERAL then
      next_token (emit ("PUSHS int@" ++ tokValue p.current_token) p)
    else if accept p .TOKEN_FLOAT_LITERAL then
      next_token (emit ("PUSHS float@" ++ tokValue p.current_token) p)
    else if accept p .TOKEN_STRING_LITERAL then
      next_token (emit ("PUSHS string@" ++ tokValue p.current_token) p)
    else if accept p .TOKEN_NULL then
      next_token (emit "PUSHS nil@nil" p)
    else if accept p .TOKEN_LEFT_PAREN then
      let p := next_token p
      let p := parse_expression fuel p
      let r := expect p .TOKEN_RIGHT_PAREN
      if !r.1 then r.2
      else next_token r.2
    else error SYNTAX_ERROR "Invalid factor in expression" p

end

/-- `parse_function_definitions`: the loop, then the closing `}`. -/
def parse_function_definitions (fuel : Nat) (p : PState) : PState :=
  let p := parse_fd_loop fuel p
  let r := expect p .TOKEN_RIGHT_BRACE
  if !r.1 then r.2
  else next_token r.2

/-- `parse_program`: prolog emission, the three stages with first-error early
returns, then the epilog; the returned `Int` is the C return value (the
process exit status through `main.c`). -/
def parse_program (fuel : Nat) (p : PState) : Int × PState :=
  let p := emit ".IFJcode25" p
  let p := generate_prolog p
  let p := parse_prolog p
  if p.had_error then (p.error_code, p)
  else
  let p := parse_class p
  if p.had_error then (p.error_code, p)
  else
  let p := parse_function_definitions fuel p
  if p.had_error then (p.error_code, p)
  else
  let p := generate_epilog p
  (p.error_code, p)

/-- The garbage-initialized `current_token` before the first `next_token`. -/
def dummyToken : Token := { type := .TOKEN_EOF, value := none, line := 0, column := 0 }

/-- `parser_init`: empty tables (`local_table = NULL` behaves as the empty
tree in every lookup), clean latch, then the first token is pulled. -/
def parser_init (ts : List Token) : PState :=
  next_token {
    tokens := ts, current_token := dummyToken,
    global_table := symtable_init, local_table := symtable_init,
    had_error := false, error_code := SUCCESS, label_counter := 0,
    temp_var_counter := 0, current_function := none, in_function := false,
    function_param_count := 0, output := [], diags := [] }

/-- `main.c`: scan the source, parse, return `parse_program`'s result as the
process exit status. -/
def compiler_main (fuel : Nat) (src : List Char) : Int :=
  (parse_program fuel (parser_init (tokenize fuel src))).1


/-! ### Concrete programs for the end-to-end runs -/

/-- A parser state sitting at `(` with `)` next: a zero-argument call site. -/
def c6CallState : PState :=
  {
    tokens := [create_token .TOKEN_RIGHT_PAREN none 1 9],
    current_token := create_token .TOKEN_LEFT_PAREN none 1 8,
    global_table := symtable_init, local_table := symtable_init,
    had_error := false, error_code := SUCCESS, label_counter := 0,
    temp_var_counter := 0, current_function := none, in_function := false,
    function_param_count := 0, output := [], diags := [] }


/-- The minimal valid program: prolog, class `Program`, empty `static main()`. -/
def minProgramSrc : List Char :=
  "import \"ifj25\" for Ifj\nclass Program \x7b\nstatic main() \x7b\n\x7d\n\x7d\n".data

/-- Same shape, but `foo` takes one parameter and `main` calls `foo(1, 2)`:
an argument-count mismatch at the call site. -/
def argMismatchSrc : List Char :=
  ("import \"ifj25\" for Ifj\nclass Program \x7b\nstatic foo(a) \x7b\n\x7d\n" ++
   "static main() \x7b\nvar x\nx = foo(1, 2)\n\x7d\n\x7d\n").data

/-! ## Properties of the key order -/

theorem charsLt_irrefl (as : List Char) : charsLt as as = false := by
  induction as with
  | nil => rfl
  | cons a as ih =>
    simp only [charsLt]
    rw [if_neg (lt_irrefl a.toNat), if_neg (lt_irrefl a.toNat)]
    exact ih

theorem charsLt_trans : ∀ (as bs cs : List Char), charsLt as bs = true →
    charsLt bs cs = true → charsLt as cs = true := by
  intro as
  induction as with
  | nil =>
    intro bs cs h1 h2
    cases bs with
    | nil => exact absurd h1 (by simp [charsLt])
    | cons b bs =>
      cases cs with
      | nil => exact absurd h2 (by simp [charsLt])
      | cons c cs => rfl
  | cons a as ih =>
    intro bs cs h1 h2
    cases bs with
    | nil => exact absurd h1 (by simp [charsLt])
    | cons b bs =>
      cases cs with
      | nil => exact absurd h2 (by simp [charsLt])
      | cons c cs =>
        simp only [charsLt] at h1 h2 ⊢
        by_cases hab : a.toNat < b.toNat
        · rw [if_pos hab] at h1
          by_cases hbc : b.toNat < c.toNat
          · rw [if_pos (by omega : a.toNat < c.toNat)]
          · rw [if_neg hbc] at h2
            by_cases hcb : c.toNat < b.toNat
            · rw [if_pos hcb] at h2
              exact absurd h2 (by simp)
            · rw [if_pos (by omega : a.toNat < c.toNat)]
        · rw [if_neg hab] at h1
          by_cases hba : b.toNat < a.toNat
          · rw [if_pos hba] at h1
            exact absurd h1 (by simp)
          · rw [if_neg hba] at h1
            by_cases hbc : b.toNat < c.toNat
            · rw [if_pos (by omega : a.toNat < c.toNat)]
            · rw [if_neg hbc] at h2
              by_cases hcb : c.toNat < b.toNat
              · rw [if_pos hcb] at h2
                exact absurd h2 (by simp)
              · rw [if_neg hcb] at h2
                rw [if_neg (by omega : ¬ a.toNat < c.toNat),
                  if_neg (by omega : ¬ c.toNat < a.toNat)]
                exact ih bs cs h1 h2

theorem charsLt_eq_of_not : ∀ (as bs : List Char), ¬ charsLt as bs = true →
    ¬ charsLt bs as = true → as = bs := by
  intro as
  induction as with
  | nil =>
    intro bs h1 h2
    cases bs with
    | nil => rfl
    | cons b bs => exact absurd rfl h1
  | cons a as ih =>
    intro bs h1 h2
    cases bs with
    | nil => exact absurd rfl h2
    | cons b bs =>
      simp only [charsLt] at h1 h2
      by_cases hab : a.toNat < b.toNat
      · rw [if_pos hab] at h1
        exact absurd rfl h1
      · rw [if_neg hab] at h1
        by_cases hba : b.toNat < a.toNat
        · rw [if_pos hba] at h2
          exact absurd rfl h2
        · rw [if_neg hba] at h1
          rw [if_neg hba, if_neg hab] at h2
          have heq : as = bs := ih bs h1 h2
          have hc : a = b := Char.ext (UInt32.ext (by omega : a.toNat = b.toNat))
          rw [hc, heq]

theorem strLt_trans {a b c : String} (h1 : strLt a b = true) (h2 : strLt b c = true) :
    strLt a c = true := charsLt_trans _ _ _ h1 h2

theorem strLt_eq_of_not {a b : String} (h1 : ¬ strLt a b = true)
    (h2 : ¬ strLt b a = true) : a = b := by
  have hd : a.data = b.data := charsLt_eq_of_not _ _ h1 h2
  cases a
  cases b
  exact congrArg String.mk hd

theorem strLt_irrefl (a : String) : ¬ strLt a a = true := by
  unfold strLt
  rw [charsLt_irrefl]
  simp

theorem strLt_ne {a b : String} (h : strLt a b = true) : a ≠ b := by
  intro hc
  subst hc
  exact strLt_irrefl a h

theorem strLt_ne' {a b : String} (h : strLt a b = true) : b ≠ a :=
  fun hc => strLt_ne h hc.symm

namespace BSTNode

/-! ## AVL-invariant preservation -/

@[simp] theorem height_nil : height .nil = 0 := rfl

@[simp] theorem height_node (l : BSTNode) (k : String) (d : SymbolData) (r : BSTNode)
    (h : Nat) : height (.node l k d r h) = h := rfl

@[simp] theorem get_balance_nil : get_balance .nil = 0 := rfl

@[simp] theorem get_balance_node (l : BSTNode) (k : String) (d : SymbolData) (r : BSTNode)
    (h : Nat) : get_balance (.node l k d r h) = (height l : Int) - (height r : Int) := rfl

theorem avlInv_nil : avlInv .nil := trivial

theorem avlInv_node (l : BSTNode) (k : String) (d : SymbolData) (r : BSTNode) (h : Nat) :
    avlInv (.node l k d r h) ↔
      avlInv l ∧ avlInv r ∧
      (height l : Int) - (height r : Int) ≤ 1 ∧
      (height r : Int) - (height l : Int) ≤ 1 ∧
      h = 1 + cmax (height l) (height r) := Iff.rfl

theorem inorder_nil : inorder .nil = [] := rfl

theorem inorder_node (l : BSTNode) (k : String) (d : SymbolData) (r : BSTNode) (h : Nat) :
    inorder (.node l k d r h) = inorder l ++ (k, d) :: inorder r := rfl

theorem avl_eq_nil_of_height_eq_zero {t : BSTNode} (ha : avlInv t) (h0 : height t = 0) :
    t = .nil := by
  cases t with
  | nil => rfl
  | node l k d r h =>
    rw [avlInv_node] at ha
    simp only [height_node] at h0
    omega

theorem balance_node_of_balanced (l r : BSTNode) (k : String) (d : SymbolData) (h0 : Nat)
    (hb1 : (height l : Int) - height r ≤ 1) (hb2 : (height r : Int) - height l ≤ 1) :
    balance_node (.node l k d r h0) = .node l k d r h0 := by
  simp only [balance_node, get_balance_node]
  split_ifs with h1 h2 h3 h4 <;> first | rfl | omega

theorem updateHB_of_avl {t : BSTNode} (ha : avlInv t) : updateHB t = t := by
  cases t with
  | nil => rfl
  | node l k d r h =>
    rw [avlInv_node] at ha
    obtain ⟨-, -, hb1, hb2, hh⟩ := ha
    simp only [updateHB]
    rw [balance_node_of_balanced l r k d _ hb1 hb2, hh]

theorem updateHB_balanced (l r : BSTNode) (k : String) (d : SymbolData) (h0 : Nat)
    (hb1 : (height l : Int) - height r ≤ 1) (hb2 : (height r : Int) - height l ≤ 1) :
    updateHB (.node l k d r h0) = .node l k d r (1 + cmax (height l) (height r)) := by
  simp only [updateHB]
  exact balance_node_of_balanced l r k d _ hb1 hb2

theorem updateHB_left_heavy (l r : BSTNode) (k : String) (d : SymbolData) (h0 : Nat)
    (hal : avlInv l) (har : avlInv r) (hh : height l = height r + 2) :
    avlInv (updateHB (.node l k d r h0)) ∧
      (height (updateHB (.node l k d r h0)) = height r + 2 ∨
        height (updateHB (.node l k d r h0)) = height r + 3) := by
  cases l with
  | nil => simp only [height_nil] at hh; omega
  | node ll lk ld lr lh =>
    rw [avlInv_node] at hal
    obtain ⟨hall, halr, hbl1, hbl2, hlh⟩ := hal
    simp only [height_node] at hh
    have s0 := cmax_spec (height ll) (height lr)
    by_cases hcase : (height lr : Int) ≤ height ll
    · -- LL: single right rotation
      simp only [updateHB, balance_node, get_balance_node, height_node]
      rw [if_pos (⟨by omega, by omega⟩ : ((lh : Int) - (height r : Int) > 1 ∧
        (height ll : Int) - (height lr : Int) ≥ 0))]
      simp only [rotate_right, height_node, avlInv_node]
      have s1 := cmax_spec (height lr) (height r)
      have s2 := cmax_spec (height ll) (1 + cmax (height lr) (height r))
      refine ⟨⟨hall, ⟨halr, har, ?_, ?_, ?_⟩, ?_, ?_, ?_⟩, ?_⟩ <;> first | trivial | omega
    · -- LR: the left child is right-heavy, so `lr` is a node
      cases lr with
      | nil => simp only [height_nil] at hcase; omega
      | node lrl lrk lrd lrr lrh =>
        rw [avlInv_node] at halr
        obtain ⟨halrl, halrr, hblr1, hblr2, hlrh⟩ := halr
        simp only [height_node] at hcase hbl1 hbl2 hlh s0
        simp only [updateHB, balance_node, get_balance_node, height_node]
        rw [if_neg (by omega : ¬((lh : Int) - (height r : Int) > 1 ∧
            (height ll : Int) - (lrh : Int) ≥ 0)),
          if_pos (⟨by omega, by omega⟩ : ((lh : Int) - (height r : Int) > 1 ∧
            (height ll : Int) - (lrh : Int) < 0))]
        simp only [rotate_left, rotate_right, height_node, avlInv_node]
        have s1 := cmax_spec (height ll) (height lrl)
        have s2 := cmax_spec (height lrr) (height r)
        have s3 := cmax_spec (1 + cmax (height ll) (height lrl))
          (1 + cmax (height lrr) (height r))
        have s4 := cmax_spec (height lrl) (height lrr)
        refine ⟨⟨⟨hall, halrl, ?_, ?_, ?_⟩, ⟨halrr, har, ?_, ?_, ?_⟩, ?_, ?_, ?_⟩, ?_⟩ <;>
          first | trivial | omega

theorem updateHB_right_heavy (l r : BSTNode) (k : String) (d : SymbolData) (h0 : Nat)
    (hal : avlInv l) (har : avlInv r) (hh : height r = height l + 2) :
    avlInv (updateHB (.node l k d r h0)) ∧
      (height (updateHB (.node l k d r h0)) = height l + 2 ∨
        height (updateHB (.node l k d r h0)) = height l + 3) := by
  cases r with
  | nil => simp only [height_nil] at hh; omega
  | node rl rk rd rr rh =>
    rw [avlInv_node] at har
    obtain ⟨harl, harr, hbr1, hbr2, hrh⟩ := har
    simp only [height_node] at hh
    have s0 := cmax_spec (height rl) (height rr)
    by_cases hcase : (height rl : Int) ≤ height rr
    · -- RR: single left rotation
      simp only [updateHB, balance_node, get_balance_node, height_node]
      rw [if_neg (by omega : ¬((height l : Int) - (rh : Int) > 1 ∧
            get_balance l ≥ 0)),
        if_neg (by omega : ¬((height l : Int) - (rh : Int) > 1 ∧
            get_balance l < 0)),
        if_pos (⟨by omega, by omega⟩ : ((height l : Int) - (rh : Int) < -1 ∧
            (height rl : Int) - (height rr : Int) ≤ 0))]
      simp only [rotate_left, height_node, avlInv_node]
      have s1 := cmax_spec (height l) (height rl)
      have s2 := cmax_spec (1 + cmax (height l) (height rl)) (height rr)
      refine ⟨⟨⟨hal, harl, ?_, ?_, ?_⟩, harr, ?_, ?_, ?_⟩, ?_⟩ <;> first | trivial | omega
    · -- RL: the right child is left-heavy, so `rl` is a node
      cases rl with
      | nil => simp only [height_nil] at hcase; omega
      | node rll rlk rld rlr rlh =>
        rw [avlInv_node] at harl
        obtain ⟨harll, harlr, hbrl1, hbrl2, hrlh⟩ := harl
        simp only [height_node] at hcase hbr1 hbr2 hrh s0
        simp only [updateHB, balance_node, get_balance_node, height_node]
        rw [if_neg (by omega : ¬((height l : Int) - (rh : Int) > 1 ∧
              get_balance l ≥ 0)),
          if_neg (by omega : ¬((height l : Int) - (rh : Int) > 1 ∧
              get_balance l < 0)),
          if_neg (by omega : ¬((height l : Int) - (rh : Int) < -1 ∧
              (rlh : Int) - (height rr : Int) ≤ 0)),
          if_pos (⟨by omega, by omega⟩ : ((height l : Int) - (rh : Int) < -1 ∧
              (rlh : Int) - (height rr : Int) > 0))]
        simp only [rotate_left, rotate_right, height_node, avlInv_node]
        have s1 := cmax_spec (height l) (height rll)
        have s2 := cmax_spec (height rlr) (height rr)
        have s3 := cmax_spec (1 + cmax (height l) (height rll))
          (1 + cmax (height rlr) (height rr))
        have s4 := cmax_spec (height rll) (height rlr)
        refine ⟨⟨⟨hal, harll, ?_, ?_, ?_⟩, ⟨harlr, harr, ?_, ?_, ?_⟩, ?_, ?_, ?_⟩, ?_⟩ <;>
          first | trivial | omega

theorem bst_insert_avl (t : BSTNode) (key : String) (d : SymbolData) (ha : avlInv t) :
    avlInv (bst_insert t key d) ∧
      (height (bst_insert t key d) = height t ∨
        height (bst_insert t key d) = height t + 1) := by
  induction t with
  | nil =>
    exact ⟨⟨trivial, trivial, by decide, by decide, by decide⟩, Or.inr rfl⟩
  | node l k0 d0 r h ihl ihr =>
    rw [avlInv_node] at ha
    obtain ⟨hal, har, hb1, hb2, hh⟩ := ha
    have s0 := cmax_spec (height l) (height r)
    by_cases h1 : strLt key k0 = true
    · obtain ⟨hai, hhi⟩ := ihl hal
      simp only [bst_insert, if_pos h1]
      by_cases h2 : height (bst_insert l key d) = height r + 2
      · have hmain := updateHB_left_heavy (bst_insert l key d) r k0 d0 h hai har h2
        exact ⟨hmain.1, by simp only [height_node]; omega⟩
      · have hbi1 : (height (bst_insert l key d) : Int) - height r ≤ 1 := by omega
        have hbi2 : (height r : Int) - height (bst_insert l key d) ≤ 1 := by omega
        rw [updateHB_balanced _ _ _ _ _ hbi1 hbi2]
        refine ⟨⟨hai, har, hbi1, hbi2, rfl⟩, ?_⟩
        have s1 := cmax_spec (height (bst_insert l key d)) (height r)
        simp only [height_node]
        omega
    · by_cases h2 : strLt k0 key = true
      · obtain ⟨hai, hhi⟩ := ihr har
        simp only [bst_insert, if_neg h1, if_pos h2]
        by_cases h3 : height (bst_insert r key d) = height l + 2
        · have hmain := updateHB_right_heavy l (bst_insert r key d) k0 d0 h hal hai h3
          exact ⟨hmain.1, by simp only [height_node]; omega⟩
        · have hbi1 : (height l : Int) - height (bst_insert r key d) ≤ 1 := by omega
          have hbi2 : (height (bst_insert r key d) : Int) - height l ≤ 1 := by omega
          rw [updateHB_balanced _ _ _ _ _ hbi1 hbi2]
          refine ⟨⟨hal, hai, hbi1, hbi2, rfl⟩, ?_⟩
          have s1 := cmax_spec (height l) (height (bst_insert r key d))
          simp only [height_node]
          omega
      · simp only [bst_insert, if_neg h1, if_neg h2]
        exact ⟨⟨hal, har, hb1, hb2, hh⟩, Or.inl rfl⟩

theorem bst_rbr_avl (t : BSTNode) (ha : avlInv t) (hne : t ≠ .nil) :
    ∃ k1 d1 t1, bst_replace_by_rightmost t = some (k1, d1, t1) ∧ avlInv t1 ∧
      (height t1 = height t ∨ height t1 + 1 = height t) := by
  induction t with
  | nil => exact absurd rfl hne
  | node l k d r h ihl ihr =>
    rw [avlInv_node] at ha
    obtain ⟨hal, har, hb1, hb2, hh⟩ := ha
    cases r with
    | nil =>
      refine ⟨k, d, updateHB l, rfl, ?_, ?_⟩
      · rw [updateHB_of_avl hal]; exact hal
      · rw [updateHB_of_avl hal]
        simp only [height_nil] at hh
        have s0 := cmax_spec (height l) 0
        simp only [height_node]
        omega
    | node rl rk rd rr rh =>
      obtain ⟨k1, d1, r1, heq, har1, hhr1⟩ := ihr har (by intro hcon; exact absurd hcon (by simp))
      simp only [bst_replace_by_rightmost]
      rw [heq]
      simp only [height_node] at hhr1 hb1 hb2 hh
      refine ⟨k1, d1, updateHB (.node l k d r1 h), rfl, ?_⟩
      have s0 := cmax_spec (height l) rh
      by_cases h2 : height l = height r1 + 2
      · have hmain := updateHB_left_heavy l r1 k d h hal har1 h2
        constructor
        · exact hmain.1
        · simp only [height_node]; omega
      · have hbi1 : (height l : Int) - height r1 ≤ 1 := by omega
        have hbi2 : (height r1 : Int) - height l ≤ 1 := by omega
        rw [updateHB_balanced _ _ _ _ _ hbi1 hbi2]
        refine ⟨⟨hal, har1, hbi1, hbi2, rfl⟩, ?_⟩
        have s1 := cmax_spec (height l) (height r1)
        simp only [height_node]
        omega

theorem bst_delete_avl (t : BSTNode) (key : String) (ha : avlInv t) :
    ∀ t1, bst_delete t key = some t1 →
      avlInv t1 ∧ (height t1 = height t ∨ height t1 + 1 = height t) := by
  induction t with
  | nil => intro t1 hdel; simp [bst_delete] at hdel
  | node l k0 d0 r h ihl ihr =>
    rw [avlInv_node] at ha
    obtain ⟨hal, har, hb1, hb2, hh⟩ := ha
    have s0 := cmax_spec (height l) (height r)
    intro t1 hdel
    simp only [bst_delete] at hdel
    by_cases h1 : strLt key k0 = true
    · rw [if_pos h1] at hdel
      cases hrec : bst_delete l key with
      | none => rw [hrec] at hdel; exact absurd hdel (by simp)
      | some l1 =>
        rw [hrec] at hdel
        simp only [Option.some.injEq] at hdel
        subst hdel
        obtain ⟨hal1, hhl1⟩ := ihl hal l1 hrec
        by_cases h2 : height r = height l1 + 2
        · have hmain := updateHB_right_heavy l1 r k0 d0 h hal1 har h2
          exact ⟨hmain.1, by simp only [height_node]; omega⟩
        · have hbi1 : (height l1 : Int) - height r ≤ 1 := by omega
          have hbi2 : (height r : Int) - height l1 ≤ 1 := by omega
          rw [updateHB_balanced _ _ _ _ _ hbi1 hbi2]
          refine ⟨⟨hal1, har, hbi1, hbi2, rfl⟩, ?_⟩
          have s1 := cmax_spec (height l1) (height r)
          simp only [height_node]
          omega
    · rw [if_neg h1] at hdel
      by_cases h2 : strLt k0 key = true
      · rw [if_pos h2] at hdel
        cases hrec : bst_delete r key with
        | none => rw [hrec] at hdel; exact absurd hdel (by simp)
        | some r1 =>
          rw [hrec] at hdel
          simp only [Option.some.injEq] at hdel
          subst hdel
          obtain ⟨har1, hhr1⟩ := ihr har r1 hrec
          by_cases h3 : height l = height r1 + 2
          · have hmain := updateHB_left_heavy l r1 k0 d0 h hal har1 h3
            exact ⟨hmain.1, by simp only [height_node]; omega⟩
          · have hbi1 : (height l : Int) - height r1 ≤ 1 := by omega
            have hbi2 : (height r1 : Int) - height l ≤ 1 := by omega
            rw [updateHB_balanced _ _ _ _ _ hbi1 hbi2]
            refine ⟨⟨hal, har1, hbi1, hbi2, rfl⟩, ?_⟩
            have s1 := cmax_spec (height l) (height r1)
            simp only [height_node]
            omega
      · rw [if_neg h2] at hdel
        cases l with
        | nil =>
          cases r with
          | nil =>
            simp only [Option.some.injEq] at hdel
            subst hdel
            refine ⟨trivial, ?_⟩
            simp only [height_nil, height_node] at hh ⊢
            have hc : cmax 0 0 = 0 := by decide
            omega
          | node rl rk rd rr rh =>
            simp only [Option.some.injEq] at hdel
            subst hdel
            rw [updateHB_of_avl har]
            refine ⟨har, ?_⟩
            simp only [height_nil, height_node] at hh s0 ⊢
            omega
        | node ll lk ld lr lh =>
          cases r with
          | nil =>
            simp only [Option.some.injEq] at hdel
            subst hdel
            rw [updateHB_of_avl hal]
            refine ⟨hal, ?_⟩
            simp only [height_nil, height_node] at hh s0 ⊢
            omega
          | node rl rk rd rr rh =>
            obtain ⟨k1, d1, l1, heq, hal1, hhl1⟩ :=
              bst_rbr_avl (.node ll lk ld lr lh) hal (by simp)
            simp only [heq, Option.some.injEq] at hdel
            subst hdel
            simp only [height_node] at hhl1 hb1 hb2 hh s0 ⊢
            by_cases h3 : rh = height l1 + 2
            · have hmain := updateHB_right_heavy l1 (.node rl rk rd rr rh) k1 d1 h hal1 har
                (by simp only [height_node]; exact h3)
              refine ⟨hmain.1, ?_⟩
              simp only [height_node] at hmain
              omega
            · have hbi1 : (height l1 : Int) - height (BSTNode.node rl rk rd rr rh) ≤ 1 := by
                simp only [height_node]; omega
              have hbi2 : (height (BSTNode.node rl rk rd rr rh) : Int) - height l1 ≤ 1 := by
                simp only [height_node]; omega
              rw [updateHB_balanced _ _ _ _ _ hbi1 hbi2]
              refine ⟨⟨hal1, har, hbi1, hbi2, rfl⟩, ?_⟩
              have s1 := cmax_spec (height l1) rh
              simp only [height_node]
              omega

theorem applyOp_avl (t : BSTNode) (op : TableOp) (ha : avlInv t) : avlInv (applyOp t op) := by
  cases op with
  | ins key d => exact (bst_insert_avl t key d ha).1
  | del key =>
    simp only [applyOp, symtable_delete]
    cases hdel : bst_delete t key with
    | none => exact ha
    | some t1 => exact (bst_delete_avl t key ha t1 hdel).1

theorem applyOps_go_avl (ops : List TableOp) (t : BSTNode) (ha : avlInv t) :
    avlInv (ops.foldl applyOp t) := by
  induction ops generalizing t with
  | nil => exact ha
  | cons op rest ih => exact ih _ (applyOp_avl t op ha)

/-! ## In-order listings, BST ordering, and the find/insert/delete model -/

theorem inorder_rotate_right (t : BSTNode) : inorder (rotate_right t) = inorder t := by
  cases t with
  | nil => rfl
  | node l k d r h =>
    cases l with
    | nil => rfl
    | node ll lk ld lr lh =>
      simp only [rotate_right, inorder_node, List.append_assoc, List.cons_append]

theorem inorder_rotate_left (t : BSTNode) : inorder (rotate_left t) = inorder t := by
  cases t with
  | nil => rfl
  | node l k d r h =>
    cases r with
    | nil => rfl
    | node rl rk rd rr rh =>
      simp only [rotate_left, inorder_node, List.append_assoc, List.cons_append]

theorem inorder_balance_node (t : BSTNode) : inorder (balance_node t) = inorder t := by
  cases t with
  | nil => rfl
  | node l k d r h =>
    simp only [balance_node]
    split_ifs <;>
      simp only [inorder_rotate_right, inorder_rotate_left, inorder_node]

theorem inorder_updateHB (t : BSTNode) : inorder (updateHB t) = inorder t := by
  cases t with
  | nil => rfl
  | node l k d r h => simp only [updateHB, inorder_balance_node, inorder_node]

theorem ordered_node_iff (l r : BSTNode) (k0 : String) (d0 : SymbolData) (h : Nat) :
    ordered (.node l k0 d0 r h) ↔ ordered l ∧ ordered r ∧
      (∀ p ∈ inorder l, strLt p.1 k0 = true) ∧
      (∀ q ∈ inorder r, strLt k0 q.1 = true) := by
  unfold ordered
  rw [inorder_node, List.pairwise_append, List.pairwise_cons]
  constructor
  · rintro ⟨h1, ⟨h2, h3⟩, h4⟩
    exact ⟨h1, h3, fun p hp => h4 p hp _ (List.mem_cons_self _ _), h2⟩
  · rintro ⟨h1, h2, h3, h4⟩
    refine ⟨h1, ⟨h4, h2⟩, ?_⟩
    rintro p hp q hq
    rcases List.mem_cons.mp hq with rfl | hq2
    · exact h3 p hp
    · exact strLt_trans (h3 p hp) (h4 q hq2)

theorem bst_find_some_iff (t : BSTNode) (key : String) (d : SymbolData) (ho : ordered t) :
    bst_find t key = some d ↔ (key, d) ∈ inorder t := by
  induction t with
  | nil => simp [bst_find, inorder_nil]
  | node l k0 d0 r h ihl ihr =>
    rw [ordered_node_iff] at ho
    obtain ⟨hol, hor, hlt, hgt⟩ := ho
    simp only [bst_find, inorder_node, List.mem_append, List.mem_cons]
    by_cases h1 : strLt key k0 = true
    · rw [if_pos h1, ihl hol]
      constructor
      · exact fun hm => Or.inl hm
      · rintro (hm | hm | hm)
        · exact hm
        · have hk : key = k0 := congrArg Prod.fst hm
          exact absurd hk (strLt_ne h1)
        · exact absurd (strLt_trans h1 (hgt _ hm)) (strLt_irrefl _)
    · by_cases h2 : strLt k0 key = true
      · rw [if_neg h1, if_pos h2, ihr hor]
        constructor
        · exact fun hm => Or.inr (Or.inr hm)
        · rintro (hm | hm | hm)
          · exact absurd (strLt_trans h2 (hlt _ hm)) (strLt_irrefl _)
          · have hk : key = k0 := congrArg Prod.fst hm
            exact absurd hk (strLt_ne' h2)
          · exact hm
      · have hk : key = k0 := strLt_eq_of_not h1 h2
        subst hk
        rw [if_neg h1, if_neg h2]
        constructor
        · intro hm
          have hd : d0 = d := by injection hm
          exact Or.inr (Or.inl (by rw [hd]))
        · rintro (hm | hm | hm)
          · exact absurd (hlt _ hm) (strLt_irrefl _)
          · have hd : d = d0 := congrArg Prod.snd hm
            rw [hd]
          · exact absurd (hgt _ hm) (strLt_irrefl _)

theorem bst_find_none_iff (t : BSTNode) (key : String) (ho : ordered t) :
    bst_find t key = none ↔ ∀ p ∈ inorder t, p.1 ≠ key := by
  induction t with
  | nil => simp [bst_find, inorder_nil]
  | node l k0 d0 r h ihl ihr =>
    rw [ordered_node_iff] at ho
    obtain ⟨hol, hor, hlt, hgt⟩ := ho
    simp only [bst_find, inorder_node, List.mem_append, List.mem_cons]
    by_cases h1 : strLt key k0 = true
    · rw [if_pos h1, ihl hol]
      constructor
      · intro hf p hp
        rcases hp with hp | hp | hp
        · exact hf p hp
        · subst hp; exact strLt_ne' h1
        · exact strLt_ne' (strLt_trans h1 (hgt _ hp))
      · intro hf p hp
        exact hf p (Or.inl hp)
    · by_cases h2 : strLt k0 key = true
      · rw [if_neg h1, if_pos h2, ihr hor]
        constructor
        · intro hf p hp
          rcases hp with hp | hp | hp
          · exact strLt_ne (strLt_trans (hlt _ hp) h2)
          · subst hp; exact strLt_ne h2
          · exact hf p hp
        · intro hf p hp
          exact hf p (Or.inr (Or.inr hp))
      · have hk : key = k0 := strLt_eq_of_not h1 h2
        subst hk
        rw [if_neg h1, if_neg h2]
        constructor
        · intro hf
          exact absurd hf (Option.some_ne_none _)
        · intro hf
          exact absurd rfl (hf (key, d0) (Or.inr (Or.inl rfl)))


theorem insList_append_lt (xs ys : List (String × SymbolData)) (k0 key : String)
    (d0 d : SymbolData) (hk : strLt key k0 = true) :
    insList (xs ++ (k0, d0) :: ys) key d = insList xs key d ++ (k0, d0) :: ys := by
  induction xs with
  | nil =>
    simp only [List.nil_append, insList]
    rw [if_pos hk]
    simp only [List.singleton_append]
  | cons p xs ih =>
    obtain ⟨k1, d1⟩ := p
    simp only [List.cons_append, insList]
    split_ifs with h1 h2 <;>
      simp only [ih, List.append_eq, List.cons_append, List.singleton_append]

theorem insList_append_gt (xs ys : List (String × SymbolData)) (k0 key : String)
    (d0 d : SymbolData) (hlt : ∀ p ∈ xs, strLt p.1 key = true) (hk : strLt k0 key = true) :
    insList (xs ++ (k0, d0) :: ys) key d = xs ++ (k0, d0) :: insList ys key d := by
  induction xs with
  | nil =>
    simp only [List.nil_append, insList]
    rw [if_neg (fun hc => absurd (strLt_trans hk hc) (strLt_irrefl _)), if_pos hk]
  | cons p xs ih =>
    obtain ⟨k1, d1⟩ := p
    have hk1 : strLt k1 key = true := hlt (k1, d1) (List.mem_cons_self _ _)
    simp only [List.cons_append, insList]
    rw [if_neg (fun hc => absurd (strLt_trans hk1 hc) (strLt_irrefl _)), if_pos hk1]
    simp only [List.append_eq]
    rw [ih (fun p hp => hlt p (List.mem_cons_of_mem _ hp))]

theorem insList_append_eq (xs ys : List (String × SymbolData)) (key : String)
    (d0 d : SymbolData) (hlt : ∀ p ∈ xs, strLt p.1 key = true) :
    insList (xs ++ (key, d0) :: ys) key d = xs ++ (key, d) :: ys := by
  induction xs with
  | nil =>
    simp only [List.nil_append, insList]
    rw [if_neg (strLt_irrefl _), if_neg (strLt_irrefl _)]
  | cons p xs ih =>
    obtain ⟨k1, d1⟩ := p
    have hk1 : strLt k1 key = true := hlt (k1, d1) (List.mem_cons_self _ _)
    simp only [List.cons_append, insList]
    rw [if_neg (fun hc => absurd (strLt_trans hk1 hc) (strLt_irrefl _)), if_pos hk1]
    simp only [List.append_eq]
    rw [ih (fun p hp => hlt p (List.mem_cons_of_mem _ hp))]

theorem inorder_bst_insert (t : BSTNode) (key : String) (d : SymbolData) (ho : ordered t) :
    inorder (bst_insert t key d) = insList (inorder t) key d := by
  induction t with
  | nil => rfl
  | node l k0 d0 r h ihl ihr =>
    rw [ordered_node_iff] at ho
    obtain ⟨hol, hor, hlt, hgt⟩ := ho
    by_cases h1 : strLt key k0 = true
    · simp only [bst_insert, if_pos h1, inorder_updateHB, inorder_node, ihl hol]
      rw [insList_append_lt _ _ _ _ _ _ h1]
    · by_cases h2 : strLt k0 key = true
      · simp only [bst_insert, if_neg h1, if_pos h2, inorder_updateHB, inorder_node, ihr hor]
        rw [insList_append_gt _ _ _ _ _ _ (fun p hp => strLt_trans (hlt p hp) h2) h2]
      · have hk : key = k0 := strLt_eq_of_not h1 h2
        subst hk
        simp only [bst_insert, if_neg h1, if_neg h2, inorder_node]
        rw [insList_append_eq _ _ _ _ _ hlt]

theorem mem_insList (xs : List (String × SymbolData)) (key : String) (d : SymbolData) :
    ∀ p ∈ insList xs key d, p ∈ xs ∨ p = (key, d) := by
  induction xs with
  | nil => intro p hp; simp only [insList, List.mem_singleton] at hp; exact Or.inr hp
  | cons q xs ih =>
    obtain ⟨k1, d1⟩ := q
    intro p hp
    simp only [insList] at hp
    split_ifs at hp with h1 h2
    · rcases List.mem_cons.mp hp with rfl | hp2
      · exact Or.inr rfl
      · exact Or.inl hp2
    · rcases List.mem_cons.mp hp with rfl | hp2
      · exact Or.inl (List.mem_cons_self _ _)
      · rcases ih p hp2 with hm | hm
        · exact Or.inl (List.mem_cons_of_mem _ hm)
        · exact Or.inr hm
    · rcases List.mem_cons.mp hp with rfl | hp2
      · exact Or.inr rfl
      · exact Or.inl (List.mem_cons_of_mem _ hp2)

theorem mem_insList_of_mem_ne (xs : List (String × SymbolData)) (key : String)
    (d : SymbolData) (p : String × SymbolData) (hp : p ∈ xs) (hne : p.1 ≠ key) :
    p ∈ insList xs key d := by
  induction xs with
  | nil => cases hp
  | cons q xs ih =>
    obtain ⟨k1, d1⟩ := q
    simp only [insList]
    split_ifs with h1 h2
    · exact List.mem_cons_of_mem _ hp
    · rcases List.mem_cons.mp hp with rfl | hp2
      · exact List.mem_cons_self _ _
      · exact List.mem_cons_of_mem _ (ih hp2)
    · have hk : key = k1 := strLt_eq_of_not h1 h2
      subst hk
      rcases List.mem_cons.mp hp with rfl | hp2
      · exact absurd rfl hne
      · exact List.mem_cons_of_mem _ hp2

theorem insList_pairwise (xs : List (String × SymbolData)) (key : String) (d : SymbolData)
    (hs : xs.Pairwise (fun a b => strLt a.1 b.1 = true)) :
    (insList xs key d).Pairwise (fun a b => strLt a.1 b.1 = true) := by
  induction xs with
  | nil => simp [insList]
  | cons q xs ih =>
    obtain ⟨k1, d1⟩ := q
    rw [List.pairwise_cons] at hs
    obtain ⟨hs1, hs2⟩ := hs
    simp only [insList]
    split_ifs with h1 h2
    · rw [List.pairwise_cons]
      refine ⟨?_, List.pairwise_cons.mpr ⟨hs1, hs2⟩⟩
      intro b hb
      rcases List.mem_cons.mp hb with rfl | hb2
      · exact h1
      · exact strLt_trans h1 (hs1 b hb2)
    · rw [List.pairwise_cons]
      refine ⟨?_, ih hs2⟩
      intro b hb
      rcases mem_insList xs key d b hb with hm | hm
      · exact hs1 b hm
      · subst hm; exact h2
    · have hk : key = k1 := strLt_eq_of_not h1 h2
      subst hk
      exact List.pairwise_cons.mpr ⟨hs1, hs2⟩

theorem ordered_bst_insert (t : BSTNode) (key : String) (d : SymbolData) (ho : ordered t) :
    ordered (bst_insert t key d) := by
  unfold ordered
  rw [inorder_bst_insert t key d ho]
  exact insList_pairwise _ _ _ ho


theorem eraseKey_sublist (xs : List (String × SymbolData)) (key : String) :
    (eraseKey xs key).Sublist xs := by
  induction xs with
  | nil => exact List.Sublist.refl _
  | cons p xs ih =>
    obtain ⟨k0, d0⟩ := p
    simp only [eraseKey]
    split_ifs with h1
    · exact List.Sublist.cons _ (List.Sublist.refl _)
    · exact List.Sublist.cons₂ _ ih

theorem eraseKey_append_mem (xs ys : List (String × SymbolData)) (key : String)
    (hmem : ∃ p ∈ xs, p.1 = key) :
    eraseKey (xs ++ ys) key = eraseKey xs key ++ ys := by
  induction xs with
  | nil =>
    obtain ⟨p, hp, -⟩ := hmem
    cases hp
  | cons q xs ih =>
    obtain ⟨k0, d0⟩ := q
    simp only [List.cons_append, eraseKey]
    split_ifs with h1
    · rfl
    · obtain ⟨p, hp, hpk⟩ := hmem
      rcases List.mem_cons.mp hp with rfl | hp2
      · exact absurd hpk.symm h1
      · simp only [List.append_eq]
        rw [ih ⟨p, hp2, hpk⟩, List.cons_append]

theorem eraseKey_append_not_mem (xs ys : List (String × SymbolData)) (key : String)
    (hnot : ∀ p ∈ xs, p.1 ≠ key) :
    eraseKey (xs ++ ys) key = xs ++ eraseKey ys key := by
  induction xs with
  | nil => rfl
  | cons q xs ih =>
    obtain ⟨k0, d0⟩ := q
    simp only [List.cons_append, eraseKey]
    rw [if_neg (fun hc => hnot (k0, d0) (List.mem_cons_self _ _) hc.symm)]
    simp only [List.append_eq]
    rw [ih (fun p hp => hnot p (List.mem_cons_of_mem _ hp))]

theorem mem_eraseKey_of_ne (xs : List (String × SymbolData)) (key : String)
    (p : String × SymbolData) (hp : p ∈ xs) (hne : p.1 ≠ key) :
    p ∈ eraseKey xs key := by
  induction xs with
  | nil => cases hp
  | cons q xs ih =>
    obtain ⟨k0, d0⟩ := q
    simp only [eraseKey]
    split_ifs with h1
    · rcases List.mem_cons.mp hp with rfl | hp2
      · exact absurd h1.symm hne
      · exact hp2
    · rcases List.mem_cons.mp hp with rfl | hp2
      · exact List.mem_cons_self _ _
      · exact List.mem_cons_of_mem _ (ih hp2)

theorem eraseKey_keys_ne (xs : List (String × SymbolData)) (key : String)
    (hs : xs.Pairwise (fun a b => strLt a.1 b.1 = true)) :
    ∀ p ∈ eraseKey xs key, p.1 ≠ key := by
  induction xs with
  | nil => intro p hp; cases hp
  | cons q xs ih =>
    obtain ⟨k0, d0⟩ := q
    rw [List.pairwise_cons] at hs
    obtain ⟨hs1, hs2⟩ := hs
    intro p hp
    simp only [eraseKey] at hp
    split_ifs at hp with h1
    · subst h1
      exact strLt_ne' (hs1 p hp)
    · rcases List.mem_cons.mp hp with rfl | hp2
      · exact fun hc => h1 hc.symm
      · exact ih hs2 p hp2

theorem bst_rbr_inorder (t : BSTNode) (hne : t ≠ .nil) :
    ∃ k1 d1 t1, bst_replace_by_rightmost t = some (k1, d1, t1) ∧
      inorder t = inorder t1 ++ [(k1, d1)] := by
  induction t with
  | nil => exact absurd rfl hne
  | node l k d r h ihl ihr =>
    cases r with
    | nil =>
      refine ⟨k, d, updateHB l, rfl, ?_⟩
      rw [inorder_updateHB, inorder_node, inorder_nil]
    | node rl rk rd rr rh =>
      obtain ⟨k1, d1, r1, heq, hio⟩ := ihr (by simp)
      refine ⟨k1, d1, updateHB (.node l k d r1 h), ?_, ?_⟩
      · simp only [bst_replace_by_rightmost, heq]
      · rw [inorder_node, hio, inorder_updateHB, inorder_node]
        simp only [List.append_assoc, List.cons_append]

theorem bst_delete_none_iff (t : BSTNode) (key : String) (ho : ordered t) :
    bst_delete t key = none ↔ ∀ p ∈ inorder t, p.1 ≠ key := by
  induction t with
  | nil => simp [bst_delete, inorder_nil]
  | node l k0 d0 r h ihl ihr =>
    rw [ordered_node_iff] at ho
    obtain ⟨hol, hor, hlt, hgt⟩ := ho
    simp only [bst_delete, inorder_node, List.mem_append, List.mem_cons]
    by_cases h1 : strLt key k0 = true
    · rw [if_pos h1]
      cases hrec : bst_delete l key with
      | none =>
        refine iff_of_true rfl ?_
        intro p hp
        rcases hp with hp | hp | hp
        · exact ((ihl hol).mp hrec) p hp
        · subst hp; exact strLt_ne' h1
        · exact strLt_ne' (strLt_trans h1 (hgt _ hp))
      | some l1 =>
        refine iff_of_false (Option.some_ne_none _) ?_
        intro hf
        have hnone : bst_delete l key = none :=
          (ihl hol).mpr (fun p hp => hf p (Or.inl hp))
        rw [hnone] at hrec
        exact Option.noConfusion hrec
    · by_cases h2 : strLt k0 key = true
      · rw [if_neg h1, if_pos h2]
        cases hrec : bst_delete r key with
        | none =>
          refine iff_of_true rfl ?_
          intro p hp
          rcases hp with hp | hp | hp
          · exact strLt_ne (strLt_trans (hlt _ hp) h2)
          · subst hp; exact strLt_ne h2
          · exact ((ihr hor).mp hrec) p hp
        | some r1 =>
          refine iff_of_false (Option.some_ne_none _) ?_
          intro hf
          have hnone : bst_delete r key = none :=
            (ihr hor).mpr (fun p hp => hf p (Or.inr (Or.inr hp)))
          rw [hnone] at hrec
          exact Option.noConfusion hrec
      · have hk : key = k0 := strLt_eq_of_not h1 h2
        subst hk
        rw [if_neg h1, if_neg h2]
        have hfalse : ¬(∀ p : String × SymbolData,
            p ∈ inorder l ∨ p = (key, d0) ∨ p ∈ inorder r → p.1 ≠ key) :=
          fun hf => absurd rfl (hf (key, d0) (Or.inr (Or.inl rfl)))
        cases l with
        | nil =>
          cases r with
          | nil => exact iff_of_false (Option.some_ne_none _) hfalse
          | node rl rk rd rr rh => exact iff_of_false (Option.some_ne_none _) hfalse
        | node ll lk ld lr lh =>
          cases r with
          | nil => exact iff_of_false (Option.some_ne_none _) hfalse
          | node rl rk rd rr rh =>
            obtain ⟨k1, d1, l1, heq, -⟩ := bst_rbr_inorder (.node ll lk ld lr lh) (by simp)
            simp only [heq]
            exact iff_of_false (Option.some_ne_none _) hfalse

theorem bst_delete_some_inorder (t : BSTNode) (key : String) (t1 : BSTNode)
    (ho : ordered t) (hdel : bst_delete t key = some t1) :
    inorder t1 = eraseKey (inorder t) key := by
  induction t generalizing t1 with
  | nil => cases hdel
  | node l k0 d0 r h ihl ihr =>
    rw [ordered_node_iff] at ho
    obtain ⟨hol, hor, hlt, hgt⟩ := ho
    simp only [bst_delete] at hdel
    by_cases h1 : strLt key k0 = true
    · rw [if_pos h1] at hdel
      cases hrec : bst_delete l key with
      | none => rw [hrec] at hdel; cases hdel
      | some l1 =>
        rw [hrec] at hdel
        simp only [Option.some.injEq] at hdel
        subst hdel
        have hmem : ∃ p ∈ inorder l, p.1 = key := by
          by_contra hcon
          push_neg at hcon
          rw [(bst_delete_none_iff l key hol).mpr hcon] at hrec
          cases hrec
        rw [inorder_updateHB, inorder_node, ihl l1 hol hrec, inorder_node,
          eraseKey_append_mem _ _ _ hmem]
    · rw [if_neg h1] at hdel
      by_cases h2 : strLt k0 key = true
      · rw [if_pos h2] at hdel
        cases hrec : bst_delete r key with
        | none => rw [hrec] at hdel; cases hdel
        | some r1 =>
          rw [hrec] at hdel
          simp only [Option.some.injEq] at hdel
          subst hdel
          rw [inorder_updateHB, inorder_node, ihr r1 hor hrec, inorder_node,
            eraseKey_append_not_mem _ _ _
              (fun p hp => strLt_ne (strLt_trans (hlt p hp) h2))]
          simp only [eraseKey]
          rw [if_neg (strLt_ne' h2)]
      · have hk : key = k0 := strLt_eq_of_not h1 h2
        subst hk
        rw [if_neg h2] at hdel
        cases l with
        | nil =>
          cases r with
          | nil =>
            simp only [Option.some.injEq] at hdel
            subst hdel
            simp only [inorder_node, inorder_nil, List.nil_append, eraseKey,
              eq_self_iff_true, if_true]
          | node rl rk rd rr rh =>
            simp only [Option.some.injEq] at hdel
            subst hdel
            simp only [inorder_updateHB, inorder_node, inorder_nil, List.nil_append,
              eraseKey, eq_self_iff_true, if_true]
        | node ll lk ld lr lh =>
          cases r with
          | nil =>
            simp only [Option.some.injEq] at hdel
            subst hdel
            rw [inorder_node (.node ll lk ld lr lh) key d0 .nil h, inorder_nil,
              eraseKey_append_not_mem _ _ _ (fun p hp => strLt_ne (hlt p hp)),
              inorder_updateHB]
            simp only [eraseKey, eq_self_iff_true, if_true, List.append_nil]
          | node rl rk rd rr rh =>
            obtain ⟨k1, d1, l1, heq, hio⟩ := bst_rbr_inorder (.node ll lk ld lr lh) (by simp)
            simp only [heq, Option.some.injEq] at hdel
            subst hdel
            rw [hio] at hlt
            rw [inorder_node (.node ll lk ld lr lh) key d0 (.node rl rk rd rr rh) h, hio,
              eraseKey_append_not_mem _ _ _ (fun p hp => strLt_ne (hlt p hp)),
              inorder_updateHB,
              inorder_node l1 k1 d1 (.node rl rk rd rr rh) h]
            simp only [eraseKey, eq_self_iff_true, if_true, List.append_assoc,
              List.singleton_append]

theorem ordered_bst_delete (t : BSTNode) (key : String) (t1 : BSTNode)
    (ho : ordered t) (hdel : bst_delete t key = some t1) : ordered t1 := by
  unfold ordered
  rw [bst_delete_some_inorder t key t1 ho hdel]
  exact List.Pairwise.sublist (eraseKey_sublist _ _) ho

theorem applyOp_ordered (t : BSTNode) (op : TableOp) (ho : ordered t) :
    ordered (applyOp t op) := by
  cases op with
  | ins key d => exact ordered_bst_insert t key d ho
  | del key =>
    simp only [applyOp, symtable_delete]
    cases hdel : bst_delete t key with
    | none => exact ho
    | some t1 => exact ordered_bst_delete t key t1 ho hdel

theorem applyOps_go_ordered (ops : List TableOp) (t : BSTNode) (ho : ordered t) :
    ordered (ops.foldl applyOp t) := by
  induction ops generalizing t with
  | nil => exact ho
  | cons op rest ih => exact ih _ (applyOp_ordered t op ho)

theorem applyOps_ordered (ops : List TableOp) : ordered (applyOps ops) :=
  applyOps_go_ordered ops symtable_init List.Pairwise.nil

theorem mem_insList_self (xs : List (String × SymbolData)) (key : String) (d : SymbolData) :
    (key, d) ∈ insList xs key d := by
  induction xs with
  | nil => exact List.mem_singleton.mpr rfl
  | cons q xs ih =>
    obtain ⟨k0, d0⟩ := q
    simp only [insList]
    split_ifs with h1 h2
    · exact List.mem_cons_self _ _
    · exact List.mem_cons_of_mem _ ih
    · exact List.mem_cons_self _ _

theorem bst_find_insert_self (t : BSTNode) (key : String) (d : SymbolData) (ho : ordered t) :
    bst_find (bst_insert t key d) key = some d := by
  rw [bst_find_some_iff _ _ _ (ordered_bst_insert t key d ho), inorder_bst_insert t key d ho]
  exact mem_insList_self _ _ _

theorem bst_find_insert_ne (t : BSTNode) (key : String) (d : SymbolData) (key' : String)
    (ho : ordered t) (hne : key' ≠ key) :
    bst_find (bst_insert t key d) key' = bst_find t key' := by
  have ho' := ordered_bst_insert t key d ho
  cases hf : bst_find t key' with
  | some d' =>
    rw [bst_find_some_iff _ _ _ ho] at hf
    rw [bst_find_some_iff _ _ _ ho', inorder_bst_insert t key d ho]
    exact mem_insList_of_mem_ne _ _ _ _ hf hne
  | none =>
    rw [bst_find_none_iff _ _ ho] at hf
    rw [bst_find_none_iff _ _ ho', inorder_bst_insert t key d ho]
    intro p hp
    rcases mem_insList _ _ _ p hp with hm | hm
    · exact hf p hm
    · subst hm
      exact fun hc => hne hc.symm

theorem find_foldl_insert (pairs : List (String × SymbolData)) (t : BSTNode) (key : String)
    (ho : ordered t) :
    bst_find (pairs.foldl (fun t p => symtable_insert t p.1 p.2) t) key =
      pairs.foldl (fun acc p => if p.1 = key then some p.2 else acc) (bst_find t key) := by
  induction pairs generalizing t with
  | nil => rfl
  | cons p rest ih =>
    obtain ⟨k1, dd⟩ := p
    simp only [List.foldl_cons]
    rw [ih (symtable_insert t k1 dd) (ordered_bst_insert t k1 dd ho)]
    congr 1
    simp only [symtable_insert]
    by_cases hk : k1 = key
    · subst hk
      rw [if_pos rfl, bst_find_insert_self t k1 dd ho]
    · rw [if_neg hk, bst_find_insert_ne t k1 dd key ho (fun hc => hk hc.symm)]

end BSTNode

open BSTNode

/-- **C1.**  Starting from the empty symbol table, after any sequence of
`insert` and `delete` operations, every node of the tree satisfies the AVL
invariant: the absolute difference of its left and right subtree heights is at
most 1, and its cached `height` field equals `1 + max(height left, height
right)` (with `cmax`, the `max` helper of `symtable.c`). -/
theorem claim_C1 (ops : List TableOp) : avlInv (applyOps ops) :=
  applyOps_go_avl ops symtable_init trivial

/-- **C2.**  On any reachable symbol table, `find(key)` immediately after
`insert(key, record)` returns exactly that record, whether or not the key was
already present (the equal-key branch of `bst_insert` replaces the record in
place: an upsert that never reports "already exists"); consequently, after a
batch of inserts (keys possibly repeated), finding a key returns its
most-recently-inserted record (and the old lookup result if the batch never
wrote the key). -/
theorem claim_C2 (ops : List TableOp) (key : String) (d : SymbolData)
    (pairs : List (String × SymbolData)) :
    bst_find (symtable_insert (applyOps ops) key d) key = some d ∧
    bst_find (pairs.foldl (fun t p => symtable_insert t p.1 p.2) (applyOps ops)) key =
      pairs.foldl (fun acc p => if p.1 = key then some p.2 else acc)
        (bst_find (applyOps ops) key) := by
  constructor
  · exact bst_find_insert_self _ key d (applyOps_ordered ops)
  · exact find_foldl_insert pairs _ key (applyOps_ordered ops)

/-- **C3.**  On any reachable symbol table, `delete(key)` succeeds (returns
`true`) exactly when a node with that key is present; after a successful
delete a subsequent `find(key)` reports absent while every other key still
maps to its previous record; and the helper `bst_replace_by_rightmost` used in
the two-children case transplants exactly the rightmost entry of the given
(left) subtree — the in-order predecessor — into the deleted node's place. -/
theorem claim_C3 (ops : List TableOp) (key : String) :
    ((symtable_delete (applyOps ops) key).isSome ↔ (bst_find (applyOps ops) key).isSome) ∧
    (∀ t1, symtable_delete (applyOps ops) key = some t1 →
      bst_find t1 key = none ∧
      ∀ key', key' ≠ key → bst_find t1 key' = bst_find (applyOps ops) key') ∧
    (∀ t : BSTNode, t ≠ .nil →
      ∃ k1 d1 t1, bst_replace_by_rightmost t = some (k1, d1, t1) ∧
        inorder t = inorder t1 ++ [(k1, d1)]) := by
  have ho := applyOps_ordered ops
  simp only [symtable_delete]
  refine ⟨?_, ?_, bst_rbr_inorder⟩
  · rw [Option.isSome_iff_ne_none, Option.isSome_iff_ne_none]
    exact not_congr ((bst_delete_none_iff _ key ho).trans (bst_find_none_iff _ key ho).symm)
  · intro t1 hdel
    have ho1 := ordered_bst_delete _ key t1 ho hdel
    have hio := bst_delete_some_inorder _ key t1 ho hdel
    constructor
    · rw [bst_find_none_iff _ _ ho1, hio]
      exact eraseKey_keys_ne _ _ ho
    · intro key' hne
      cases hf : bst_find (applyOps ops) key' with
      | some d' =>
        rw [bst_find_some_iff _ _ _ ho] at hf
        rw [bst_find_some_iff _ _ _ ho1, hio]
        exact mem_eraseKey_of_ne _ _ _ hf hne
      | none =>
        rw [bst_find_none_iff _ _ ho] at hf
        rw [bst_find_none_iff _ _ ho1, hio]
        intro p hp
        exact hf p (List.Sublist.subset (eraseKey_sublist _ _) hp)

/-- Witness for C3: on the table built by inserting `"b"` then `"a"`,
deleting `"a"` succeeds, afterwards `"a"` is absent while `"b"` is untouched,
and `bst_replace_by_rightmost` on a singleton returns its entry. -/
theorem claim_C3_witness :
    bst_find (BSTNode.node .nil "b" (symdata_create_func .funcSym 0) .nil 1) "a" = none ∧
    bst_find (BSTNode.node .nil "b" (symdata_create_func .funcSym 0) .nil 1) "b" =
      bst_find (applyOps [.ins "b" (symdata_create_func .funcSym 0),
        .ins "a" (symdata_create_var .tNull)]) "b" ∧
    (∃ k1 d1 t1, bst_replace_by_rightmost
        (BSTNode.node .nil "x" (symdata_create_var .tNull) .nil 1) = some (k1, d1, t1) ∧
      inorder (BSTNode.node .nil "x" (symdata_create_var .tNull) .nil 1) =
        inorder t1 ++ [(k1, d1)]) := by
  have h := claim_C3 [.ins "b" (symdata_create_func .funcSym 0),
    .ins "a" (symdata_create_var .tNull)] "a"
  refine ⟨?_, ?_, h.2.2 _ (by decide)⟩
  · exact (h.2.1 _ (by decide)).1
  · exact (h.2.1 _ (by decide)).2 "b" (by decide)

/-! ## Scanner lemmas -/

theorem scanWhile_buffer (cap : Nat) (p : Char → Bool) :
    ∀ (cs : List Char) (l col : Int) (pos : Nat) (acc : List Char),
    (scanWhile cap p cs l col pos acc).2.1 =
      acc ++ (cs.takeWhile p).take (cap - pos) := by
  intro cs
  induction cs with
  | nil => intro l col pos acc; simp [scanWhile]
  | cons c cs ih =>
    intro l col pos acc
    rw [scanWhile]
    by_cases hp : p c = true
    · rw [if_pos hp, List.takeWhile_cons_of_pos hp]
      by_cases hlt : pos < cap
      · rw [if_pos hlt, if_pos hlt, ih]
        have : cap - pos = (cap - (pos + 1)) + 1 := by omega
        rw [this, List.take_succ_cons, List.append_assoc, List.singleton_append]
      · rw [if_neg hlt, if_neg hlt, ih]
        have h0 : cap - pos = 0 := by omega
        have h1 : cap - (pos + 1) = 0 := by omega
        rw [h0]
        simp
    · rw [if_neg hp, List.takeWhile_cons_of_neg hp]
      simp

theorem scanWhile_input (cap : Nat) (p : Char → Bool) :
    ∀ (cs : List Char) (l col : Int) (pos : Nat) (acc : List Char),
    (scanWhile cap p cs l col pos acc).2.2.input = cs.dropWhile p := by
  intro cs
  induction cs with
  | nil => intro l col pos acc; simp [scanWhile]
  | cons c cs ih =>
    intro l col pos acc
    rw [scanWhile]
    by_cases hp : p c = true
    · rw [if_pos hp, List.dropWhile_cons_of_pos hp, ih]
    · rw [if_neg hp, List.dropWhile_cons_of_neg hp]

theorem keywords_tag (kw : String × TokenType) (hm : kw ∈ keywords) :
    kw.2 ≠ TokenType.TOKEN_GLOBAL_IDENTIFIER ∧ kw.2 ≠ TokenType.TOKEN_ERROR := by
  fin_cases hm <;> exact ⟨by decide, by decide⟩

theorem get_keyword_type_ne_global (s : String) :
    get_keyword_type s ≠ TokenType.TOKEN_GLOBAL_IDENTIFIER := by
  unfold get_keyword_type
  cases hf : keywords.find? (fun kw => kw.1 = s) with
  | none => exact fun h => TokenType.noConfusion h
  | some kw => exact (keywords_tag kw (List.mem_of_find?_eq_some hf)).1

theorem get_keyword_type_ne_error (s : String) :
    get_keyword_type s ≠ TokenType.TOKEN_ERROR := by
  unfold get_keyword_type
  cases hf : keywords.find? (fun kw => kw.1 = s) with
  | none => exact fun h => TokenType.noConfusion h
  | some kw => exact (keywords_tag kw (List.mem_of_find?_eq_some hf)).2

theorem read_identifier_type (st : SState) :
    ((read_identifier st).1.type = TokenType.TOKEN_GLOBAL_IDENTIFIER ↔
      (current st = '_' ∧ peek st = '_')) := by
  unfold read_identifier
  by_cases hg : current st = '_' ∧ peek st = '_'
  · rw [if_pos hg]
    exact iff_of_true rfl hg
  · rw [if_neg hg]
    by_cases hk : is_keyword (String.mk
        (scanWhile 255 identChar st.input st.line st.column 0 []).2.1) = true
    · rw [if_pos hk]
      exact iff_of_false (get_keyword_type_ne_global _) hg
    · rw [if_neg hk]
      exact iff_of_false (fun h => TokenType.noConfusion h) hg

theorem current_mk (c : Char) (cs : List Char) (l col : Int) :
    current ⟨c :: cs, l, col⟩ = c := rfl

theorem peek_mk (a b : Char) (cs : List Char) (l col : Int) :
    peek ⟨a :: b :: cs, l, col⟩ = b := rfl

theorem current_advance (st : SState) : current (advance st) = peek st := by
  obtain ⟨cs, l, col⟩ := st
  match cs with
  | [] => rfl
  | [c] => rfl
  | c :: c2 :: cs => rfl

theorem advance_input (st : SState) : (advance st).input = st.input.tail := by
  obtain ⟨cs, l, col⟩ := st
  cases cs with
  | nil => rfl
  | cons c cs => rfl

theorem ne_NUL_of_identChar (c : Char) (h : identChar c = true) : c ≠ NUL :=
  fun heq => absurd (heq ▸ h) (by decide)

theorem ne_NUL_of_digit (c : Char) (h : c_isdigit c = true) : c ≠ NUL :=
  fun heq => absurd (heq ▸ h) (by decide)

theorem ne_NUL_of_xdigit (c : Char) (h : c_isxdigit c = true) : c ≠ NUL :=
  fun heq => absurd (heq ▸ h) (by decide)

theorem takeWhile_ne_NUL : ∀ (l : List Char), (∀ c ∈ l, c ≠ NUL) →
    l.takeWhile (fun c => c != NUL) = l
  | [], _ => rfl
  | c :: cs, h => by
    have hc : (c != NUL) = true := bne_iff_ne.mpr (h c (List.mem_cons_self c cs))
    rw [List.takeWhile_cons, if_pos hc,
      takeWhile_ne_NUL cs (fun d hd => h d (List.mem_cons_of_mem c hd))]

/-- C7, counterexample: the scanner's global check looks only at the first
two characters, so the lexeme `___x` — three leading underscores, hence not
"exactly two" — is still tagged `TOKEN_GLOBAL_IDENTIFIER`. -/
theorem claim_C7_counterexample :
    (read_identifier ⟨"___x ".data, 1, 1⟩).1.type =
        TokenType.TOKEN_GLOBAL_IDENTIFIER ∧
    (read_identifier ⟨"___x ".data, 1, 1⟩).1.value = some "___x" ∧
    specTwoLeadingUnderscores "___x" = false := by
  refine ⟨by decide, by decide, by decide⟩

/-- C7 (amended): `read_identifier` tags a token `TOKEN_GLOBAL_IDENTIFIER`
exactly when the current and the peeked character are both `'_'` — i.e. when
the lexeme begins with AT LEAST two underscores; in that case the buffered
lexeme starts with two underscores, and otherwise the token is tagged
`TOKEN_IDENTIFIER` or re-tagged through the keyword table. -/
theorem claim_C7 (st : SState) :
    ((read_identifier st).1.type = TokenType.TOKEN_GLOBAL_IDENTIFIER ↔
      (current st = '_' ∧ peek st = '_')) ∧
    (current st = '_' ∧ peek st = '_' →
      ∃ rest, (read_identifier st).1.value =
        some (String.mk ('_' :: '_' :: rest))) ∧
    (¬ (current st = '_' ∧ peek st = '_') → ∀ v,
      (read_identifier st).1.value = some v →
      (read_identifier st).1.type =
        if is_keyword v then get_keyword_type v else TokenType.TOKEN_IDENTIFIER) := by
  refine ⟨read_identifier_type st, ?_, ?_⟩
  · intro hg
    unfold read_identifier
    rw [if_pos hg]
    refine ⟨(((advance (advance st)).input.takeWhile identChar).take
      (255 - 2)).takeWhile (fun c => c != NUL), ?_⟩
    show some (cstring (String.mk (scanWhile 255 identChar
      (advance (advance st)).input (advance (advance st)).line
      (advance (advance st)).column 2 [current st, current (advance st)]).2.1)) = _
    rw [scanWhile_buffer]
    rw [hg.1, current_advance, hg.2]
    rfl
  · intro hg v
    unfold read_identifier
    rw [if_neg hg]
    have hbuf : (scanWhile 255 identChar st.input st.line st.column 0 []).2.1 =
        (st.input.takeWhile identChar).take 255 := by
      rw [scanWhile_buffer]; rfl
    have hcol : ((st.input.takeWhile identChar).take 255).takeWhile
        (fun c => c != NUL) = (st.input.takeWhile identChar).take 255 :=
      takeWhile_ne_NUL _ (fun c hc => ne_NUL_of_identChar c
        (List.mem_takeWhile_imp (List.take_subset _ _ hc)))
    have hbufS : String.mk ((scanWhile 255 identChar st.input st.line
        st.column 0 []).2.1) = String.mk ((st.input.takeWhile identChar).take 255) := by
      rw [hbuf]
    by_cases hk : is_keyword (String.mk
        (scanWhile 255 identChar st.input st.line st.column 0 []).2.1) = true
    · rw [if_pos hk]
      intro hv
      have h0 : some (cstring (String.mk (scanWhile 255 identChar st.input
          st.line st.column 0 []).2.1)) = some v := hv
      rw [hbuf] at h0
      have hv' : v = String.mk ((st.input.takeWhile identChar).take 255) := by
        rw [← Option.some.inj h0]
        show String.mk (((st.input.takeWhile identChar).take 255).takeWhile
          (fun c => c != NUL)) = _
        rw [hcol]
      rw [hv', if_pos (show is_keyword (String.mk
        ((st.input.takeWhile identChar).take 255)) = true from hbufS ▸ hk)]
      show get_keyword_type (String.mk ((scanWhile 255 identChar st.input
        st.line st.column 0 []).2.1)) = _
      rw [hbufS]
    · rw [if_neg hk]
      intro hv
      have h0 : some (cstring (String.mk (scanWhile 255 identChar st.input
          st.line st.column 0 []).2.1)) = some v := hv
      rw [hbuf] at h0
      have hv' : v = String.mk ((st.input.takeWhile identChar).take 255) := by
        rw [← Option.some.inj h0]
        show String.mk (((st.input.takeWhile identChar).take 255).takeWhile
          (fun c => c != NUL)) = _
        rw [hcol]
      rw [hv', if_neg (show ¬ (is_keyword (String.mk
        ((st.input.takeWhile identChar).take 255)) = true) from
        fun hh => hk (hbufS ▸ hh))]
      rfl

theorem skipSpacesGo_nospace (c : Char) (cs : List Char) (l col : Int)
    (h : ¬ (c_isspace c = true ∧ c ≠ '\n')) :
    skipSpacesGo (c :: cs) l col = ⟨c :: cs, l, col⟩ := by
  rw [skipSpacesGo, if_neg h]

theorem skip_whitespaceGo_newline (fuel : Nat) (cs : List Char) (l col : Int) :
    skip_whitespaceGo fuel ⟨'\n' :: cs, l, col⟩ = ⟨'\n' :: cs, l, col⟩ := by
  cases fuel with
  | zero => rfl
  | succ fuel =>
    rw [skip_whitespaceGo]
    have h1 : skipSpacesGo ('\n' :: cs) l col = ⟨'\n' :: cs, l, col⟩ :=
      skipSpacesGo_nospace _ _ _ _ (by simp)
    simp only [h1]
    rw [if_neg (by simp [current])]

theorem skipLineCommentGo_run : ∀ (pre : List Char) (l col : Int)
    (post : List Char), '\n' ∉ pre → pre ≠ [] →
    skipLineCommentGo (pre ++ '\n' :: post) l col =
      ⟨post, stepLine post (l + 1), stepCol post 0⟩ := by
  intro pre
  induction pre with
  | nil => intro l col post _ hne; exact absurd rfl hne
  | cons c pre ih =>
    intro l col post hnotin _
    have hc : c ≠ '\n' := fun h => hnotin (h ▸ List.mem_cons_self c pre)
    rw [List.cons_append, skipLineCommentGo, if_neg hc]
    cases pre with
    | nil =>
      rw [List.nil_append, skipLineCommentGo, if_pos rfl]
      simp [advance, stepLine, stepCol]
    | cons d pre2 =>
      have hd : d ≠ '\n' := fun h => hnotin (h ▸ List.mem_cons_of_mem c
        (List.mem_cons_self d pre2))
      have hl : stepLine ((d :: pre2) ++ '\n' :: post) l = l := by
        simp [stepLine, hd]
      rw [hl]
      exact ih _ _ post (fun hm => hnotin (List.mem_cons_of_mem c hm))
        (List.cons_ne_nil d pre2)

/-- C8, counterexample: in `// c⏎x` the line break terminates a `//` comment
but is consumed inside `skip_whitespace`, so the token stream holds no
`TOKEN_EOL` at all — identifier `x` is followed directly by `TOKEN_EOF`. -/
theorem claim_C8_counterexample :
    (tokenize 50 "// c\nx".data).map Token.type =
        [TokenType.TOKEN_IDENTIFIER, TokenType.TOKEN_EOF] ∧
    ¬ TokenType.TOKEN_EOL ∈ (tokenize 50 "// c\nx".data).map Token.type ∧
    '\n' ∈ "// c\nx".data := by
  refine ⟨by decide, by decide, by decide⟩

/-- C8 (amended): a line break that is the current character when scanning
resumes does surface as a `TOKEN_EOL` token, but the line break terminating a
`//` comment is consumed together with the comment inside `skip_whitespace`
(the whole comment including its `'\n'` disappears before dispatch), so it
never surfaces. -/
theorem claim_C8 :
    (∀ (fuel : Nat) (cs : List Char) (l col : Int),
      get_next_token fuel ⟨'\n' :: cs, l, col⟩ =
        (create_token .TOKEN_EOL none l col, advance ⟨'\n' :: cs, l, col⟩)) ∧
    (∀ (fuel : Nat) (pre post : List Char) (l col : Int), '\n' ∉ pre →
      skip_whitespaceGo (fuel + 1) ⟨'/' :: '/' :: (pre ++ '\n' :: post), l, col⟩ =
        skip_whitespaceGo fuel (advance ⟨'\n' :: post, l + 1, 0⟩)) := by
  constructor
  · intro fuel cs l col
    rw [get_next_token]
    rw [if_neg (by simp [eof] : ¬ (eof ⟨'\n' :: cs, l, col⟩ = true))]
    simp only [skip_whitespace, skip_whitespaceGo_newline]
    rw [if_neg (by rw [current_mk]; decide : ¬ ((c_isalpha
        (current ⟨'\n' :: cs, l, col⟩) ||
      (current ⟨'\n' :: cs, l, col⟩ = '_')) = true))]
    rw [if_neg (by rw [current_mk]; decide : ¬ (c_isdigit
        (current ⟨'\n' :: cs, l, col⟩) = true))]
    rw [if_neg (by rw [current_mk]; decide : ¬ (current ⟨'\n' :: cs, l, col⟩ = '"'))]
    rw [if_pos (current_mk '\n' cs l col)]
    rw [if_neg (by simp [eof] : ¬ (eof ⟨'\n' :: cs, l, col⟩ = true))]
  · intro fuel pre post l col hpre
    have hnotin : '\n' ∉ ('/' :: '/' :: pre) := by
      simp [List.mem_cons, hpre]
    rw [skip_whitespaceGo]
    have h1 : skipSpacesGo ('/' :: '/' :: (pre ++ '\n' :: post)) l col =
        ⟨'/' :: '/' :: (pre ++ '\n' :: post), l, col⟩ :=
      skipSpacesGo_nospace _ _ _ _ (by decide)
    simp only [h1]
    rw [if_pos (current_mk '/' ('/' :: (pre ++ '\n' :: post)) l col)]
    rw [if_pos (peek_mk '/' '/' (pre ++ '\n' :: post) l col)]
    have hsplit : '/' :: '/' :: (pre ++ '\n' :: post) =
        ('/' :: '/' :: pre) ++ '\n' :: post := by simp
    rw [hsplit, skipLineCommentGo_run ('/' :: '/' :: pre) l col post hnotin
        (List.cons_ne_nil _ _)]
    rfl

theorem current_eq (st : SState) : current st = st.input.headD NUL := rfl

theorem takeWhile_identChar_replicate (n : Nat) :
    (List.replicate n 'a').takeWhile identChar = List.replicate n 'a' := by
  induction n with
  | zero => rfl
  | succ n ih =>
    rw [List.replicate_succ, List.takeWhile_cons_of_pos (by decide), ih]

theorem dropWhile_identChar_replicate (n : Nat) :
    (List.replicate n 'a').dropWhile identChar = [] := by
  induction n with
  | zero => rfl
  | succ n ih =>
    rw [List.replicate_succ, List.dropWhile_cons_of_pos (by decide), ih]

theorem take_replicate_of_le : ∀ (m n : Nat) (a : Char), m ≤ n →
    (List.replicate n a).take m = List.replicate m a := by
  intro m
  induction m with
  | zero => intro n a _; rfl
  | succ m ih =>
    intro n a h
    cases n with
    | zero => omega
    | succ n =>
      rw [List.replicate_succ, List.take_succ_cons, List.replicate_succ,
        ih n a (by omega)]

theorem peek_eq (st : SState) : peek st = st.input.tail.headD NUL := by
  obtain ⟨cs, l, col⟩ := st
  match cs with
  | [] => rfl
  | [c] => rfl
  | a :: b :: cs => rfl

theorem cstring_mk (l : List Char) :
    cstring (String.mk l) = String.mk (l.takeWhile (fun c => c != NUL)) := rfl

theorem create_token_value (t : TokenType) (s : String) (l c : Int) :
    (create_token t (some s) l c).value = some (cstring s) := rfl

theorem create_token_type (t : TokenType) (v : Option String) (l c : Int) :
    (create_token t v l c).type = t := rfl

theorem pos_append_one (cap : Nat) (L : List Char) (pos : Nat) (c : Char)
    (h1 : pos = min L.length cap) :
    (if pos < cap then pos + 1 else pos) = min (L ++ [c]).length cap := by
  have hlen : (L ++ [c]).length = L.length + 1 := by simp
  rw [hlen]
  split <;> omega

theorem take_append_one (cap : Nat) (L : List Char) (pos : Nat) (c : Char)
    (h1 : pos = min L.length cap) :
    (if pos < cap then L.take cap ++ [c] else L.take cap) = (L ++ [c]).take cap := by
  rw [List.take_append_eq_append_take]
  by_cases hlt : pos < cap
  · rw [if_pos hlt]
    obtain ⟨m, hm⟩ : ∃ m, cap - L.length = m + 1 := ⟨cap - L.length - 1, by omega⟩
    rw [hm]
    simp
  · rw [if_neg hlt]
    have h0 : cap - L.length = 0 := by omega
    rw [h0]
    simp

theorem pushCap_run (cap : Nat) (pos : Nat) (acc : List Char) (c : Char)
    (L : List Char) (h1 : pos = min L.length cap) (h2 : acc = L.take cap) :
    (pushCap cap pos acc c).1 = min (L ++ [c]).length cap ∧
    (pushCap cap pos acc c).2 = (L ++ [c]).take cap := by
  have ht := take_append_one cap L pos c h1
  have hp := pos_append_one cap L pos c h1
  unfold pushCap
  by_cases hlt : pos < cap
  · rw [if_pos hlt] at ht hp
    rw [if_pos hlt]
    exact ⟨hp, by rw [h2]; exact ht⟩
  · rw [if_neg hlt] at ht hp
    rw [if_neg hlt]
    exact ⟨hp, by rw [h2]; exact ht⟩

theorem scanWhile_run (cap : Nat) (p : Char → Bool) :
    ∀ (cs : List Char) (l col : Int) (pos : Nat) (acc L : List Char),
      pos = min L.length cap → acc = L.take cap →
      (scanWhile cap p cs l col pos acc).1 =
          min (L ++ cs.takeWhile p).length cap ∧
      (scanWhile cap p cs l col pos acc).2.1 = (L ++ cs.takeWhile p).take cap
  | [], l, col, pos, acc, L, h1, h2 => by
    rw [scanWhile]
    simp only [List.takeWhile_nil, List.append_nil]
    exact ⟨h1, h2⟩
  | c :: cs, l, col, pos, acc, L, h1, h2 => by
    rw [scanWhile]
    by_cases hp : p c = true
    · rw [if_pos hp]
      rw [h2, pos_append_one cap L pos c h1, take_append_one cap L pos c h1]
      obtain ⟨ih1, ih2⟩ := scanWhile_run cap p cs (stepLine cs l) (stepCol cs col)
        (min (L ++ [c]).length cap) ((L ++ [c]).take cap) (L ++ [c]) rfl rfl
      rw [List.takeWhile_cons, if_pos hp]
      constructor
      · rw [ih1, List.append_assoc]
        rfl
      · rw [ih2, List.append_assoc]
        rfl
    · rw [if_neg hp]
      rw [List.takeWhile_cons, if_neg hp]
      simp only [List.append_nil]
      exact ⟨h1, h2⟩

theorem specIdentLexeme_ne_NUL (cs : List Char) :
    ∀ c ∈ specIdentLexeme cs, c ≠ NUL := by
  intro c hc
  unfold specIdentLexeme at hc
  by_cases hg : cs.headD NUL = '_' ∧ cs.tail.headD NUL = '_'
  · rw [if_pos hg] at hc
    rcases List.mem_cons.mp hc with h | h
    · subst h; rw [hg.1]; decide
    · rcases List.mem_cons.mp h with h2 | h2
      · subst h2; rw [hg.2]; decide
      · exact ne_NUL_of_identChar c (List.mem_takeWhile_imp h2)
  · rw [if_neg hg] at hc
    exact ne_NUL_of_identChar c (List.mem_takeWhile_imp hc)

theorem specNumFrac_ne_NUL (r1 : List Char) : ∀ c ∈ specNumFrac r1, c ≠ NUL := by
  intro c hc
  unfold specNumFrac at hc
  by_cases hd : r1.headD NUL = '.'
  · rw [if_pos hd] at hc
    rcases List.mem_cons.mp hc with h | h
    · subst h; decide
    · exact ne_NUL_of_digit c (List.mem_takeWhile_imp h)
  · rw [if_neg hd] at hc
    exact absurd hc (List.not_mem_nil c)

theorem specNumExpo_ne_NUL (r2 : List Char) : ∀ c ∈ specNumExpo r2, c ≠ NUL := by
  intro c hc
  unfold specNumExpo at hc
  by_cases he : r2.headD NUL = 'e' ∨ r2.headD NUL = 'E'
  · rw [if_pos he] at hc
    by_cases hs : r2.tail.headD NUL = '+' ∨ r2.tail.headD NUL = '-'
    · rw [if_pos hs] at hc
      rcases List.mem_cons.mp hc with h | h
      · subst h; rcases he with he | he <;> rw [he] <;> decide
      · rcases List.mem_cons.mp h with h2 | h2
        · subst h2; rcases hs with hs | hs <;> rw [hs] <;> decide
        · exact ne_NUL_of_digit c (List.mem_takeWhile_imp h2)
    · rw [if_neg hs] at hc
      rcases List.mem_cons.mp hc with h | h
      · subst h; rcases he with he | he <;> rw [he] <;> decide
      · exact ne_NUL_of_digit c (List.mem_takeWhile_imp h)
  · rw [if_neg he] at hc
    exact absurd hc (List.not_mem_nil c)

theorem specNumLexeme_ne_NUL (cs : List Char) :
    ∀ c ∈ specNumLexeme cs, c ≠ NUL := by
  intro c hc
  unfold specNumLexeme at hc
  by_cases hx : cs.headD NUL = '0' ∧
      (cs.tail.headD NUL = 'x' ∨ cs.tail.headD NUL = 'X')
  · rw [if_pos hx] at hc
    rcases List.mem_cons.mp hc with h | h
    · subst h; rw [hx.1]; decide
    · rcases List.mem_cons.mp h with h2 | h2
      · subst h2; rcases hx.2 with hx2 | hx2 <;> rw [hx2] <;> decide
      · exact ne_NUL_of_xdigit c (List.mem_takeWhile_imp h2)
  · rw [if_neg hx] at hc
    rcases List.mem_append.mp hc with h | h
    · rcases List.mem_append.mp h with h2 | h2
      · exact ne_NUL_of_digit c (List.mem_takeWhile_imp h2)
      · exact specNumFrac_ne_NUL _ c h2
    · exact specNumExpo_ne_NUL _ c h

theorem read_identifier_full (st : SState) :
    (read_identifier st).1.value =
        some (String.mk ((specIdentLexeme st.input).take 255)) ∧
    (read_identifier st).2.input = specIdentRest st.input ∧
    (read_identifier st).1.type ≠ TokenType.TOKEN_ERROR := by
  have hmem : ∀ c ∈ (specIdentLexeme st.input).take 255, c ≠ NUL :=
    fun c hc => specIdentLexeme_ne_NUL st.input c (List.take_subset _ _ hc)
  unfold read_identifier
  by_cases hg : current st = '_' ∧ peek st = '_'
  · have hg' : st.input.headD NUL = '_' ∧ st.input.tail.headD NUL = '_' :=
      ⟨hg.1, by rw [← peek_eq]; exact hg.2⟩
    have hLex : specIdentLexeme st.input =
        [current st, current (advance st)] ++
          (advance (advance st)).input.takeWhile identChar := by
      unfold specIdentLexeme
      rw [if_pos hg', advance_input, advance_input, current_advance, peek_eq]
      rfl
    have hRest : specIdentRest st.input =
        (advance (advance st)).input.dropWhile identChar := by
      unfold specIdentRest
      rw [if_pos hg', advance_input, advance_input]
    rw [if_pos hg]
    obtain ⟨hs1, hs2⟩ := scanWhile_run 255 identChar (advance (advance st)).input
      (advance (advance st)).line (advance (advance st)).column 2
      [current st, current (advance st)] [current st, current (advance st)]
      (by norm_num) rfl
    refine ⟨?_, ?_, fun hEq => TokenType.noConfusion hEq⟩
    · show some (cstring (String.mk (scanWhile 255 identChar
        (advance (advance st)).input (advance (advance st)).line
        (advance (advance st)).column 2
        [current st, current (advance st)]).2.1)) = _
      rw [hs2, cstring_mk, hLex,
        takeWhile_ne_NUL _ (fun c hc => hmem c (by rw [hLex]; exact hc))]
    · show (scanWhile 255 identChar (advance (advance st)).input
        (advance (advance st)).line (advance (advance st)).column 2
        [current st, current (advance st)]).2.2.input = _
      rw [scanWhile_input, hRest]
  · have hg' : ¬ (st.input.headD NUL = '_' ∧ st.input.tail.headD NUL = '_') :=
      fun h => hg ⟨h.1, by rw [peek_eq]; exact h.2⟩
    have hLex : specIdentLexeme st.input = st.input.takeWhile identChar := by
      unfold specIdentLexeme
      rw [if_neg hg']
    have hRest : specIdentRest st.input = st.input.dropWhile identChar := by
      unfold specIdentRest
      rw [if_neg hg']
    rw [if_neg hg]
    obtain ⟨hs1, hs2⟩ := scanWhile_run 255 identChar st.input st.line st.column
      0 [] [] (by norm_num) rfl
    rw [List.nil_append] at hs2
    have hval : some (cstring (String.mk (scanWhile 255 identChar st.input
        st.line st.column 0 []).2.1)) =
        some (String.mk ((specIdentLexeme st.input).take 255)) := by
      rw [hs2, cstring_mk, hLex,
        takeWhile_ne_NUL _ (fun c hc => hmem c (by rw [hLex]; exact hc))]
    by_cases hk : is_keyword (String.mk
        (scanWhile 255 identChar st.input st.line st.column 0 []).2.1) = true
    · rw [if_pos hk]
      refine ⟨hval, ?_, get_keyword_type_ne_error _⟩
      show (scanWhile 255 identChar st.input st.line st.column 0 []).2.2.input = _
      rw [scanWhile_input, hRest]
    · rw [if_neg hk]
      refine ⟨hval, ?_, fun hEq => TokenType.noConfusion hEq⟩
      show (scanWhile 255 identChar st.input st.line st.column 0 []).2.2.input = _
      rw [scanWhile_input, hRest]

theorem numFracPhase_run (pos : Nat) (acc : List Char) (st1 : SState)
    (L : List Char) (h1 : pos = min L.length 255) (h2 : acc = L.take 255) :
    (numFracPhase pos acc st1).1 = specNumFracFlag st1.input ∧
    (numFracPhase pos acc st1).2.1 =
        min (L ++ specNumFrac st1.input).length 255 ∧
    (numFracPhase pos acc st1).2.2.1 = (L ++ specNumFrac st1.input).take 255 ∧
    (numFracPhase pos acc st1).2.2.2.input = specNumFracRest st1.input := by
  by_cases hd : current st1 = '.'
  · have hd' : st1.input.headD NUL = '.' := hd
    have hf : specNumFracFlag st1.input = true := by
      unfold specNumFracFlag
      rw [hd']
      decide
    have hfr : specNumFrac st1.input =
        '.' :: (advance st1).input.takeWhile c_isdigit := by
      unfold specNumFrac
      rw [if_pos hd', advance_input]
    have hre : specNumFracRest st1.input =
        (advance st1).input.dropWhile c_isdigit := by
      unfold specNumFracRest
      rw [if_pos hd', advance_input]
    unfold numFracPhase
    rw [if_pos hd]
    dsimp only []
    obtain ⟨hp1, hp2⟩ := pushCap_run 255 pos acc '.' L h1 h2
    rw [hp1, hp2]
    obtain ⟨hw1, hw2⟩ := scanWhile_run 255 c_isdigit (advance st1).input
      (advance st1).line (advance st1).column (min (L ++ ['.']).length 255)
      ((L ++ ['.']).take 255) (L ++ ['.']) rfl rfl
    refine ⟨by rw [hf], ?_, ?_, ?_⟩
    · rw [hw1, hfr, List.append_assoc]
      rfl
    · rw [hw2, hfr, List.append_assoc]
      rfl
    · rw [scanWhile_input, hre]
  · have hd' : ¬ (st1.input.headD NUL = '.') := hd
    have hf : specNumFracFlag st1.input = false := by
      unfold specNumFracFlag
      exact beq_eq_false_iff_ne.mpr hd'
    have hfr : specNumFrac st1.input = [] := by
      unfold specNumFrac
      rw [if_neg hd']
    have hre : specNumFracRest st1.input = st1.input := by
      unfold specNumFracRest
      rw [if_neg hd']
    unfold numFracPhase
    rw [if_neg hd]
    refine ⟨by rw [hf], ?_, ?_, by rw [hre]⟩
    · rw [hfr, List.append_nil]
      exact h1
    · rw [hfr, List.append_nil]
      exact h2

theorem numExpoPhase_run (pos : Nat) (acc : List Char) (st2 : SState)
    (L : List Char) (h1 : pos = min L.length 255) (h2 : acc = L.take 255) :
    (numExpoPhase pos acc st2).1 = specNumExpoFlag st2.input ∧
    (numExpoPhase pos acc st2).2.2.1 = (L ++ specNumExpo st2.input).take 255 ∧
    (numExpoPhase pos acc st2).2.2.2.input = specNumExpoRest st2.input := by
  by_cases he : current st2 = 'e' ∨ current st2 = 'E'
  · have he' : st2.input.headD NUL = 'e' ∨ st2.input.headD NUL = 'E' := he
    have hf : specNumExpoFlag st2.input = true := by
      unfold specNumExpoFlag
      rcases he' with h | h <;> rw [h] <;> decide
    unfold numExpoPhase
    rw [if_pos he]
    dsimp only []
    obtain ⟨hp1, hp2⟩ := pushCap_run 255 pos acc (current st2) L h1 h2
    rw [hp1, hp2]
    have e2 : current (advance st2) = st2.input.tail.headD NUL := by
      rw [current_advance, peek_eq]
    by_cases hs : current (advance st2) = '+' ∨ current (advance st2) = '-'
    · have hs' : st2.input.tail.headD NUL = '+' ∨
          st2.input.tail.headD NUL = '-' := by
        rw [← e2]
        exact hs
      rw [if_pos hs]
      dsimp only []
      obtain ⟨hq1, hq2⟩ := pushCap_run 255
        (min (L ++ [current st2]).length 255) ((L ++ [current st2]).take 255)
        (current (advance st2)) (L ++ [current st2]) rfl rfl
      rw [hq1, hq2]
      obtain ⟨hw1, hw2⟩ := scanWhile_run 255 c_isdigit
        (advance (advance st2)).input (advance (advance st2)).line
        (advance (advance st2)).column
        (min ((L ++ [current st2]) ++ [current (advance st2)]).length 255)
        (((L ++ [current st2]) ++ [current (advance st2)]).take 255)
        ((L ++ [current st2]) ++ [current (advance st2)]) rfl rfl
    
      have hx : specNumExpo st2.input = current st2 :: current (advance st2) ::
          (advance (advance st2)).input.takeWhile c_isdigit := by
        unfold specNumExpo
        rw [if_pos he', if_pos hs', advance_input, advance_input,
          current_advance, peek_eq]
        rfl
      have hxr : specNumExpoRest st2.input =
          (advance (advance st2)).input.dropWhile c_isdigit := by
        unfold specNumExpoRest
        rw [if_pos he', if_pos hs', advance_input, advance_input]
      refine ⟨by rw [hf], ?_, ?_⟩
      · rw [hw2, hx, List.append_assoc, List.append_assoc]
        rfl
      · rw [scanWhile_input, hxr]
    · have hs' : ¬ (st2.input.tail.headD NUL = '+' ∨
          st2.input.tail.headD NUL = '-') := by
        rw [← e2]
        exact hs
      rw [if_neg hs]
      dsimp only []
      rw [hp1, hp2]
      obtain ⟨hw1, hw2⟩ := scanWhile_run 255 c_isdigit
        (advance st2).input (advance st2).line (advance st2).column
        (min (L ++ [current st2]).length 255) ((L ++ [current st2]).take 255)
        (L ++ [current st2]) rfl rfl
      have hx : specNumExpo st2.input = current st2 ::
          (advance st2).input.takeWhile c_isdigit := by
        unfold specNumExpo
        rw [if_pos he', if_neg hs', advance_input]
        rfl
      have hxr : specNumExpoRest st2.input =
          (advance st2).input.dropWhile c_isdigit := by
        unfold specNumExpoRest
        rw [if_pos he', if_neg hs', advance_input]
      refine ⟨by rw [hf], ?_, ?_⟩
      · rw [hw2, hx, List.append_assoc]
        rfl
      · rw [scanWhile_input, hxr]
  · have he'' : ¬ (st2.input.headD NUL = 'e' ∨ st2.input.headD NUL = 'E') := he
    have hf : specNumExpoFlag st2.input = false := by
      unfold specNumExpoFlag
      have hne1 : st2.input.headD NUL ≠ 'e' := fun h => he'' (Or.inl h)
      have hne2 : st2.input.headD NUL ≠ 'E' := fun h => he'' (Or.inr h)
      rw [beq_eq_false_iff_ne.mpr hne1, beq_eq_false_iff_ne.mpr hne2]
      rfl
    have hx : specNumExpo st2.input = [] := by
      unfold specNumExpo
      rw [if_neg he'']
    have hxr : specNumExpoRest st2.input = st2.input := by
      unfold specNumExpoRest
      rw [if_neg he'']
    unfold numExpoPhase
    rw [if_neg he]
    refine ⟨by rw [hf], ?_, by rw [hxr]⟩
    · rw [hx, List.append_nil]
      exact h2

theorem read_number_full (st : SState) :
    (read_number st).1.value =
        some (String.mk ((specNumLexeme st.input).take 255)) ∧
    (read_number st).2.input = specNumRest st.input ∧
    (read_number st).1.type = (if specNumIsFloat st.input then
        TokenType.TOKEN_FLOAT_LITERAL else TokenType.TOKEN_INT_LITERAL) ∧
    (read_number st).1.type ≠ TokenType.TOKEN_ERROR := by
  have hmem : ∀ c ∈ (specNumLexeme st.input).take 255, c ≠ NUL :=
    fun c hc => specNumLexeme_ne_NUL st.input c (List.take_subset _ _ hc)
  unfold read_number
  by_cases hx : current st = '0' ∧ (peek st = 'x' ∨ peek st = 'X')
  · have hx' : st.input.headD NUL = '0' ∧
        (st.input.tail.headD NUL = 'x' ∨ st.input.tail.headD NUL = 'X') := by
      refine ⟨hx.1, ?_⟩
      have h := hx.2
      rw [peek_eq] at h
      exact h
    have hLex : specNumLexeme st.input =
        [current st, current (advance st)] ++
          (advance (advance st)).input.takeWhile c_isxdigit := by
      unfold specNumLexeme
      rw [if_pos hx', advance_input, advance_input, current_advance, peek_eq]
      rfl
    have hRest : specNumRest st.input =
        (advance (advance st)).input.dropWhile c_isxdigit := by
      unfold specNumRest
      rw [if_pos hx', advance_input, advance_input]
    have hFl : specNumIsFloat st.input = false := by
      unfold specNumIsFloat
      rw [if_pos hx']
    rw [if_pos hx]
    obtain ⟨hs1, hs2⟩ := scanWhile_run 255 c_isxdigit (advance (advance st)).input
      (advance (advance st)).line (advance (advance st)).column 2
      [current st, current (advance st)] [current st, current (advance st)]
      (by norm_num) rfl
    refine ⟨?_, ?_, ?_, fun hEq => TokenType.noConfusion hEq⟩
    · show some (cstring (String.mk (scanWhile 255 c_isxdigit
        (advance (advance st)).input (advance (advance st)).line
        (advance (advance st)).column 2
        [current st, current (advance st)]).2.1)) = _
      rw [hs2, cstring_mk, hLex,
        takeWhile_ne_NUL _ (fun c hc => hmem c (by rw [hLex]; exact hc))]
    · show (scanWhile 255 c_isxdigit (advance (advance st)).input
        (advance (advance st)).line (advance (advance st)).column 2
        [current st, current (advance st)]).2.2.input = _
      rw [scanWhile_input, hRest]
    · rw [hFl]
      rfl
  · have hx'' : ¬ (st.input.headD NUL = '0' ∧
        (st.input.tail.headD NUL = 'x' ∨ st.input.tail.headD NUL = 'X')) := by
      intro h
      exact hx ⟨h.1, by rw [peek_eq]; exact h.2⟩
    have hLex : specNumLexeme st.input = st.input.takeWhile c_isdigit ++
        specNumFrac (st.input.dropWhile c_isdigit) ++
        specNumExpo (specNumFracRest (st.input.dropWhile c_isdigit)) := by
      unfold specNumLexeme
      rw [if_neg hx'']
    have hRest : specNumRest st.input =
        specNumExpoRest (specNumFracRest (st.input.dropWhile c_isdigit)) := by
      unfold specNumRest
      rw [if_neg hx'']
    have hFl : specNumIsFloat st.input =
        (specNumFracFlag (st.input.dropWhile c_isdigit) ||
          specNumExpoFlag (specNumFracRest (st.input.dropWhile c_isdigit))) := by
      unfold specNumIsFloat
      rw [if_neg hx'']
    rw [if_neg hx]
    dsimp only []
    obtain ⟨ha1, ha2⟩ := scanWhile_run 255 c_isdigit st.input st.line st.column
      0 [] [] (by norm_num) rfl
    rw [List.nil_append] at ha1 ha2
    rw [ha1, ha2]
    generalize hq1 : (scanWhile 255 c_isdigit st.input st.line st.column 0 []).2.2 = st1
    have hst1 : st1.input = st.input.dropWhile c_isdigit := by
      rw [← hq1, scanWhile_input]
    obtain ⟨f1, f2, f3, f4⟩ := numFracPhase_run
      (min (st.input.takeWhile c_isdigit).length 255)
      ((st.input.takeWhile c_isdigit).take 255) st1
      (st.input.takeWhile c_isdigit) rfl rfl
    rw [f1, f2, f3]
    generalize hq2 : (numFracPhase (min (st.input.takeWhile c_isdigit).length 255)
      ((st.input.takeWhile c_isdigit).take 255) st1).2.2.2 = st2
    have hst2 : st2.input = specNumFracRest st1.input := by
      rw [← hq2, f4]
    obtain ⟨g1, g2, g3⟩ := numExpoPhase_run
      (min (st.input.takeWhile c_isdigit ++ specNumFrac st1.input).length 255)
      ((st.input.takeWhile c_isdigit ++ specNumFrac st1.input).take 255) st2
      (st.input.takeWhile c_isdigit ++ specNumFrac st1.input) rfl rfl
    rw [g1, g2, g3, hst2, hst1]
    refine ⟨?_, ?_, ?_, ?_⟩
    · rw [create_token_value, ← hLex, cstring_mk, takeWhile_ne_NUL _ hmem]
    · rw [hRest]
    · rw [create_token_type, hFl]
    · rw [create_token_type]
      split <;> exact fun hEq => TokenType.noConfusion hEq

theorem read_stringGo_spec (quote : Char) :
    ∀ (fuel : Nat) (st : SState) (pos : Nat) (acc L : List Char),
      pos = min L.length 1023 → acc = L.take 1023 →
      (read_stringGo quote fuel st pos acc).1 =
          min (L ++ (specStrGo quote fuel st).1).length 1023 ∧
      (read_stringGo quote fuel st pos acc).2.1 =
          (L ++ (specStrGo quote fuel st).1).take 1023 ∧
      (read_stringGo quote fuel st pos acc).2.2 = (specStrGo quote fuel st).2
  | 0, st, pos, acc, L, h1, h2 => by
    rw [read_stringGo, specStrGo]
    simp only [List.append_nil]
    exact ⟨h1, h2, trivial⟩
  | fuel + 1, st, pos, acc, L, h1, h2 => by
    rw [read_stringGo, specStrGo]
    by_cases hc : current st ≠ quote ∧ ¬ eof st = true
    · rw [if_pos hc, if_pos hc]
      by_cases hb : current st = '\\'
      · rw [if_pos hb, if_pos hb]
        dsimp only []
        obtain ⟨ih1, ih2, ih3⟩ := read_stringGo_spec quote fuel
          (read_escape_sequence st).2
          (if pos < 1023 then pos + 1 else pos)
          (if pos < 1023 then acc ++ [(read_escape_sequence st).1] else acc)
          (L ++ [(read_escape_sequence st).1])
          (pos_append_one 1023 L pos (read_escape_sequence st).1 h1)
          (by rw [h2]
              exact take_append_one 1023 L pos (read_escape_sequence st).1 h1)
        refine ⟨?_, ?_, ih3⟩
        · rw [ih1, List.append_assoc]
          rfl
        · rw [ih2, List.append_assoc]
          rfl
      · rw [if_neg hb, if_neg hb]
        by_cases hn : current st = '\n'
        · rw [if_pos hn, if_pos hn]
          simp only [List.append_nil]
          exact ⟨h1, h2, trivial⟩
        · rw [if_neg hn, if_neg hn]
          dsimp only []
          obtain ⟨ih1, ih2, ih3⟩ := read_stringGo_spec quote fuel (advance st)
            (if pos < 1023 then pos + 1 else pos)
            (if pos < 1023 then acc ++ [current st] else acc)
            (L ++ [current st])
            (pos_append_one 1023 L pos (current st) h1)
            (by rw [h2]
                exact take_append_one 1023 L pos (current st) h1)
          refine ⟨?_, ?_, ih3⟩
          · rw [ih1, List.append_assoc]
            rfl
          · rw [ih2, List.append_assoc]
            rfl
    · rw [if_neg hc, if_neg hc]
      simp only [List.append_nil]
      exact ⟨h1, h2, trivial⟩

theorem read_mlGo_spec :
    ∀ (fuel : Nat) (st : SState) (pos : Nat) (acc L : List Char),
      pos = min L.length 1023 → acc = L.take 1023 →
      (read_mlGo fuel st pos acc).1 =
          min (L ++ (specMlGo fuel st).1).length 1023 ∧
      (read_mlGo fuel st pos acc).2.1 =
          (L ++ (specMlGo fuel st).1).take 1023 ∧
      (read_mlGo fuel st pos acc).2.2 = (specMlGo fuel st).2
  | 0, st, pos, acc, L, h1, h2 => by
    rw [read_mlGo, specMlGo]
    simp only [List.append_nil]
    exact ⟨h1, h2, trivial⟩
  | fuel + 1, st, pos, acc, L, h1, h2 => by
    rw [read_mlGo, specMlGo]
    by_cases hc : ¬ eof st = true
    · rw [if_pos hc, if_pos hc]
      by_cases hq : current st = '"' ∧ peek st = '"' ∧ peek2 st = '"'
      · rw [if_pos hq, if_pos hq]
        simp only [List.append_nil]
        exact ⟨h1, h2, trivial⟩
      · rw [if_neg hq, if_neg hq]
        dsimp only []
        obtain ⟨ih1, ih2, ih3⟩ := read_mlGo_spec fuel (advance st)
          (if pos < 1023 then pos + 1 else pos)
          (if pos < 1023 then acc ++ [current st] else acc)
          (L ++ [current st])
          (pos_append_one 1023 L pos (current st) h1)
          (by rw [h2]
              exact take_append_one 1023 L pos (current st) h1)
        refine ⟨?_, ?_, ih3⟩
        · rw [ih1, List.append_assoc]
          rfl
        · rw [ih2, List.append_assoc]
          rfl
    · rw [if_neg hc, if_neg hc]
      simp only [List.append_nil]
      exact ⟨h1, h2, trivial⟩

theorem read_string_full (fuel : Nat) (st : SState) :
    (read_string fuel st).1.value = some (String.mk
        (((specStrContent fuel st).take 1023).takeWhile (fun c => c != NUL))) ∧
    (read_string fuel st).2 = specStrEnd fuel st ∧
    (read_string fuel st).1.type =
        (if current st = '"' ∧ peek st = '"' ∧ peek2 st = '"' then
          TokenType.TOKEN_MULTILINE_STRING_LITERAL
        else TokenType.TOKEN_STRING_LITERAL) ∧
    (read_string fuel st).1.type ≠ TokenType.TOKEN_ERROR := by
  unfold read_string specStrContent specStrEnd
  by_cases hq : current st = '"' ∧ peek st = '"' ∧ peek2 st = '"'
  · rw [if_pos hq, if_pos hq, if_pos hq, if_pos hq]
    dsimp only []
    obtain ⟨m1, m2, m3⟩ := read_mlGo_spec fuel (advance (advance st)) 0 [] []
      (by norm_num) rfl
    rw [List.nil_append] at m2
    refine ⟨?_, m3, rfl, fun hEq => TokenType.noConfusion hEq⟩
    rw [create_token_value, m2, cstring_mk]
  · rw [if_neg hq, if_neg hq, if_neg hq, if_neg hq]
    dsimp only []
    obtain ⟨s1, s2, s3⟩ := read_stringGo_spec (current st) fuel (advance st) 0 [] []
      (by norm_num) rfl
    rw [List.nil_append] at s2
    refine ⟨?_, ?_, rfl, fun hEq => TokenType.noConfusion hEq⟩
    · rw [create_token_value, s2, cstring_mk]
    · rw [s3]

theorem specStrGo_run : ∀ (body rest : List Char) (l col : Int) (fuel : Nat),
    '"' ∉ body → '\\' ∉ body → '\n' ∉ body → body.length ≤ fuel →
    (specStrGo '"' fuel ⟨body ++ '"' :: rest, l, col⟩).1 = body ∧
    (specStrGo '"' fuel ⟨body ++ '"' :: rest, l, col⟩).2.input = '"' :: rest := by
  intro body
  induction body with
  | nil =>
    intro rest l col fuel _ _ _ _
    cases fuel with
    | zero => exact ⟨rfl, rfl⟩
    | succ fuel =>
      rw [List.nil_append, specStrGo, if_neg (fun h => h.1 rfl)]
      exact ⟨rfl, rfl⟩
  | cons c body ih =>
    intro rest l col fuel hq hb hn hf
    have hcq : c ≠ '"' := fun heq => hq (heq ▸ List.mem_cons_self c body)
    have hcb : c ≠ '\\' := fun heq => hb (heq ▸ List.mem_cons_self c body)
    have hcn : c ≠ '\n' := fun heq => hn (heq ▸ List.mem_cons_self c body)
    cases fuel with
    | zero => exact absurd hf (by simp)
    | succ fuel =>
      rw [List.cons_append, specStrGo]
      rw [if_pos ⟨by rw [current_mk]; exact hcq, by simp [eof]⟩]
      rw [if_neg (by rw [current_mk]; exact hcb)]
      rw [if_neg (by rw [current_mk]; exact hcn)]
      dsimp only []
      have hadv : advance ⟨c :: (body ++ '"' :: rest), l, col⟩ =
          ⟨body ++ '"' :: rest, stepLine (body ++ '"' :: rest) l,
            stepCol (body ++ '"' :: rest) col⟩ := rfl
      rw [current_mk, hadv]
      obtain ⟨i1, i2⟩ := ih rest (stepLine (body ++ '"' :: rest) l)
        (stepCol (body ++ '"' :: rest) col) fuel
        (fun hm => hq (List.mem_cons_of_mem c hm))
        (fun hm => hb (List.mem_cons_of_mem c hm))
        (fun hm => hn (List.mem_cons_of_mem c hm))
        (by simpa using Nat.le_of_succ_le_succ hf)
      exact ⟨by rw [i1], i2⟩

theorem escape_x00 (R : List Char) (l col : Int) :
    read_escape_sequence ⟨'\\' :: 'x' :: '0' :: '0' :: R, l, col⟩ =
      (NUL, ⟨R, stepLine R l, stepCol R (col + 1 + 1 + 1)⟩) := rfl

/-- C10 (amended): the scanner's token payloads are capped copies of the
full lexeme.  For every scanner state, `read_identifier` (the global `__`
branch included) returns the full identifier lexeme truncated to its first
255 characters; `read_number` (hexadecimal, plain-integer and float forms
with fraction, exponent and sign alike) returns the full number lexeme
truncated to 255 characters, tagged int/float exactly as the uncapped
traversal; `read_string` (escape processing and multiline strings included)
returns the full processed content truncated to its first 1023 characters
AND further cut at the first embedded NUL (a `\x00` escape): `create_token`
copies the buffer with `strcpy`.  In every case the entire lexeme is
consumed (the scanner ends exactly where the uncapped traversal ends) and
no error token is produced.  Concretely, 300 `a`s lex to a 255-`a`
identifier token with the input fully consumed. -/
theorem claim_C10 :
    (∀ st : SState,
      (read_identifier st).1.value =
          some (String.mk ((specIdentLexeme st.input).take 255)) ∧
      (read_identifier st).2.input = specIdentRest st.input ∧
      (read_identifier st).1.type ≠ TokenType.TOKEN_ERROR) ∧
    (∀ st : SState,
      (read_number st).1.value =
          some (String.mk ((specNumLexeme st.input).take 255)) ∧
      (read_number st).2.input = specNumRest st.input ∧
      (read_number st).1.type = (if specNumIsFloat st.input then
          TokenType.TOKEN_FLOAT_LITERAL else TokenType.TOKEN_INT_LITERAL) ∧
      (read_number st).1.type ≠ TokenType.TOKEN_ERROR) ∧
    (∀ (fuel : Nat) (st : SState),
      (read_string fuel st).1.value = some (String.mk
          (((specStrContent fuel st).take 1023).takeWhile (fun c => c != NUL))) ∧
      (read_string fuel st).2 = specStrEnd fuel st ∧
      (read_string fuel st).1.type ≠ TokenType.TOKEN_ERROR) ∧
    ((read_identifier ⟨List.replicate 300 'a', 1, 1⟩).1.value =
        some (String.mk (List.replicate 255 'a')) ∧
      (read_identifier ⟨List.replicate 300 'a', 1, 1⟩).2.input = []) := by
  refine ⟨read_identifier_full, read_number_full,
    fun fuel st => ⟨(read_string_full fuel st).1, (read_string_full fuel st).2.1,
      (read_string_full fuel st).2.2.2⟩, ?_, ?_⟩
  · have h := (read_identifier_full ⟨List.replicate 300 'a', 1, 1⟩).1
    dsimp only [] at h
    have hs : specIdentLexeme (List.replicate 300 'a') = List.replicate 300 'a' := by
      unfold specIdentLexeme
      rw [if_neg (by decide), takeWhile_identChar_replicate]
    rw [hs, take_replicate_of_le 255 300 'a' (by omega)] at h
    exact h
  · have h := (read_identifier_full ⟨List.replicate 300 'a', 1, 1⟩).2.1
    dsimp only [] at h
    have hr : specIdentRest (List.replicate 300 'a') = [] := by
      unfold specIdentRest
      rw [if_neg (by decide), dropWhile_identChar_replicate]
    rw [hr] at h
    exact h

theorem claim_C10_witness :
    ((read_string 8 ⟨['"', '\\', 'n', 'a', '"', 'x'], 1, 1⟩).1.value =
      some (String.mk (((specStrContent 8
        ⟨['"', '\\', 'n', 'a', '"', 'x'], 1, 1⟩).take 1023).takeWhile
          (fun c => c != NUL)))) ∧
    (read_string 8 ⟨['"', '\\', 'n', 'a', '"', 'x'], 1, 1⟩).1.value =
      some (String.mk ['\n', 'a']) ∧
    (read_number ⟨['0', 'x', 'f', 'f', '.'], 1, 1⟩).1.value = some "0xff" ∧
    (read_number ⟨['1', '.', '5', 'e', '+', '2', ' '], 1, 1⟩).1.type =
      TokenType.TOKEN_FLOAT_LITERAL :=
  ⟨(claim_C10.2.2.1 8 ⟨['"', '\\', 'n', 'a', '"', 'x'], 1, 1⟩).1,
    by decide, by decide, by decide⟩

set_option maxRecDepth 100000 in
/-- C10, counterexample to the frozen wording: the string literal opening
with a `\x00` escape and then 1100 `a`s has a processed content of 1101
characters (beyond the 1023 cap), yet its token payload is the empty
string — not the first 1023 characters of the processed content — because
`create_token`'s `strcpy` stops at the embedded NUL.  The lexeme is still
consumed entirely and no error token is produced. -/
theorem claim_C10_counterexample :
    1023 < (specStrContent 1200 ⟨c10src, 1, 1⟩).length ∧
    (read_string 1200 ⟨c10src, 1, 1⟩).1.value = some "" ∧
    (read_string 1200 ⟨c10src, 1, 1⟩).1.value ≠
      some (String.mk ((specStrContent 1200 ⟨c10src, 1, 1⟩).take 1023)) ∧
    (read_string 1200 ⟨c10src, 1, 1⟩).1.type = TokenType.TOKEN_STRING_LITERAL ∧
    (read_string 1200 ⟨c10src, 1, 1⟩).2.input = [] := by
  have hguard : ¬ (current ⟨c10src, 1, 1⟩ = '"' ∧ peek ⟨c10src, 1, 1⟩ = '"' ∧
      peek2 ⟨c10src, 1, 1⟩ = '"') := by
    intro h
    have h2 := h.2.1
    rw [show peek ⟨c10src, 1, 1⟩ = '\\' from rfl] at h2
    exact absurd h2 (by decide)
  have hrun : (specStrGo '"' 1200 (advance ⟨c10src, 1, 1⟩)).1 =
      NUL :: List.replicate 1100 'a' ∧
      (specStrGo '"' 1200 (advance ⟨c10src, 1, 1⟩)).2.input = ['"'] := by
    have hadv : advance ⟨c10src, 1, 1⟩ =
        ⟨'\\' :: 'x' :: '0' :: '0' :: (List.replicate 1100 'a' ++ ['"']),
          1, 2⟩ := rfl
    rw [hadv]
    rw [show (1200 : Nat) = 1199 + 1 from rfl]
    rw [specStrGo]
    rw [if_pos ⟨fun hh => absurd hh (by decide), fun hh => absurd hh (by decide)⟩]
    rw [if_pos (show current ⟨'\\' :: 'x' :: '0' :: '0' ::
      (List.replicate 1100 'a' ++ ['"']), 1, 2⟩ = '\\' from rfl)]
    dsimp only []
    rw [escape_x00]
    dsimp only []
    obtain ⟨r1, r2⟩ := specStrGo_run (List.replicate 1100 'a') []
      (stepLine (List.replicate 1100 'a' ++ ['"']) 1)
      (stepCol (List.replicate 1100 'a' ++ ['"']) (2 + 1 + 1 + 1)) 1199
      (fun h => absurd ((List.mem_replicate.mp h).2) (by decide))
      (fun h => absurd ((List.mem_replicate.mp h).2) (by decide))
      (fun h => absurd ((List.mem_replicate.mp h).2) (by decide))
      (by rw [List.length_replicate]; omega)
    exact ⟨by rw [r1], r2⟩
  have hcontent : specStrContent 1200 ⟨c10src, 1, 1⟩ =
      NUL :: List.replicate 1100 'a' := by
    unfold specStrContent
    rw [if_neg hguard, show current ⟨c10src, 1, 1⟩ = '"' from rfl]
    exact hrun.1
  obtain ⟨v1, v2, v3, v4⟩ := read_string_full 1200 ⟨c10src, 1, 1⟩
  rw [hcontent, show (1023 : Nat) = 1022 + 1 from rfl, List.take_succ_cons,
    List.takeWhile_cons, if_neg (by decide)] at v1
  have hend : (specStrEnd 1200 ⟨c10src, 1, 1⟩).input = [] := by
    unfold specStrEnd
    rw [if_neg hguard]
    dsimp only []
    rw [show current ⟨c10src, 1, 1⟩ = '"' from rfl]
    rw [if_pos (by rw [current_eq, hrun.2]; rfl)]
    rw [advance_input, hrun.2]
    rfl
  refine ⟨?_, v1, ?_, ?_, ?_⟩
  · rw [hcontent, List.length_cons, List.length_replicate]
    omega
  · rw [v1, hcontent, show (1023 : Nat) = 1022 + 1 from rfl, List.take_succ_cons]
    intro h
    have h2 := congrArg String.data (Option.some.inj h)
    exact List.noConfusion h2
  · rw [v3, if_neg hguard]
  · rw [v2]
    exact hend

theorem claim_C7_witness :
    (∃ rest, (read_identifier ⟨"__g ".data, 1, 1⟩).1.value =
        some (String.mk ('_' :: '_' :: rest))) ∧
    (read_identifier ⟨"ab ".data, 1, 1⟩).1.type =
      (if is_keyword "ab" then get_keyword_type "ab"
        else TokenType.TOKEN_IDENTIFIER) :=
  ⟨(claim_C7 ⟨"__g ".data, 1, 1⟩).2.1 (by decide),
    (claim_C7 ⟨"ab ".data, 1, 1⟩).2.2 (by decide) "ab" (by decide)⟩

theorem claim_C8_witness :
    get_next_token 5 ⟨'\n' :: ['x'], 2, 0⟩ =
      (create_token .TOKEN_EOL none 2 0, advance ⟨'\n' :: ['x'], 2, 0⟩) ∧
    ('\n' : Char) ∉ [' ', 'c'] ∧
    skip_whitespaceGo (3 + 1) ⟨'/' :: '/' :: ([' ', 'c'] ++ '\n' :: ['x']), 1, 0⟩ =
      skip_whitespaceGo 3 (advance ⟨'\n' :: ['x'], 1 + 1, 0⟩) :=
  ⟨claim_C8.1 5 ['x'] 2 0, by decide,
    claim_C8.2 3 [' ', 'c'] ['x'] 1 0 (by decide)⟩

/-! ## The error-latch evolution relation

`Evo p q` records everything the claims need about how one parser step moves
the latch: a set latch is kept verbatim (flag and code), a clear latch at the
end means the code never moved, and the code only ever becomes one of the
codes `parser.c` actually passes to `error` — in particular never
`SEMANTIC_ARG_COUNT`. -/
def Evo (p q : PState) : Prop :=
  (p.had_error = true → q.had_error = true ∧ q.error_code = p.error_code) ∧
  (q.had_error = false → q.error_code = p.error_code) ∧
  (q.error_code = p.error_code ∨ q.error_code = SYNTAX_ERROR ∨
    q.error_code = SEMANTIC_UNDEFINED ∨ q.error_code = SEMANTIC_REDEFINITION ∨
    q.error_code = SEMANTIC_OTHER ∨ q.error_code = INTERNAL_ERROR)

theorem evo_rfl (p : PState) : Evo p p :=
  ⟨fun h => ⟨h, rfl⟩, fun _ => rfl, Or.inl rfl⟩

theorem evo_trans {p q r : PState} (h1 : Evo p q) (h2 : Evo q r) : Evo p r := by
  obtain ⟨a1, b1, c1⟩ := h1
  obtain ⟨a2, b2, c2⟩ := h2
  refine ⟨?_, ?_, ?_⟩
  · intro hp
    obtain ⟨hq, hqc⟩ := a1 hp
    obtain ⟨hr, hrc⟩ := a2 hq
    exact ⟨hr, hrc.trans hqc⟩
  · intro hr
    have hq : q.had_error = false := by
      cases hqe : q.had_error with
      | false => rfl
      | true => exact absurd (a2 hqe).1 (by rw [hr]; exact fun h => Bool.noConfusion h)
    exact (b2 hr).trans (b1 hq)
  · rcases c2 with h | h
    · rw [h]; exact c1
    · exact Or.inr h

theorem evo_untouched {p q : PState} (hhe : q.had_error = p.had_error)
    (hc : q.error_code = p.error_code) : Evo p q :=
  ⟨fun h => ⟨hhe.trans h, hc⟩, fun _ => hc, Or.inl hc⟩

theorem evo_error (code : Int) (message : String) (p : PState)
    (hcode : code = SYNTAX_ERROR ∨ code = SEMANTIC_UNDEFINED ∨
      code = SEMANTIC_REDEFINITION ∨ code = SEMANTIC_OTHER ∨
      code = INTERNAL_ERROR) :
    Evo p (error code message p) := by
  unfold error
  cases hpe : p.had_error with
  | true =>
    rw [if_pos rfl]
    exact evo_untouched rfl rfl
  | false =>
    rw [if_neg (fun h => Bool.noConfusion h)]
    refine ⟨fun h => absurd (hpe.symm.trans h) (fun hc => Bool.noConfusion hc),
      fun h => absurd h (fun hc => Bool.noConfusion hc), ?_⟩
    exact Or.inr hcode

theorem evo_emit (s : String) (p : PState) : Evo p (emit s p) :=
  evo_untouched rfl rfl

theorem evo_next (p : PState) : Evo p (next_token p) := by
  unfold next_token
  cases p.tokens with
  | nil => exact evo_rfl p
  | cons t ts => exact evo_untouched rfl rfl

theorem evo_expect (p : PState) (type : TokenType) : Evo p (expect p type).2 := by
  unfold expect
  split
  · exact evo_rfl p
  · exact evo_error _ _ _ (Or.inl rfl)

theorem evo_upd_global (q : PState) (x : BSTNode) :
    Evo q { q with global_table := x } := evo_untouched rfl rfl

theorem evo_upd_local (q : PState) (x : BSTNode) :
    Evo q { q with local_table := x } := evo_untouched rfl rfl

theorem evo_upd_tok (q : PState) (t : Token) :
    Evo q { q with current_token := t } := evo_untouched rfl rfl

theorem evo_upd_ctx (q : PState) (a : Option String) (b : Bool) (c : Nat) :
    Evo q { q with
      current_function := a, in_function := b, function_param_count := c } :=
  evo_untouched rfl rfl

theorem evo_upd_out (q : PState) (o : List String) :
    Evo q { q with output := o } := evo_untouched rfl rfl

theorem evo_generate_label (q : PState) : Evo q (generate_label q).2 :=
  evo_untouched rfl rfl

theorem evo_generate_temp_var (q : PState) : Evo q (generate_temp_var q).2 :=
  evo_untouched rfl rfl

theorem evo_generate_prolog (q : PState) : Evo q (generate_prolog q) :=
  evo_trans (evo_emit _ _) (evo_emit _ _)

theorem evo_generate_epilog (q : PState) : Evo q (generate_epilog q) := by
  unfold generate_epilog
  split
  · exact evo_error _ _ _ (Or.inr (Or.inl rfl))
  · exact evo_trans (evo_emit _ _) (evo_emit _ _)

section

attribute [local irreducible] emit error next_token expect accept generate_label
  generate_temp_var generate_prolog generate_epilog

theorem evo_generate_function_prolog (name : String) (n : Nat) (q : PState) :
    Evo q (generate_function_prolog name n q) := by
  unfold generate_function_prolog
  dsimp only
  refine evo_trans ?_ (evo_upd_out _ _)
  exact evo_trans (evo_trans (evo_emit _ _) (evo_emit _ _)) (evo_emit _ _)

theorem evo_generate_function_epilog (q : PState) :
    Evo q (generate_function_epilog q) := by
  unfold generate_function_epilog
  dsimp only
  split
  · exact evo_trans (evo_trans (evo_emit _ _) (evo_emit _ _)) (evo_emit _ _)
  · exact evo_trans (evo_emit _ _) (evo_emit _ _)

theorem evo_generate_var_declaration (name : String) (g : Bool) (q : PState) :
    Evo q (generate_var_declaration name g q) := by
  unfold generate_var_declaration
  split <;> exact evo_trans (evo_emit _ _) (evo_emit _ _)

theorem evo_generate_assignment (name : String) (g : Bool) (q : PState) :
    Evo q (generate_assignment name g q) := by
  unfold generate_assignment
  split <;> exact evo_emit _ _

theorem evo_generate_binary_op (op : TokenType) (q : PState) :
    Evo q (generate_binary_op op q) := by
  unfold generate_binary_op
  dsimp only
  split <;>
    first
    | exact evo_trans (evo_generate_temp_var _) (evo_emit _ _)
    | exact evo_trans (evo_generate_temp_var _) (evo_error _ _ _ (by decide))

theorem evo_generate_relational_op (op : TokenType) (q : PState) :
    Evo q (generate_relational_op op q) := by
  unfold generate_relational_op
  dsimp only
  split <;>
    repeat
      first
      | exact evo_generate_temp_var _
      | exact evo_trans (evo_generate_temp_var _) (evo_error _ _ _ (by decide))
      | refine evo_trans ?_ (evo_emit _ _)

theorem evo_generate_is_op (ty : TokenType) (q : PState) :
    Evo q (generate_is_op ty q) := by
  unfold generate_is_op
  dsimp only
  split <;>
    repeat
      first
      | exact evo_generate_temp_var _
      | refine evo_trans ?_ (evo_error _ _ _ (by decide))
      | refine evo_trans ?_ (evo_emit _ _)

theorem evo_generate_function_call (name : String) (q : PState) (b : Bool) :
    Evo q (generate_function_call name q b) := by
  unfold generate_function_call
  split <;> exact evo_emit _ _

attribute [local irreducible] generate_function_prolog generate_function_epilog
  generate_var_declaration generate_assignment generate_binary_op
  generate_relational_op generate_is_op generate_function_call

theorem evo_parse_params_loop (fuel : Nat) : ∀ (count : Nat) (p : PState),
    Evo p (parse_params_loop fuel count p).2 := by
  induction fuel with
  | zero => intro count p; exact evo_rfl p
  | succ fuel ih =>
    intro count p
    rw [parse_params_loop]
    dsimp only
    repeat' split
    all_goals
      repeat
        first
        | exact evo_rfl _
        | exact ih _ _
        | refine evo_trans ?_ (ih _ _)
        | refine evo_trans ?_ (evo_next _)
        | refine evo_trans ?_ (evo_expect _ _)

theorem evo_parse_prolog (p : PState) : Evo p (parse_prolog p) := by
  unfold parse_prolog
  dsimp only
  repeat' split
  all_goals
    repeat
      first
      | exact evo_rfl _
      | refine evo_trans ?_ (evo_next _)
      | refine evo_trans ?_ (evo_expect _ _)
      | refine evo_trans ?_ (evo_error _ _ _ (by decide))

theorem evo_parse_class (p : PState) : Evo p (parse_class p) := by
  unfold parse_class
  dsimp only
  repeat' split
  all_goals
    repeat
      first
      | exact evo_rfl _
      | refine evo_trans ?_ (evo_next _)
      | refine evo_trans ?_ (evo_expect _ _)
      | refine evo_trans ?_ (evo_error _ _ _ (by decide))

theorem evo_parse_var_declaration (p : PState) : Evo p (parse_var_declaration p) := by
  unfold parse_var_declaration
  dsimp only
  repeat' split
  all_goals
    repeat
      first
      | exact evo_rfl _
      | refine evo_trans ?_ (evo_next _)
      | refine evo_trans ?_ (evo_expect _ _)
      | refine evo_trans ?_ (evo_error _ _ _ (by decide))
      | refine evo_trans ?_ (evo_generate_var_declaration _ _ _)
      | fail_if_no_progress refine evo_trans ?_ (evo_upd_local _ _)

set_option maxHeartbeats 3200000 in
/-- Every grammar function respects the latch evolution `Evo`, by one mutual
induction on the fuel. -/
theorem evo_mutual : ∀ fuel : Nat,
    (∀ p, Evo p (parse_fd_loop fuel p)) ∧
    (∀ p, Evo p (parse_function fuel p)) ∧
    (∀ name pr, Evo pr.2 (parse_function_tail fuel name pr)) ∧
    (∀ name p, Evo p (parse_getter fuel name p)) ∧
    (∀ name p, Evo p (parse_setter fuel name p)) ∧
    (∀ p, Evo p (parse_stmts_loop fuel p).2) ∧
    (∀ p, Evo p (parse_block fuel p)) ∧
    (∀ p, Evo p (parse_statement fuel p)) ∧
    (∀ p, Evo p (parse_assignment fuel p)) ∧
    (∀ choose p, Evo p (parse_assignment_after fuel choose p)) ∧
    (∀ p, Evo p (parse_if_statement fuel p)) ∧
    (∀ p, Evo p (parse_while_statement fuel p)) ∧
    (∀ p, Evo p (parse_return fuel p)) ∧
    (∀ count p, Evo p (parse_args_loop fuel count p).2) ∧
    (∀ name p, Evo p (parse_function_call fuel name p)) ∧
    (∀ p, Evo p (parse_expression fuel p)) ∧
    (∀ p, Evo p (parse_is_expression fuel p)) ∧
    (∀ p, Evo p (parse_relation_loop fuel p)) ∧
    (∀ p, Evo p (parse_relation fuel p)) ∧
    (∀ p, Evo p (parse_simple_loop fuel p)) ∧
    (∀ p, Evo p (parse_simple_expression fuel p)) ∧
    (∀ p, Evo p (parse_term_loop fuel p)) ∧
    (∀ p, Evo p (parse_term fuel p)) ∧
    (∀ p, Evo p (parse_factor fuel p)) := by
  intro fuel
  induction fuel with
  | zero =>
    exact ⟨fun p => evo_rfl p, fun p => evo_rfl p, fun _ pr => evo_rfl pr.2,
      fun _ p => evo_rfl p, fun _ p => evo_rfl p, fun p => evo_rfl p,
      fun p => evo_rfl p, fun p => evo_rfl p, fun p => evo_rfl p,
      fun _ p => evo_rfl p, fun p => evo_rfl p, fun p => evo_rfl p,
      fun p => evo_rfl p, fun _ p => evo_rfl p, fun _ p => evo_rfl p,
      fun p => evo_rfl p, fun p => evo_rfl p, fun p => evo_rfl p,
      fun p => evo_rfl p, fun p => evo_rfl p, fun p => evo_rfl p,
      fun p => evo_rfl p, fun p => evo_rfl p, fun p => evo_rfl p⟩
  | succ fuel ih =>
    obtain ⟨ih_fd, ih_fn, ih_fnt, ih_get, ih_set, ih_sl, ih_blk, ih_st, ih_asgn,
      ih_asa, ih_if, ih_wh, ih_ret, ih_args, ih_call, ih_expr, ih_isx, ih_rell,
      ih_rel, ih_sil, ih_sie, ih_tl, ih_tm, ih_fac⟩ := ih
    refine ⟨?_, ?_, ?_, ?_, ?_, ?_, ?_, ?_, ?_, ?_, ?_, ?_, ?_, ?_, ?_, ?_, ?_, ?_, ?_, ?_, ?_, ?_, ?_, ?_⟩
    · intro p
      rw [parse_fd_loop]
      try dsimp only
      repeat' split
      all_goals
        repeat
          first
          | exact evo_rfl _
          | refine evo_trans ?_ (ih_fd _)
          | refine evo_trans ?_ (ih_fn _)
          | refine evo_trans ?_ (ih_fnt _ _)
          | refine evo_trans ?_ (ih_get _ _)
          | refine evo_trans ?_ (ih_set _ _)
          | refine evo_trans ?_ (ih_sl _)
          | refine evo_trans ?_ (ih_blk _)
          | refine evo_trans ?_ (ih_st _)
          | refine evo_trans ?_ (ih_asgn _)
          | refine evo_trans ?_ (ih_asa _ _)
          | refine evo_trans ?_ (ih_if _)
          | refine evo_trans ?_ (ih_wh _)
          | refine evo_trans ?_ (ih_ret _)
          | refine evo_trans ?_ (ih_args _ _)
          | refine evo_trans ?_ (ih_call _ _)
          | refine evo_trans ?_ (ih_expr _)
          | refine evo_trans ?_ (ih_isx _)
          | refine evo_trans ?_ (ih_rell _)
          | refine evo_trans ?_ (ih_rel _)
          | refine evo_trans ?_ (ih_sil _)
          | refine evo_trans ?_ (ih_sie _)
          | refine evo_trans ?_ (ih_tl _)
          | refine evo_trans ?_ (ih_tm _)
          | refine evo_trans ?_ (ih_fac _)
          | refine evo_trans ?_ (evo_parse_var_declaration _)
          | refine evo_trans ?_ (evo_parse_params_loop _ _ _)
          | refine evo_trans ?_ (evo_next _)
          | refine evo_trans ?_ (evo_expect _ _)
          | refine evo_trans ?_ (evo_emit _ _)
          | refine evo_trans ?_ (evo_error _ _ _ (by decide))
          | refine evo_trans ?_ (evo_generate_function_prolog _ _ _)
          | refine evo_trans ?_ (evo_generate_function_epilog _)
          | refine evo_trans ?_ (evo_generate_var_declaration _ _ _)
          | refine evo_trans ?_ (evo_generate_assignment _ _ _)
          | refine evo_trans ?_ (evo_generate_binary_op _ _)
          | refine evo_trans ?_ (evo_generate_relational_op _ _)
          | refine evo_trans ?_ (evo_generate_is_op _ _)
          | refine evo_trans ?_ (evo_generate_function_call _ _ _)
          | refine evo_trans ?_ (evo_generate_label _)
          | refine evo_trans ?_ (evo_generate_temp_var _)
          | fail_if_no_progress refine evo_trans ?_ (evo_upd_global _ _)
          | fail_if_no_progress refine evo_trans ?_ (evo_upd_local _ _)
          | fail_if_no_progress refine evo_trans ?_ (evo_upd_tok _ _)
          | fail_if_no_progress refine evo_trans ?_ (evo_upd_ctx _ _ _ _)
          | dsimp only
    · intro p
      rw [parse_function]
      try dsimp only
      repeat' split
      all_goals
        repeat
          first
          | exact evo_rfl _
          | refine evo_trans ?_ (ih_fd _)
          | refine evo_trans ?_ (ih_fn _)
          | refine evo_trans ?_ (ih_fnt _ _)
          | refine evo_trans ?_ (ih_get _ _)
          | refine evo_trans ?_ (ih_set _ _)
          | refine evo_trans ?_ (ih_sl _)
          | refine evo_trans ?_ (ih_blk _)
          | refine evo_trans ?_ (ih_st _)
          | refine evo_trans ?_ (ih_asgn _)
          | refine evo_trans ?_ (ih_asa _ _)
          | refine evo_trans ?_ (ih_if _)
          | refine evo_trans ?_ (ih_wh _)
          | refine evo_trans ?_ (ih_ret _)
          | refine evo_trans ?_ (ih_args _ _)
          | refine evo_trans ?_ (ih_call _ _)
          | refine evo_trans ?_ (ih_expr _)
          | refine evo_trans ?_ (ih_isx _)
          | refine evo_trans ?_ (ih_rell _)
          | refine evo_trans ?_ (ih_rel _)
          | refine evo_trans ?_ (ih_sil _)
          | refine evo_trans ?_ (ih_sie _)
          | refine evo_trans ?_ (ih_tl _)
          | refine evo_trans ?_ (ih_tm _)
          | refine evo_trans ?_ (ih_fac _)
          | refine evo_trans ?_ (evo_parse_var_declaration _)
          | refine evo_trans ?_ (evo_parse_params_loop _ _ _)
          | refine evo_trans ?_ (evo_next _)
          | refine evo_trans ?_ (evo_expect _ _)
          | refine evo_trans ?_ (evo_emit _ _)
          | refine evo_trans ?_ (evo_error _ _ _ (by decide))
          | refine evo_trans ?_ (evo_generate_function_prolog _ _ _)
          | refine evo_trans ?_ (evo_generate_function_epilog _)
          | refine evo_trans ?_ (evo_generate_var_declaration _ _ _)
          | refine evo_trans ?_ (evo_generate_assignment _ _ _)
          | refine evo_trans ?_ (evo_generate_binary_op _ _)
          | refine evo_trans ?_ (evo_generate_relational_op _ _)
          | refine evo_trans ?_ (evo_generate_is_op _ _)
          | refine evo_trans ?_ (evo_generate_function_call _ _ _)
          | refine evo_trans ?_ (evo_generate_label _)
          | refine evo_trans ?_ (evo_generate_temp_var _)
          | fail_if_no_progress refine evo_trans ?_ (evo_upd_global _ _)
          | fail_if_no_progress refine evo_trans ?_ (evo_upd_local _ _)
          | fail_if_no_progress refine evo_trans ?_ (evo_upd_tok _ _)
          | fail_if_no_progress refine evo_trans ?_ (evo_upd_ctx _ _ _ _)
          | dsimp only
    · intro name pr
      obtain ⟨pc, pst⟩ := pr
      cases pc with
      | none => exact evo_rfl pst
      | some param_count =>
        rw [parse_function_tail]
        dsimp only
        repeat' split
        all_goals
          repeat
            first
            | exact evo_rfl _
            | refine evo_trans ?_ (ih_fd _)
            | refine evo_trans ?_ (ih_fn _)
            | refine evo_trans ?_ (ih_fnt _ _)
            | refine evo_trans ?_ (ih_get _ _)
            | refine evo_trans ?_ (ih_set _ _)
            | refine evo_trans ?_ (ih_sl _)
            | refine evo_trans ?_ (ih_blk _)
            | refine evo_trans ?_ (ih_st _)
            | refine evo_trans ?_ (ih_asgn _)
            | refine evo_trans ?_ (ih_asa _ _)
            | refine evo_trans ?_ (ih_if _)
            | refine evo_trans ?_ (ih_wh _)
            | refine evo_trans ?_ (ih_ret _)
            | refine evo_trans ?_ (ih_args _ _)
            | refine evo_trans ?_ (ih_call _ _)
            | refine evo_trans ?_ (ih_expr _)
            | refine evo_trans ?_ (ih_isx _)
            | refine evo_trans ?_ (ih_rell _)
            | refine evo_trans ?_ (ih_rel _)
            | refine evo_trans ?_ (ih_sil _)
            | refine evo_trans ?_ (ih_sie _)
            | refine evo_trans ?_ (ih_tl _)
            | refine evo_trans ?_ (ih_tm _)
            | refine evo_trans ?_ (ih_fac _)
            | refine evo_trans ?_ (evo_parse_var_declaration _)
            | refine evo_trans ?_ (evo_parse_params_loop _ _ _)
            | refine evo_trans ?_ (evo_next _)
            | refine evo_trans ?_ (evo_expect _ _)
            | refine evo_trans ?_ (evo_emit _ _)
            | refine evo_trans ?_ (evo_error _ _ _ (by decide))
            | refine evo_trans ?_ (evo_generate_function_prolog _ _ _)
            | refine evo_trans ?_ (evo_generate_function_epilog _)
            | refine evo_trans ?_ (evo_generate_var_declaration _ _ _)
            | refine evo_trans ?_ (evo_generate_assignment _ _ _)
            | refine evo_trans ?_ (evo_generate_binary_op _ _)
            | refine evo_trans ?_ (evo_generate_relational_op _ _)
            | refine evo_trans ?_ (evo_generate_is_op _ _)
            | refine evo_trans ?_ (evo_generate_function_call _ _ _)
            | refine evo_trans ?_ (evo_generate_label _)
            | refine evo_trans ?_ (evo_generate_temp_var _)
            | fail_if_no_progress refine evo_trans ?_ (evo_upd_global _ _)
            | fail_if_no_progress refine evo_trans ?_ (evo_upd_local _ _)
            | fail_if_no_progress refine evo_trans ?_ (evo_upd_tok _ _)
            | fail_if_no_progress refine evo_trans ?_ (evo_upd_ctx _ _ _ _)
            | dsimp only
    · intro name p
      rw [parse_getter]
      try dsimp only
      repeat' split
      all_goals
        repeat
          first
          | exact evo_rfl _
          | refine evo_trans ?_ (ih_fd _)
          | refine evo_trans ?_ (ih_fn _)
          | refine evo_trans ?_ (ih_fnt _ _)
          | refine evo_trans ?_ (ih_get _ _)
          | refine evo_trans ?_ (ih_set _ _)
          | refine evo_trans ?_ (ih_sl _)
          | refine evo_trans ?_ (ih_blk _)
          | refine evo_trans ?_ (ih_st _)
          | refine evo_trans ?_ (ih_asgn _)
          | refine evo_trans ?_ (ih_asa _ _)
          | refine evo_trans ?_ (ih_if _)
          | refine evo_trans ?_ (ih_wh _)
          | refine evo_trans ?_ (ih_ret _)
          | refine evo_trans ?_ (ih_args _ _)
          | refine evo_trans ?_ (ih_call _ _)
          | refine evo_trans ?_ (ih_expr _)
          | refine evo_trans ?_ (ih_isx _)
          | refine evo_trans ?_ (ih_rell _)
          | refine evo_trans ?_ (ih_rel _)
          | refine evo_trans ?_ (ih_sil _)
          | refine evo_trans ?_ (ih_sie _)
          | refine evo_trans ?_ (ih_tl _)
          | refine evo_trans ?_ (ih_tm _)
          | refine evo_trans ?_ (ih_fac _)
          | refine evo_trans ?_ (evo_parse_var_declaration _)
          | refine evo_trans ?_ (evo_parse_params_loop _ _ _)
          | refine evo_trans ?_ (evo_next _)
          | refine evo_trans ?_ (evo_expect _ _)
          | refine evo_trans ?_ (evo_emit _ _)
          | refine evo_trans ?_ (evo_error _ _ _ (by decide))
          | refine evo_trans ?_ (evo_generate_function_prolog _ _ _)
          | refine evo_trans ?_ (evo_generate_function_epilog _)
          | refine evo_trans ?_ (evo_generate_var_declaration _ _ _)
          | refine evo_trans ?_ (evo_generate_assignment _ _ _)
          | refine evo_trans ?_ (evo_generate_binary_op _ _)
          | refine evo_trans ?_ (evo_generate_relational_op _ _)
          | refine evo_trans ?_ (evo_generate_is_op _ _)
          | refine evo_trans ?_ (evo_generate_function_call _ _ _)
          | refine evo_trans ?_ (evo_generate_label _)
          | refine evo_trans ?_ (evo_generate_temp_var _)
          | fail_if_no_progress refine evo_trans ?_ (evo_upd_global _ _)
          | fail_if_no_progress refine evo_trans ?_ (evo_upd_local _ _)
          | fail_if_no_progress refine evo_trans ?_ (evo_upd_tok _ _)
          | fail_if_no_progress refine evo_trans ?_ (evo_upd_ctx _ _ _ _)
          | dsimp only
    · intro name p
      rw [parse_setter]
      try dsimp only
      repeat' split
      all_goals
        repeat
          first
          | exact evo_rfl _
          | refine evo_trans ?_ (ih_fd _)
          | refine evo_trans ?_ (ih_fn _)
          | refine evo_trans ?_ (ih_fnt _ _)
          | refine evo_trans ?_ (ih_get _ _)
          | refine evo_trans ?_ (ih_set _ _)
          | refine evo_trans ?_ (ih_sl _)
          | refine evo_trans ?_ (ih_blk _)
          | refine evo_trans ?_ (ih_st _)
          | refine evo_trans ?_ (ih_asgn _)
          | refine evo_trans ?_ (ih_asa _ _)
          | refine evo_trans ?_ (ih_if _)
          | refine evo_trans ?_ (ih_wh _)
          | refine evo_trans ?_ (ih_ret _)
          | refine evo_trans ?_ (ih_args _ _)
          | refine evo_trans ?_ (ih_call _ _)
          | refine evo_trans ?_ (ih_expr _)
          | refine evo_trans ?_ (ih_isx _)
          | refine evo_trans ?_ (ih_rell _)
          | refine evo_trans ?_ (ih_rel _)
          | refine evo_trans ?_ (ih_sil _)
          | refine evo_trans ?_ (ih_sie _)
          | refine evo_trans ?_ (ih_tl _)
          | refine evo_trans ?_ (ih_tm _)
          | refine evo_trans ?_ (ih_fac _)
          | refine evo_trans ?_ (evo_parse_var_declaration _)
          | refine evo_trans ?_ (evo_parse_params_loop _ _ _)
          | refine evo_trans ?_ (evo_next _)
          | refine evo_trans ?_ (evo_expect _ _)
          | refine evo_trans ?_ (evo_emit _ _)
          | refine evo_trans ?_ (evo_error _ _ _ (by decide))
          | refine evo_trans ?_ (evo_generate_function_prolog _ _ _)
          | refine evo_trans ?_ (evo_generate_function_epilog _)
          | refine evo_trans ?_ (evo_generate_var_declaration _ _ _)
          | refine evo_trans ?_ (evo_generate_assignment _ _ _)
          | refine evo_trans ?_ (evo_generate_binary_op _ _)
          | refine evo_trans ?_ (evo_generate_relational_op _ _)
          | refine evo_trans ?_ (evo_generate_is_op _ _)
          | refine evo_trans ?_ (evo_generate_function_call _ _ _)
          | refine evo_trans ?_ (evo_generate_label _)
          | refine evo_trans ?_ (evo_generate_temp_var _)
          | fail_if_no_progress refine evo_trans ?_ (evo_upd_global _ _)
          | fail_if_no_progress refine evo_trans ?_ (evo_upd_local _ _)
          | fail_if_no_progress refine evo_trans ?_ (evo_upd_tok _ _)
          | fail_if_no_progress refine evo_trans ?_ (evo_upd_ctx _ _ _ _)
          | dsimp only
    · intro p
      rw [parse_stmts_loop]
      try dsimp only
      repeat' split
      all_goals
        repeat
          first
          | exact evo_rfl _
          | refine evo_trans ?_ (ih_fd _)
          | refine evo_trans ?_ (ih_fn _)
          | refine evo_trans ?_ (ih_fnt _ _)
          | refine evo_trans ?_ (ih_get _ _)
          | refine evo_trans ?_ (ih_set _ _)
          | refine evo_trans ?_ (ih_sl _)
          | refine evo_trans ?_ (ih_blk _)
          | refine evo_trans ?_ (ih_st _)
          | refine evo_trans ?_ (ih_asgn _)
          | refine evo_trans ?_ (ih_asa _ _)
          | refine evo_trans ?_ (ih_if _)
          | refine evo_trans ?_ (ih_wh _)
          | refine evo_trans ?_ (ih_ret _)
          | refine evo_trans ?_ (ih_args _ _)
          | refine evo_trans ?_ (ih_call _ _)
          | refine evo_trans ?_ (ih_expr _)
          | refine evo_trans ?_ (ih_isx _)
          | refine evo_trans ?_ (ih_rell _)
          | refine evo_trans ?_ (ih_rel _)
          | refine evo_trans ?_ (ih_sil _)
          | refine evo_trans ?_ (ih_sie _)
          | refine evo_trans ?_ (ih_tl _)
          | refine evo_trans ?_ (ih_tm _)
          | refine evo_trans ?_ (ih_fac _)
          | refine evo_trans ?_ (evo_parse_var_declaration _)
          | refine evo_trans ?_ (evo_parse_params_loop _ _ _)
          | refine evo_trans ?_ (evo_next _)
          | refine evo_trans ?_ (evo_expect _ _)
          | refine evo_trans ?_ (evo_emit _ _)
          | refine evo_trans ?_ (evo_error _ _ _ (by decide))
          | refine evo_trans ?_ (evo_generate_function_prolog _ _ _)
          | refine evo_trans ?_ (evo_generate_function_epilog _)
          | refine evo_trans ?_ (evo_generate_var_declaration _ _ _)
          | refine evo_trans ?_ (evo_generate_assignment _ _ _)
          | refine evo_trans ?_ (evo_generate_binary_op _ _)
          | refine evo_trans ?_ (evo_generate_relational_op _ _)
          | refine evo_trans ?_ (evo_generate_is_op _ _)
          | refine evo_trans ?_ (evo_generate_function_call _ _ _)
          | refine evo_trans ?_ (evo_generate_label _)
          | refine evo_trans ?_ (evo_generate_temp_var _)
          | fail_if_no_progress refine evo_trans ?_ (evo_upd_global _ _)
          | fail_if_no_progress refine evo_trans ?_ (evo_upd_local _ _)
          | fail_if_no_progress refine evo_trans ?_ (evo_upd_tok _ _)
          | fail_if_no_progress refine evo_trans ?_ (evo_upd_ctx _ _ _ _)
          | dsimp only
    · intro p
      rw [parse_block]
      try dsimp only
      repeat' split
      all_goals
        repeat
          first
          | exact evo_rfl _
          | refine evo_trans ?_ (ih_fd _)
          | refine evo_trans ?_ (ih_fn _)
          | refine evo_trans ?_ (ih_fnt _ _)
          | refine evo_trans ?_ (ih_get _ _)
          | refine evo_trans ?_ (ih_set _ _)
          | refine evo_trans ?_ (ih_sl _)
          | refine evo_trans ?_ (ih_blk _)
          | refine evo_trans ?_ (ih_st _)
          | refine evo_trans ?_ (ih_asgn _)
          | refine evo_trans ?_ (ih_asa _ _)
          | refine evo_trans ?_ (ih_if _)
          | refine evo_trans ?_ (ih_wh _)
          | refine evo_trans ?_ (ih_ret _)
          | refine evo_trans ?_ (ih_args _ _)
          | refine evo_trans ?_ (ih_call _ _)
          | refine evo_trans ?_ (ih_expr _)
          | refine evo_trans ?_ (ih_isx _)
          | refine evo_trans ?_ (ih_rell _)
          | refine evo_trans ?_ (ih_rel _)
          | refine evo_trans ?_ (ih_sil _)
          | refine evo_trans ?_ (ih_sie _)
          | refine evo_trans ?_ (ih_tl _)
          | refine evo_trans ?_ (ih_tm _)
          | refine evo_trans ?_ (ih_fac _)
          | refine evo_trans ?_ (evo_parse_var_declaration _)
          | refine evo_trans ?_ (evo_parse_params_loop _ _ _)
          | refine evo_trans ?_ (evo_next _)
          | refine evo_trans ?_ (evo_expect _ _)
          | refine evo_trans ?_ (evo_emit _ _)
          | refine evo_trans ?_ (evo_error _ _ _ (by decide))
          | refine evo_trans ?_ (evo_generate_function_prolog _ _ _)
          | refine evo_trans ?_ (evo_generate_function_epilog _)
          | refine evo_trans ?_ (evo_generate_var_declaration _ _ _)
          | refine evo_trans ?_ (evo_generate_assignment _ _ _)
          | refine evo_trans ?_ (evo_generate_binary_op _ _)
          | refine evo_trans ?_ (evo_generate_relational_op _ _)
          | refine evo_trans ?_ (evo_generate_is_op _ _)
          | refine evo_trans ?_ (evo_generate_function_call _ _ _)
          | refine evo_trans ?_ (evo_generate_label _)
          | refine evo_trans ?_ (evo_generate_temp_var _)
          | fail_if_no_progress refine evo_trans ?_ (evo_upd_global _ _)
          | fail_if_no_progress refine evo_trans ?_ (evo_upd_local _ _)
          | fail_if_no_progress refine evo_trans ?_ (evo_upd_tok _ _)
          | fail_if_no_progress refine evo_trans ?_ (evo_upd_ctx _ _ _ _)
          | dsimp only
    · intro p
      rw [parse_statement]
      try dsimp only
      repeat' split
      all_goals
        repeat
          first
          | exact evo_rfl _
          | refine evo_trans ?_ (ih_fd _)
          | refine evo_trans ?_ (ih_fn _)
          | refine evo_trans ?_ (ih_fnt _ _)
          | refine evo_trans ?_ (ih_get _ _)
          | refine evo_trans ?_ (ih_set _ _)
          | refine evo_trans ?_ (ih_sl _)
          | refine evo_trans ?_ (ih_blk _)
          | refine evo_trans ?_ (ih_st _)
          | refine evo_trans ?_ (ih_asgn _)
          | refine evo_trans ?_ (ih_asa _ _)
          | refine evo_trans ?_ (ih_if _)
          | refine evo_trans ?_ (ih_wh _)
          | refine evo_trans ?_ (ih_ret _)
          | refine evo_trans ?_ (ih_args _ _)
          | refine evo_trans ?_ (ih_call _ _)
          | refine evo_trans ?_ (ih_expr _)
          | refine evo_trans ?_ (ih_isx _)
          | refine evo_trans ?_ (ih_rell _)
          | refine evo_trans ?_ (ih_rel _)
          | refine evo_trans ?_ (ih_sil _)
          | refine evo_trans ?_ (ih_sie _)
          | refine evo_trans ?_ (ih_tl _)
          | refine evo_trans ?_ (ih_tm _)
          | refine evo_trans ?_ (ih_fac _)
          | refine evo_trans ?_ (evo_parse_var_declaration _)
          | refine evo_trans ?_ (evo_parse_params_loop _ _ _)
          | refine evo_trans ?_ (evo_next _)
          | refine evo_trans ?_ (evo_expect _ _)
          | refine evo_trans ?_ (evo_emit _ _)
          | refine evo_trans ?_ (evo_error _ _ _ (by decide))
          | refine evo_trans ?_ (evo_generate_function_prolog _ _ _)
          | refine evo_trans ?_ (evo_generate_function_epilog _)
          | refine evo_trans ?_ (evo_generate_var_declaration _ _ _)
          | refine evo_trans ?_ (evo_generate_assignment _ _ _)
          | refine evo_trans ?_ (evo_generate_binary_op _ _)
          | refine evo_trans ?_ (evo_generate_relational_op _ _)
          | refine evo_trans ?_ (evo_generate_is_op _ _)
          | refine evo_trans ?_ (evo_generate_function_call _ _ _)
          | refine evo_trans ?_ (evo_generate_label _)
          | refine evo_trans ?_ (evo_generate_temp_var _)
          | fail_if_no_progress refine evo_trans ?_ (evo_upd_global _ _)
          | fail_if_no_progress refine evo_trans ?_ (evo_upd_local _ _)
          | fail_if_no_progress refine evo_trans ?_ (evo_upd_tok _ _)
          | fail_if_no_progress refine evo_trans ?_ (evo_upd_ctx _ _ _ _)
          | dsimp only
    · intro p
      rw [parse_assignment]
      try dsimp only
      repeat' split
      all_goals
        repeat
          first
          | exact evo_rfl _
          | refine evo_trans ?_ (ih_fd _)
          | refine evo_trans ?_ (ih_fn _)
          | refine evo_trans ?_ (ih_fnt _ _)
          | refine evo_trans ?_ (ih_get _ _)
          | refine evo_trans ?_ (ih_set _ _)
          | refine evo_trans ?_ (ih_sl _)
          | refine evo_trans ?_ (ih_blk _)
          | refine evo_trans ?_ (ih_st _)
          | refine evo_trans ?_ (ih_asgn _)
          | refine evo_trans ?_ (ih_asa _ _)
          | refine evo_trans ?_ (ih_if _)
          | refine evo_trans ?_ (ih_wh _)
          | refine evo_trans ?_ (ih_ret _)
          | refine evo_trans ?_ (ih_args _ _)
          | refine evo_trans ?_ (ih_call _ _)
          | refine evo_trans ?_ (ih_expr _)
          | refine evo_trans ?_ (ih_isx _)
          | refine evo_trans ?_ (ih_rell _)
          | refine evo_trans ?_ (ih_rel _)
          | refine evo_trans ?_ (ih_sil _)
          | refine evo_trans ?_ (ih_sie _)
          | refine evo_trans ?_ (ih_tl _)
          | refine evo_trans ?_ (ih_tm _)
          | refine evo_trans ?_ (ih_fac _)
          | refine evo_trans ?_ (evo_parse_var_declaration _)
          | refine evo_trans ?_ (evo_parse_params_loop _ _ _)
          | refine evo_trans ?_ (evo_next _)
          | refine evo_trans ?_ (evo_expect _ _)
          | refine evo_trans ?_ (evo_emit _ _)
          | refine evo_trans ?_ (evo_error _ _ _ (by decide))
          | refine evo_trans ?_ (evo_generate_function_prolog _ _ _)
          | refine evo_trans ?_ (evo_generate_function_epilog _)
          | refine evo_trans ?_ (evo_generate_var_declaration _ _ _)
          | refine evo_trans ?_ (evo_generate_assignment _ _ _)
          | refine evo_trans ?_ (evo_generate_binary_op _ _)
          | refine evo_trans ?_ (evo_generate_relational_op _ _)
          | refine evo_trans ?_ (evo_generate_is_op _ _)
          | refine evo_trans ?_ (evo_generate_function_call _ _ _)
          | refine evo_trans ?_ (evo_generate_label _)
          | refine evo_trans ?_ (evo_generate_temp_var _)
          | fail_if_no_progress refine evo_trans ?_ (evo_upd_global _ _)
          | fail_if_no_progress refine evo_trans ?_ (evo_upd_local _ _)
          | fail_if_no_progress refine evo_trans ?_ (evo_upd_tok _ _)
          | fail_if_no_progress refine evo_trans ?_ (evo_upd_ctx _ _ _ _)
          | dsimp only
    · intro choose p
      cases choose with
      | none =>
        rw [parse_assignment_after]
        exact evo_error _ _ _ (by decide)
      | some vb =>
        obtain ⟨var_name, is_global⟩ := vb
        rw [parse_assignment_after]
        dsimp only
        repeat' split
        all_goals
          repeat
            first
            | exact evo_rfl _
            | refine evo_trans ?_ (ih_fd _)
            | refine evo_trans ?_ (ih_fn _)
            | refine evo_trans ?_ (ih_fnt _ _)
            | refine evo_trans ?_ (ih_get _ _)
            | refine evo_trans ?_ (ih_set _ _)
            | refine evo_trans ?_ (ih_sl _)
            | refine evo_trans ?_ (ih_blk _)
            | refine evo_trans ?_ (ih_st _)
            | refine evo_trans ?_ (ih_asgn _)
            | refine evo_trans ?_ (ih_asa _ _)
            | refine evo_trans ?_ (ih_if _)
            | refine evo_trans ?_ (ih_wh _)
            | refine evo_trans ?_ (ih_ret _)
            | refine evo_trans ?_ (ih_args _ _)
            | refine evo_trans ?_ (ih_call _ _)
            | refine evo_trans ?_ (ih_expr _)
            | refine evo_trans ?_ (ih_isx _)
            | refine evo_trans ?_ (ih_rell _)
            | refine evo_trans ?_ (ih_rel _)
            | refine evo_trans ?_ (ih_sil _)
            | refine evo_trans ?_ (ih_sie _)
            | refine evo_trans ?_ (ih_tl _)
            | refine evo_trans ?_ (ih_tm _)
            | refine evo_trans ?_ (ih_fac _)
            | refine evo_trans ?_ (evo_parse_var_declaration _)
            | refine evo_trans ?_ (evo_parse_params_loop _ _ _)
            | refine evo_trans ?_ (evo_next _)
            | refine evo_trans ?_ (evo_expect _ _)
            | refine evo_trans ?_ (evo_emit _ _)
            | refine evo_trans ?_ (evo_error _ _ _ (by decide))
            | refine evo_trans ?_ (evo_generate_function_prolog _ _ _)
            | refine evo_trans ?_ (evo_generate_function_epilog _)
            | refine evo_trans ?_ (evo_generate_var_declaration _ _ _)
            | refine evo_trans ?_ (evo_generate_assignment _ _ _)
            | refine evo_trans ?_ (evo_generate_binary_op _ _)
            | refine evo_trans ?_ (evo_generate_relational_op _ _)
            | refine evo_trans ?_ (evo_generate_is_op _ _)
            | refine evo_trans ?_ (evo_generate_function_call _ _ _)
            | refine evo_trans ?_ (evo_generate_label _)
            | refine evo_trans ?_ (evo_generate_temp_var _)
            | fail_if_no_progress refine evo_trans ?_ (evo_upd_global _ _)
            | fail_if_no_progress refine evo_trans ?_ (evo_upd_local _ _)
            | fail_if_no_progress refine evo_trans ?_ (evo_upd_tok _ _)
            | fail_if_no_progress refine evo_trans ?_ (evo_upd_ctx _ _ _ _)
            | dsimp only
    · intro p
      rw [parse_if_statement]
      try dsimp only
      repeat' split
      all_goals
        repeat
          first
          | exact evo_rfl _
          | refine evo_trans ?_ (ih_fd _)
          | refine evo_trans ?_ (ih_fn _)
          | refine evo_trans ?_ (ih_fnt _ _)
          | refine evo_trans ?_ (ih_get _ _)
          | refine evo_trans ?_ (ih_set _ _)
          | refine evo_trans ?_ (ih_sl _)
          | refine evo_trans ?_ (ih_blk _)
          | refine evo_trans ?_ (ih_st _)
          | refine evo_trans ?_ (ih_asgn _)
          | refine evo_trans ?_ (ih_asa _ _)
          | refine evo_trans ?_ (ih_if _)
          | refine evo_trans ?_ (ih_wh _)
          | refine evo_trans ?_ (ih_ret _)
          | refine evo_trans ?_ (ih_args _ _)
          | refine evo_trans ?_ (ih_call _ _)
          | refine evo_trans ?_ (ih_expr _)
          | refine evo_trans ?_ (ih_isx _)
          | refine evo_trans ?_ (ih_rell _)
          | refine evo_trans ?_ (ih_rel _)
          | refine evo_trans ?_ (ih_sil _)
          | refine evo_trans ?_ (ih_sie _)
          | refine evo_trans ?_ (ih_tl _)
          | refine evo_trans ?_ (ih_tm _)
          | refine evo_trans ?_ (ih_fac _)
          | refine evo_trans ?_ (evo_parse_var_declaration _)
          | refine evo_trans ?_ (evo_parse_params_loop _ _ _)
          | refine evo_trans ?_ (evo_next _)
          | refine evo_trans ?_ (evo_expect _ _)
          | refine evo_trans ?_ (evo_emit _ _)
          | refine evo_trans ?_ (evo_error _ _ _ (by decide))
          | refine evo_trans ?_ (evo_generate_function_prolog _ _ _)
          | refine evo_trans ?_ (evo_generate_function_epilog _)
          | refine evo_trans ?_ (evo_generate_var_declaration _ _ _)
          | refine evo_trans ?_ (evo_generate_assignment _ _ _)
          | refine evo_trans ?_ (evo_generate_binary_op _ _)
          | refine evo_trans ?_ (evo_generate_relational_op _ _)
          | refine evo_trans ?_ (evo_generate_is_op _ _)
          | refine evo_trans ?_ (evo_generate_function_call _ _ _)
          | refine evo_trans ?_ (evo_generate_label _)
          | refine evo_trans ?_ (evo_generate_temp_var _)
          | fail_if_no_progress refine evo_trans ?_ (evo_upd_global _ _)
          | fail_if_no_progress refine evo_trans ?_ (evo_upd_local _ _)
          | fail_if_no_progress refine evo_trans ?_ (evo_upd_tok _ _)
          | fail_if_no_progress refine evo_trans ?_ (evo_upd_ctx _ _ _ _)
          | dsimp only
    · intro p
      rw [parse_while_statement]
      try dsimp only
      repeat' split
      all_goals
        repeat
          first
          | exact evo_rfl _
          | refine evo_trans ?_ (ih_fd _)
          | refine evo_trans ?_ (ih_fn _)
          | refine evo_trans ?_ (ih_fnt _ _)
          | refine evo_trans ?_ (ih_get _ _)
          | refine evo_trans ?_ (ih_set _ _)
          | refine evo_trans ?_ (ih_sl _)
          | refine evo_trans ?_ (ih_blk _)
          | refine evo_trans ?_ (ih_st _)
          | refine evo_trans ?_ (ih_asgn _)
          | refine evo_trans ?_ (ih_asa _ _)
          | refine evo_trans ?_ (ih_if _)
          | refine evo_trans ?_ (ih_wh _)
          | refine evo_trans ?_ (ih_ret _)
          | refine evo_trans ?_ (ih_args _ _)
          | refine evo_trans ?_ (ih_call _ _)
          | refine evo_trans ?_ (ih_expr _)
          | refine evo_trans ?_ (ih_isx _)
          | refine evo_trans ?_ (ih_rell _)
          | refine evo_trans ?_ (ih_rel _)
          | refine evo_trans ?_ (ih_sil _)
          | refine evo_trans ?_ (ih_sie _)
          | refine evo_trans ?_ (ih_tl _)
          | refine evo_trans ?_ (ih_tm _)
          | refine evo_trans ?_ (ih_fac _)
          | refine evo_trans ?_ (evo_parse_var_declaration _)
          | refine evo_trans ?_ (evo_parse_params_loop _ _ _)
          | refine evo_trans ?_ (evo_next _)
          | refine evo_trans ?_ (evo_expect _ _)
          | refine evo_trans ?_ (evo_emit _ _)
          | refine evo_trans ?_ (evo_error _ _ _ (by decide))
          | refine evo_trans ?_ (evo_generate_function_prolog _ _ _)
          | refine evo_trans ?_ (evo_generate_function_epilog _)
          | refine evo_trans ?_ (evo_generate_var_declaration _ _ _)
          | refine evo_trans ?_ (evo_generate_assignment _ _ _)
          | refine evo_trans ?_ (evo_generate_binary_op _ _)
          | refine evo_trans ?_ (evo_generate_relational_op _ _)
          | refine evo_trans ?_ (evo_generate_is_op _ _)
          | refine evo_trans ?_ (evo_generate_function_call _ _ _)
          | refine evo_trans ?_ (evo_generate_label _)
          | refine evo_trans ?_ (evo_generate_temp_var _)
          | fail_if_no_progress refine evo_trans ?_ (evo_upd_global _ _)
          | fail_if_no_progress refine evo_trans ?_ (evo_upd_local _ _)
          | fail_if_no_progress refine evo_trans ?_ (evo_upd_tok _ _)
          | fail_if_no_progress refine evo_trans ?_ (evo_upd_ctx _ _ _ _)
          | dsimp only
    · intro p
      rw [parse_return]
      try dsimp only
      repeat' split
      all_goals
        repeat
          first
          | exact evo_rfl _
          | refine evo_trans ?_ (ih_fd _)
          | refine evo_trans ?_ (ih_fn _)
          | refine evo_trans ?_ (ih_fnt _ _)
          | refine evo_trans ?_ (ih_get _ _)
          | refine evo_trans ?_ (ih_set _ _)
          | refine evo_trans ?_ (ih_sl _)
          | refine evo_trans ?_ (ih_blk _)
          | refine evo_trans ?_ (ih_st _)
          | refine evo_trans ?_ (ih_asgn _)
          | refine evo_trans ?_ (ih_asa _ _)
          | refine evo_trans ?_ (ih_if _)
          | refine evo_trans ?_ (ih_wh _)
          | refine evo_trans ?_ (ih_ret _)
          | refine evo_trans ?_ (ih_args _ _)
          | refine evo_trans ?_ (ih_call _ _)
          | refine evo_trans ?_ (ih_expr _)
          | refine evo_trans ?_ (ih_isx _)
          | refine evo_trans ?_ (ih_rell _)
          | refine evo_trans ?_ (ih_rel _)
          | refine evo_trans ?_ (ih_sil _)
          | refine evo_trans ?_ (ih_sie _)
          | refine evo_trans ?_ (ih_tl _)
          | refine evo_trans ?_ (ih_tm _)
          | refine evo_trans ?_ (ih_fac _)
          | refine evo_trans ?_ (evo_parse_var_declaration _)
          | refine evo_trans ?_ (evo_parse_params_loop _ _ _)
          | refine evo_trans ?_ (evo_next _)
          | refine evo_trans ?_ (evo_expect _ _)
          | refine evo_trans ?_ (evo_emit _ _)
          | refine evo_trans ?_ (evo_error _ _ _ (by decide))
          | refine evo_trans ?_ (evo_generate_function_prolog _ _ _)
          | refine evo_trans ?_ (evo_generate_function_epilog _)
          | refine evo_trans ?_ (evo_generate_var_declaration _ _ _)
          | refine evo_trans ?_ (evo_generate_assignment _ _ _)
          | refine evo_trans ?_ (evo_generate_binary_op _ _)
          | refine evo_trans ?_ (evo_generate_relational_op _ _)
          | refine evo_trans ?_ (evo_generate_is_op _ _)
          | refine evo_trans ?_ (evo_generate_function_call _ _ _)
          | refine evo_trans ?_ (evo_generate_label _)
          | refine evo_trans ?_ (evo_generate_temp_var _)
          | fail_if_no_progress refine evo_trans ?_ (evo_upd_global _ _)
          | fail_if_no_progress refine evo_trans ?_ (evo_upd_local _ _)
          | fail_if_no_progress refine evo_trans ?_ (evo_upd_tok _ _)
          | fail_if_no_progress refine evo_trans ?_ (evo_upd_ctx _ _ _ _)
          | dsimp only
    · intro count p
      rw [parse_args_loop]
      try dsimp only
      repeat' split
      all_goals
        repeat
          first
          | exact evo_rfl _
          | refine evo_trans ?_ (ih_fd _)
          | refine evo_trans ?_ (ih_fn _)
          | refine evo_trans ?_ (ih_fnt _ _)
          | refine evo_trans ?_ (ih_get _ _)
          | refine evo_trans ?_ (ih_set _ _)
          | refine evo_trans ?_ (ih_sl _)
          | refine evo_trans ?_ (ih_blk _)
          | refine evo_trans ?_ (ih_st _)
          | refine evo_trans ?_ (ih_asgn _)
          | refine evo_trans ?_ (ih_asa _ _)
          | refine evo_trans ?_ (ih_if _)
          | refine evo_trans ?_ (ih_wh _)
          | refine evo_trans ?_ (ih_ret _)
          | refine evo_trans ?_ (ih_args _ _)
          | refine evo_trans ?_ (ih_call _ _)
          | refine evo_trans ?_ (ih_expr _)
          | refine evo_trans ?_ (ih_isx _)
          | refine evo_trans ?_ (ih_rell _)
          | refine evo_trans ?_ (ih_rel _)
          | refine evo_trans ?_ (ih_sil _)
          | refine evo_trans ?_ (ih_sie _)
          | refine evo_trans ?_ (ih_tl _)
          | refine evo_trans ?_ (ih_tm _)
          | refine evo_trans ?_ (ih_fac _)
          | refine evo_trans ?_ (evo_parse_var_declaration _)
          | refine evo_trans ?_ (evo_parse_params_loop _ _ _)
          | refine evo_trans ?_ (evo_next _)
          | refine evo_trans ?_ (evo_expect _ _)
          | refine evo_trans ?_ (evo_emit _ _)
          | refine evo_trans ?_ (evo_error _ _ _ (by decide))
          | refine evo_trans ?_ (evo_generate_function_prolog _ _ _)
          | refine evo_trans ?_ (evo_generate_function_epilog _)
          | refine evo_trans ?_ (evo_generate_var_declaration _ _ _)
          | refine evo_trans ?_ (evo_generate_assignment _ _ _)
          | refine evo_trans ?_ (evo_generate_binary_op _ _)
          | refine evo_trans ?_ (evo_generate_relational_op _ _)
          | refine evo_trans ?_ (evo_generate_is_op _ _)
          | refine evo_trans ?_ (evo_generate_function_call _ _ _)
          | refine evo_trans ?_ (evo_generate_label _)
          | refine evo_trans ?_ (evo_generate_temp_var _)
          | fail_if_no_progress refine evo_trans ?_ (evo_upd_global _ _)
          | fail_if_no_progress refine evo_trans ?_ (evo_upd_local _ _)
          | fail_if_no_progress refine evo_trans ?_ (evo_upd_tok _ _)
          | fail_if_no_progress refine evo_trans ?_ (evo_upd_ctx _ _ _ _)
          | dsimp only
    · intro name p
      rw [parse_function_call]
      try dsimp only
      repeat' split
      all_goals
        repeat
          first
          | exact evo_rfl _
          | refine evo_trans ?_ (ih_fd _)
          | refine evo_trans ?_ (ih_fn _)
          | refine evo_trans ?_ (ih_fnt _ _)
          | refine evo_trans ?_ (ih_get _ _)
          | refine evo_trans ?_ (ih_set _ _)
          | refine evo_trans ?_ (ih_sl _)
          | refine evo_trans ?_ (ih_blk _)
          | refine evo_trans ?_ (ih_st _)
          | refine evo_trans ?_ (ih_asgn _)
          | refine evo_trans ?_ (ih_asa _ _)
          | refine evo_trans ?_ (ih_if _)
          | refine evo_trans ?_ (ih_wh _)
          | refine evo_trans ?_ (ih_ret _)
          | refine evo_trans ?_ (ih_args _ _)
          | refine evo_trans ?_ (ih_call _ _)
          | refine evo_trans ?_ (ih_expr _)
          | refine evo_trans ?_ (ih_isx _)
          | refine evo_trans ?_ (ih_rell _)
          | refine evo_trans ?_ (ih_rel _)
          | refine evo_trans ?_ (ih_sil _)
          | refine evo_trans ?_ (ih_sie _)
          | refine evo_trans ?_ (ih_tl _)
          | refine evo_trans ?_ (ih_tm _)
          | refine evo_trans ?_ (ih_fac _)
          | refine evo_trans ?_ (evo_parse_var_declaration _)
          | refine evo_trans ?_ (evo_parse_params_loop _ _ _)
          | refine evo_trans ?_ (evo_next _)
          | refine evo_trans ?_ (evo_expect _ _)
          | refine evo_trans ?_ (evo_emit _ _)
          | refine evo_trans ?_ (evo_error _ _ _ (by decide))
          | refine evo_trans ?_ (evo_generate_function_prolog _ _ _)
          | refine evo_trans ?_ (evo_generate_function_epilog _)
          | refine evo_trans ?_ (evo_generate_var_declaration _ _ _)
          | refine evo_trans ?_ (evo_generate_assignment _ _ _)
          | refine evo_trans ?_ (evo_generate_binary_op _ _)
          | refine evo_trans ?_ (evo_generate_relational_op _ _)
          | refine evo_trans ?_ (evo_generate_is_op _ _)
          | refine evo_trans ?_ (evo_generate_function_call _ _ _)
          | refine evo_trans ?_ (evo_generate_label _)
          | refine evo_trans ?_ (evo_generate_temp_var _)
          | fail_if_no_progress refine evo_trans ?_ (evo_upd_global _ _)
          | fail_if_no_progress refine evo_trans ?_ (evo_upd_local _ _)
          | fail_if_no_progress refine evo_trans ?_ (evo_upd_tok _ _)
          | fail_if_no_progress refine evo_trans ?_ (evo_upd_ctx _ _ _ _)
          | dsimp only
    · intro p
      rw [parse_expression]
      try dsimp only
      repeat' split
      all_goals
        repeat
          first
          | exact evo_rfl _
          | refine evo_trans ?_ (ih_fd _)
          | refine evo_trans ?_ (ih_fn _)
          | refine evo_trans ?_ (ih_fnt _ _)
          | refine evo_trans ?_ (ih_get _ _)
          | refine evo_trans ?_ (ih_set _ _)
          | refine evo_trans ?_ (ih_sl _)
          | refine evo_trans ?_ (ih_blk _)
          | refine evo_trans ?_ (ih_st _)
          | refine evo_trans ?_ (ih_asgn _)
          | refine evo_trans ?_ (ih_asa _ _)
          | refine evo_trans ?_ (ih_if _)
          | refine evo_trans ?_ (ih_wh _)
          | refine evo_trans ?_ (ih_ret _)
          | refine evo_trans ?_ (ih_args _ _)
          | refine evo_trans ?_ (ih_call _ _)
          | refine evo_trans ?_ (ih_expr _)
          | refine evo_trans ?_ (ih_isx _)
          | refine evo_trans ?_ (ih_rell _)
          | refine evo_trans ?_ (ih_rel _)
          | refine evo_trans ?_ (ih_sil _)
          | refine evo_trans ?_ (ih_sie _)
          | refine evo_trans ?_ (ih_tl _)
          | refine evo_trans ?_ (ih_tm _)
          | refine evo_trans ?_ (ih_fac _)
          | refine evo_trans ?_ (evo_parse_var_declaration _)
          | refine evo_trans ?_ (evo_parse_params_loop _ _ _)
          | refine evo_trans ?_ (evo_next _)
          | refine evo_trans ?_ (evo_expect _ _)
          | refine evo_trans ?_ (evo_emit _ _)
          | refine evo_trans ?_ (evo_error _ _ _ (by decide))
          | refine evo_trans ?_ (evo_generate_function_prolog _ _ _)
          | refine evo_trans ?_ (evo_generate_function_epilog _)
          | refine evo_trans ?_ (evo_generate_var_declaration _ _ _)
          | refine evo_trans ?_ (evo_generate_assignment _ _ _)
          | refine evo_trans ?_ (evo_generate_binary_op _ _)
          | refine evo_trans ?_ (evo_generate_relational_op _ _)
          | refine evo_trans ?_ (evo_generate_is_op _ _)
          | refine evo_trans ?_ (evo_generate_function_call _ _ _)
          | refine evo_trans ?_ (evo_generate_label _)
          | refine evo_trans ?_ (evo_generate_temp_var _)
          | fail_if_no_progress refine evo_trans ?_ (evo_upd_global _ _)
          | fail_if_no_progress refine evo_trans ?_ (evo_upd_local _ _)
          | fail_if_no_progress refine evo_trans ?_ (evo_upd_tok _ _)
          | fail_if_no_progress refine evo_trans ?_ (evo_upd_ctx _ _ _ _)
          | dsimp only
    · intro p
      rw [parse_is_expression]
      try dsimp only
      repeat' split
      all_goals
        repeat
          first
          | exact evo_rfl _
          | refine evo_trans ?_ (ih_fd _)
          | refine evo_trans ?_ (ih_fn _)
          | refine evo_trans ?_ (ih_fnt _ _)
          | refine evo_trans ?_ (ih_get _ _)
          | refine evo_trans ?_ (ih_set _ _)
          | refine evo_trans ?_ (ih_sl _)
          | refine evo_trans ?_ (ih_blk _)
          | refine evo_trans ?_ (ih_st _)
          | refine evo_trans ?_ (ih_asgn _)
          | refine evo_trans ?_ (ih_asa _ _)
          | refine evo_trans ?_ (ih_if _)
          | refine evo_trans ?_ (ih_wh _)
          | refine evo_trans ?_ (ih_ret _)
          | refine evo_trans ?_ (ih_args _ _)
          | refine evo_trans ?_ (ih_call _ _)
          | refine evo_trans ?_ (ih_expr _)
          | refine evo_trans ?_ (ih_isx _)
          | refine evo_trans ?_ (ih_rell _)
          | refine evo_trans ?_ (ih_rel _)
          | refine evo_trans ?_ (ih_sil _)
          | refine evo_trans ?_ (ih_sie _)
          | refine evo_trans ?_ (ih_tl _)
          | refine evo_trans ?_ (ih_tm _)
          | refine evo_trans ?_ (ih_fac _)
          | refine evo_trans ?_ (evo_parse_var_declaration _)
          | refine evo_trans ?_ (evo_parse_params_loop _ _ _)
          | refine evo_trans ?_ (evo_next _)
          | refine evo_trans ?_ (evo_expect _ _)
          | refine evo_trans ?_ (evo_emit _ _)
          | refine evo_trans ?_ (evo_error _ _ _ (by decide))
          | refine evo_trans ?_ (evo_generate_function_prolog _ _ _)
          | refine evo_trans ?_ (evo_generate_function_epilog _)
          | refine evo_trans ?_ (evo_generate_var_declaration _ _ _)
          | refine evo_trans ?_ (evo_generate_assignment _ _ _)
          | refine evo_trans ?_ (evo_generate_binary_op _ _)
          | refine evo_trans ?_ (evo_generate_relational_op _ _)
          | refine evo_trans ?_ (evo_generate_is_op _ _)
          | refine evo_trans ?_ (evo_generate_function_call _ _ _)
          | refine evo_trans ?_ (evo_generate_label _)
          | refine evo_trans ?_ (evo_generate_temp_var _)
          | fail_if_no_progress refine evo_trans ?_ (evo_upd_global _ _)
          | fail_if_no_progress refine evo_trans ?_ (evo_upd_local _ _)
          | fail_if_no_progress refine evo_trans ?_ (evo_upd_tok _ _)
          | fail_if_no_progress refine evo_trans ?_ (evo_upd_ctx _ _ _ _)
          | dsimp only
    · intro p
      rw [parse_relation_loop]
      try dsimp only
      repeat' split
      all_goals
        repeat
          first
          | exact evo_rfl _
          | refine evo_trans ?_ (ih_fd _)
          | refine evo_trans ?_ (ih_fn _)
          | refine evo_trans ?_ (ih_fnt _ _)
          | refine evo_trans ?_ (ih_get _ _)
          | refine evo_trans ?_ (ih_set _ _)
          | refine evo_trans ?_ (ih_sl _)
          | refine evo_trans ?_ (ih_blk _)
          | refine evo_trans ?_ (ih_st _)
          | refine evo_trans ?_ (ih_asgn _)
          | refine evo_trans ?_ (ih_asa _ _)
          | refine evo_trans ?_ (ih_if _)
          | refine evo_trans ?_ (ih_wh _)
          | refine evo_trans ?_ (ih_ret _)
          | refine evo_trans ?_ (ih_args _ _)
          | refine evo_trans ?_ (ih_call _ _)
          | refine evo_trans ?_ (ih_expr _)
          | refine evo_trans ?_ (ih_isx _)
          | refine evo_trans ?_ (ih_rell _)
          | refine evo_trans ?_ (ih_rel _)
          | refine evo_trans ?_ (ih_sil _)
          | refine evo_trans ?_ (ih_sie _)
          | refine evo_trans ?_ (ih_tl _)
          | refine evo_trans ?_ (ih_tm _)
          | refine evo_trans ?_ (ih_fac _)
          | refine evo_trans ?_ (evo_parse_var_declaration _)
          | refine evo_trans ?_ (evo_parse_params_loop _ _ _)
          | refine evo_trans ?_ (evo_next _)
          | refine evo_trans ?_ (evo_expect _ _)
          | refine evo_trans ?_ (evo_emit _ _)
          | refine evo_trans ?_ (evo_error _ _ _ (by decide))
          | refine evo_trans ?_ (evo_generate_function_prolog _ _ _)
          | refine evo_trans ?_ (evo_generate_function_epilog _)
          | refine evo_trans ?_ (evo_generate_var_declaration _ _ _)
          | refine evo_trans ?_ (evo_generate_assignment _ _ _)
          | refine evo_trans ?_ (evo_generate_binary_op _ _)
          | refine evo_trans ?_ (evo_generate_relational_op _ _)
          | refine evo_trans ?_ (evo_generate_is_op _ _)
          | refine evo_trans ?_ (evo_generate_function_call _ _ _)
          | refine evo_trans ?_ (evo_generate_label _)
          | refine evo_trans ?_ (evo_generate_temp_var _)
          | fail_if_no_progress refine evo_trans ?_ (evo_upd_global _ _)
          | fail_if_no_progress refine evo_trans ?_ (evo_upd_local _ _)
          | fail_if_no_progress refine evo_trans ?_ (evo_upd_tok _ _)
          | fail_if_no_progress refine evo_trans ?_ (evo_upd_ctx _ _ _ _)
          | dsimp only
    · intro p
      rw [parse_relation]
      try dsimp only
      repeat' split
      all_goals
        repeat
          first
          | exact evo_rfl _
          | refine evo_trans ?_ (ih_fd _)
          | refine evo_trans ?_ (ih_fn _)
          | refine evo_trans ?_ (ih_fnt _ _)
          | refine evo_trans ?_ (ih_get _ _)
          | refine evo_trans ?_ (ih_set _ _)
          | refine evo_trans ?_ (ih_sl _)
          | refine evo_trans ?_ (ih_blk _)
          | refine evo_trans ?_ (ih_st _)
          | refine evo_trans ?_ (ih_asgn _)
          | refine evo_trans ?_ (ih_asa _ _)
          | refine evo_trans ?_ (ih_if _)
          | refine evo_trans ?_ (ih_wh _)
          | refine evo_trans ?_ (ih_ret _)
          | refine evo_trans ?_ (ih_args _ _)
          | refine evo_trans ?_ (ih_call _ _)
          | refine evo_trans ?_ (ih_expr _)
          | refine evo_trans ?_ (ih_isx _)
          | refine evo_trans ?_ (ih_rell _)
          | refine evo_trans ?_ (ih_rel _)
          | refine evo_trans ?_ (ih_sil _)
          | refine evo_trans ?_ (ih_sie _)
          | refine evo_trans ?_ (ih_tl _)
          | refine evo_trans ?_ (ih_tm _)
          | refine evo_trans ?_ (ih_fac _)
          | refine evo_trans ?_ (evo_parse_var_declaration _)
          | refine evo_trans ?_ (evo_parse_params_loop _ _ _)
          | refine evo_trans ?_ (evo_next _)
          | refine evo_trans ?_ (evo_expect _ _)
          | refine evo_trans ?_ (evo_emit _ _)
          | refine evo_trans ?_ (evo_error _ _ _ (by decide))
          | refine evo_trans ?_ (evo_generate_function_prolog _ _ _)
          | refine evo_trans ?_ (evo_generate_function_epilog _)
          | refine evo_trans ?_ (evo_generate_var_declaration _ _ _)
          | refine evo_trans ?_ (evo_generate_assignment _ _ _)
          | refine evo_trans ?_ (evo_generate_binary_op _ _)
          | refine evo_trans ?_ (evo_generate_relational_op _ _)
          | refine evo_trans ?_ (evo_generate_is_op _ _)
          | refine evo_trans ?_ (evo_generate_function_call _ _ _)
          | refine evo_trans ?_ (evo_generate_label _)
          | refine evo_trans ?_ (evo_generate_temp_var _)
          | fail_if_no_progress refine evo_trans ?_ (evo_upd_global _ _)
          | fail_if_no_progress refine evo_trans ?_ (evo_upd_local _ _)
          | fail_if_no_progress refine evo_trans ?_ (evo_upd_tok _ _)
          | fail_if_no_progress refine evo_trans ?_ (evo_upd_ctx _ _ _ _)
          | dsimp only
    · intro p
      rw [parse_simple_loop]
      try dsimp only
      repeat' split
      all_goals
        repeat
          first
          | exact evo_rfl _
          | refine evo_trans ?_ (ih_fd _)
          | refine evo_trans ?_ (ih_fn _)
          | refine evo_trans ?_ (ih_fnt _ _)
          | refine evo_trans ?_ (ih_get _ _)
          | refine evo_trans ?_ (ih_set _ _)
          | refine evo_trans ?_ (ih_sl _)
          | refine evo_trans ?_ (ih_blk _)
          | refine evo_trans ?_ (ih_st _)
          | refine evo_trans ?_ (ih_asgn _)
          | refine evo_trans ?_ (ih_asa _ _)
          | refine evo_trans ?_ (ih_if _)
          | refine evo_trans ?_ (ih_wh _)
          | refine evo_trans ?_ (ih_ret _)
          | refine evo_trans ?_ (ih_args _ _)
          | refine evo_trans ?_ (ih_call _ _)
          | refine evo_trans ?_ (ih_expr _)
          | refine evo_trans ?_ (ih_isx _)
          | refine evo_trans ?_ (ih_rell _)
          | refine evo_trans ?_ (ih_rel _)
          | refine evo_trans ?_ (ih_sil _)
          | refine evo_trans ?_ (ih_sie _)
          | refine evo_trans ?_ (ih_tl _)
          | refine evo_trans ?_ (ih_tm _)
          | refine evo_trans ?_ (ih_fac _)
          | refine evo_trans ?_ (evo_parse_var_declaration _)
          | refine evo_trans ?_ (evo_parse_params_loop _ _ _)
          | refine evo_trans ?_ (evo_next _)
          | refine evo_trans ?_ (evo_expect _ _)
          | refine evo_trans ?_ (evo_emit _ _)
          | refine evo_trans ?_ (evo_error _ _ _ (by decide))
          | refine evo_trans ?_ (evo_generate_function_prolog _ _ _)
          | refine evo_trans ?_ (evo_generate_function_epilog _)
          | refine evo_trans ?_ (evo_generate_var_declaration _ _ _)
          | refine evo_trans ?_ (evo_generate_assignment _ _ _)
          | refine evo_trans ?_ (evo_generate_binary_op _ _)
          | refine evo_trans ?_ (evo_generate_relational_op _ _)
          | refine evo_trans ?_ (evo_generate_is_op _ _)
          | refine evo_trans ?_ (evo_generate_function_call _ _ _)
          | refine evo_trans ?_ (evo_generate_label _)
          | refine evo_trans ?_ (evo_generate_temp_var _)
          | fail_if_no_progress refine evo_trans ?_ (evo_upd_global _ _)
          | fail_if_no_progress refine evo_trans ?_ (evo_upd_local _ _)
          | fail_if_no_progress refine evo_trans ?_ (evo_upd_tok _ _)
          | fail_if_no_progress refine evo_trans ?_ (evo_upd_ctx _ _ _ _)
          | dsimp only
    · intro p
      rw [parse_simple_expression]
      try dsimp only
      repeat' split
      all_goals
        repeat
          first
          | exact evo_rfl _
          | refine evo_trans ?_ (ih_fd _)
          | refine evo_trans ?_ (ih_fn _)
          | refine evo_trans ?_ (ih_fnt _ _)
          | refine evo_trans ?_ (ih_get _ _)
          | refine evo_trans ?_ (ih_set _ _)
          | refine evo_trans ?_ (ih_sl _)
          | refine evo_trans ?_ (ih_blk _)
          | refine evo_trans ?_ (ih_st _)
          | refine evo_trans ?_ (ih_asgn _)
          | refine evo_trans ?_ (ih_asa _ _)
          | refine evo_trans ?_ (ih_if _)
          | refine evo_trans ?_ (ih_wh _)
          | refine evo_trans ?_ (ih_ret _)
          | refine evo_trans ?_ (ih_args _ _)
          | refine evo_trans ?_ (ih_call _ _)
          | refine evo_trans ?_ (ih_expr _)
          | refine evo_trans ?_ (ih_isx _)
          | refine evo_trans ?_ (ih_rell _)
          | refine evo_trans ?_ (ih_rel _)
          | refine evo_trans ?_ (ih_sil _)
          | refine evo_trans ?_ (ih_sie _)
          | refine evo_trans ?_ (ih_tl _)
          | refine evo_trans ?_ (ih_tm _)
          | refine evo_trans ?_ (ih_fac _)
          | refine evo_trans ?_ (evo_parse_var_declaration _)
          | refine evo_trans ?_ (evo_parse_params_loop _ _ _)
          | refine evo_trans ?_ (evo_next _)
          | refine evo_trans ?_ (evo_expect _ _)
          | refine evo_trans ?_ (evo_emit _ _)
          | refine evo_trans ?_ (evo_error _ _ _ (by decide))
          | refine evo_trans ?_ (evo_generate_function_prolog _ _ _)
          | refine evo_trans ?_ (evo_generate_function_epilog _)
          | refine evo_trans ?_ (evo_generate_var_declaration _ _ _)
          | refine evo_trans ?_ (evo_generate_assignment _ _ _)
          | refine evo_trans ?_ (evo_generate_binary_op _ _)
          | refine evo_trans ?_ (evo_generate_relational_op _ _)
          | refine evo_trans ?_ (evo_generate_is_op _ _)
          | refine evo_trans ?_ (evo_generate_function_call _ _ _)
          | refine evo_trans ?_ (evo_generate_label _)
          | refine evo_trans ?_ (evo_generate_temp_var _)
          | fail_if_no_progress refine evo_trans ?_ (evo_upd_global _ _)
          | fail_if_no_progress refine evo_trans ?_ (evo_upd_local _ _)
          | fail_if_no_progress refine evo_trans ?_ (evo_upd_tok _ _)
          | fail_if_no_progress refine evo_trans ?_ (evo_upd_ctx _ _ _ _)
          | dsimp only
    · intro p
      rw [parse_term_loop]
      try dsimp only
      repeat' split
      all_goals
        repeat
          first
          | exact evo_rfl _
          | refine evo_trans ?_ (ih_fd _)
          | refine evo_trans ?_ (ih_fn _)
          | refine evo_trans ?_ (ih_fnt _ _)
          | refine evo_trans ?_ (ih_get _ _)
          | refine evo_trans ?_ (ih_set _ _)
          | refine evo_trans ?_ (ih_sl _)
          | refine evo_trans ?_ (ih_blk _)
          | refine evo_trans ?_ (ih_st _)
          | refine evo_trans ?_ (ih_asgn _)
          | refine evo_trans ?_ (ih_asa _ _)
          | refine evo_trans ?_ (ih_if _)
          | refine evo_trans ?_ (ih_wh _)
          | refine evo_trans ?_ (ih_ret _)
          | refine evo_trans ?_ (ih_args _ _)
          | refine evo_trans ?_ (ih_call _ _)
          | refine evo_trans ?_ (ih_expr _)
          | refine evo_trans ?_ (ih_isx _)
          | refine evo_trans ?_ (ih_rell _)
          | refine evo_trans ?_ (ih_rel _)
          | refine evo_trans ?_ (ih_sil _)
          | refine evo_trans ?_ (ih_sie _)
          | refine evo_trans ?_ (ih_tl _)
          | refine evo_trans ?_ (ih_tm _)
          | refine evo_trans ?_ (ih_fac _)
          | refine evo_trans ?_ (evo_parse_var_declaration _)
          | refine evo_trans ?_ (evo_parse_params_loop _ _ _)
          | refine evo_trans ?_ (evo_next _)
          | refine evo_trans ?_ (evo_expect _ _)
          | refine evo_trans ?_ (evo_emit _ _)
          | refine evo_trans ?_ (evo_error _ _ _ (by decide))
          | refine evo_trans ?_ (evo_generate_function_prolog _ _ _)
          | refine evo_trans ?_ (evo_generate_function_epilog _)
          | refine evo_trans ?_ (evo_generate_var_declaration _ _ _)
          | refine evo_trans ?_ (evo_generate_assignment _ _ _)
          | refine evo_trans ?_ (evo_generate_binary_op _ _)
          | refine evo_trans ?_ (evo_generate_relational_op _ _)
          | refine evo_trans ?_ (evo_generate_is_op _ _)
          | refine evo_trans ?_ (evo_generate_function_call _ _ _)
          | refine evo_trans ?_ (evo_generate_label _)
          | refine evo_trans ?_ (evo_generate_temp_var _)
          | fail_if_no_progress refine evo_trans ?_ (evo_upd_global _ _)
          | fail_if_no_progress refine evo_trans ?_ (evo_upd_local _ _)
          | fail_if_no_progress refine evo_trans ?_ (evo_upd_tok _ _)
          | fail_if_no_progress refine evo_trans ?_ (evo_upd_ctx _ _ _ _)
          | dsimp only
    · intro p
      rw [parse_term]
      try dsimp only
      repeat' split
      all_goals
        repeat
          first
          | exact evo_rfl _
          | refine evo_trans ?_ (ih_fd _)
          | refine evo_trans ?_ (ih_fn _)
          | refine evo_trans ?_ (ih_fnt _ _)
          | refine evo_trans ?_ (ih_get _ _)
          | refine evo_trans ?_ (ih_set _ _)
          | refine evo_trans ?_ (ih_sl _)
          | refine evo_trans ?_ (ih_blk _)
          | refine evo_trans ?_ (ih_st _)
          | refine evo_trans ?_ (ih_asgn _)
          | refine evo_trans ?_ (ih_asa _ _)
          | refine evo_trans ?_ (ih_if _)
          | refine evo_trans ?_ (ih_wh _)
          | refine evo_trans ?_ (ih_ret _)
          | refine evo_trans ?_ (ih_args _ _)
          | refine evo_trans ?_ (ih_call _ _)
          | refine evo_trans ?_ (ih_expr _)
          | refine evo_trans ?_ (ih_isx _)
          | refine evo_trans ?_ (ih_rell _)
          | refine evo_trans ?_ (ih_rel _)
          | refine evo_trans ?_ (ih_sil _)
          | refine evo_trans ?_ (ih_sie _)
          | refine evo_trans ?_ (ih_tl _)
          | refine evo_trans ?_ (ih_tm _)
          | refine evo_trans ?_ (ih_fac _)
          | refine evo_trans ?_ (evo_parse_var_declaration _)
          | refine evo_trans ?_ (evo_parse_params_loop _ _ _)
          | refine evo_trans ?_ (evo_next _)
          | refine evo_trans ?_ (evo_expect _ _)
          | refine evo_trans ?_ (evo_emit _ _)
          | refine evo_trans ?_ (evo_error _ _ _ (by decide))
          | refine evo_trans ?_ (evo_generate_function_prolog _ _ _)
          | refine evo_trans ?_ (evo_generate_function_epilog _)
          | refine evo_trans ?_ (evo_generate_var_declaration _ _ _)
          | refine evo_trans ?_ (evo_generate_assignment _ _ _)
          | refine evo_trans ?_ (evo_generate_binary_op _ _)
          | refine evo_trans ?_ (evo_generate_relational_op _ _)
          | refine evo_trans ?_ (evo_generate_is_op _ _)
          | refine evo_trans ?_ (evo_generate_function_call _ _ _)
          | refine evo_trans ?_ (evo_generate_label _)
          | refine evo_trans ?_ (evo_generate_temp_var _)
          | fail_if_no_progress refine evo_trans ?_ (evo_upd_global _ _)
          | fail_if_no_progress refine evo_trans ?_ (evo_upd_local _ _)
          | fail_if_no_progress refine evo_trans ?_ (evo_upd_tok _ _)
          | fail_if_no_progress refine evo_trans ?_ (evo_upd_ctx _ _ _ _)
          | dsimp only
    · intro p
      rw [parse_factor]
      try dsimp only
      repeat' split
      all_goals
        repeat
          first
          | exact evo_rfl _
          | refine evo_trans ?_ (ih_fd _)
          | refine evo_trans ?_ (ih_fn _)
          | refine evo_trans ?_ (ih_fnt _ _)
          | refine evo_trans ?_ (ih_get _ _)
          | refine evo_trans ?_ (ih_set _ _)
          | refine evo_trans ?_ (ih_sl _)
          | refine evo_trans ?_ (ih_blk _)
          | refine evo_trans ?_ (ih_st _)
          | refine evo_trans ?_ (ih_asgn _)
          | refine evo_trans ?_ (ih_asa _ _)
          | refine evo_trans ?_ (ih_if _)
          | refine evo_trans ?_ (ih_wh _)
          | refine evo_trans ?_ (ih_ret _)
          | refine evo_trans ?_ (ih_args _ _)
          | refine evo_trans ?_ (ih_call _ _)
          | refine evo_trans ?_ (ih_expr _)
          | refine evo_trans ?_ (ih_isx _)
          | refine evo_trans ?_ (ih_rell _)
          | refine evo_trans ?_ (ih_rel _)
          | refine evo_trans ?_ (ih_sil _)
          | refine evo_trans ?_ (ih_sie _)
          | refine evo_trans ?_ (ih_tl _)
          | refine evo_trans ?_ (ih_tm _)
          | refine evo_trans ?_ (ih_fac _)
          | refine evo_trans ?_ (evo_parse_var_declaration _)
          | refine evo_trans ?_ (evo_parse_params_loop _ _ _)
          | refine evo_trans ?_ (evo_next _)
          | refine evo_trans ?_ (evo_expect _ _)
          | refine evo_trans ?_ (evo_emit _ _)
          | refine evo_trans ?_ (evo_error _ _ _ (by decide))
          | refine evo_trans ?_ (evo_generate_function_prolog _ _ _)
          | refine evo_trans ?_ (evo_generate_function_epilog _)
          | refine evo_trans ?_ (evo_generate_var_declaration _ _ _)
          | refine evo_trans ?_ (evo_generate_assignment _ _ _)
          | refine evo_trans ?_ (evo_generate_binary_op _ _)
          | refine evo_trans ?_ (evo_generate_relational_op _ _)
          | refine evo_trans ?_ (evo_generate_is_op _ _)
          | refine evo_trans ?_ (evo_generate_function_call _ _ _)
          | refine evo_trans ?_ (evo_generate_label _)
          | refine evo_trans ?_ (evo_generate_temp_var _)
          | fail_if_no_progress refine evo_trans ?_ (evo_upd_global _ _)
          | fail_if_no_progress refine evo_trans ?_ (evo_upd_local _ _)
          | fail_if_no_progress refine evo_trans ?_ (evo_upd_tok _ _)
          | fail_if_no_progress refine evo_trans ?_ (evo_upd_ctx _ _ _ _)
          | dsimp only

theorem evo_parse_function_definitions (fuel : Nat) (p : PState) :
    Evo p (parse_function_definitions fuel p) := by
  unfold parse_function_definitions
  dsimp only
  repeat' split
  all_goals
    repeat
      first
      | exact evo_rfl _
      | refine evo_trans ?_ ((evo_mutual fuel).1 _)
      | refine evo_trans ?_ (evo_next _)
      | refine evo_trans ?_ (evo_expect _ _)
      | dsimp only

theorem evo_parse_program (fuel : Nat) (p : PState) :
    Evo p (parse_program fuel p).2 := by
  unfold parse_program
  dsimp only
  repeat' split
  all_goals
    repeat
      first
      | exact evo_rfl _
      | refine evo_trans ?_ (evo_parse_function_definitions _ _)
      | refine evo_trans ?_ (evo_parse_prolog _)
      | refine evo_trans ?_ (evo_parse_class _)
      | refine evo_trans ?_ (evo_generate_epilog _)
      | refine evo_trans ?_ (evo_generate_prolog _)
      | refine evo_trans ?_ (evo_emit _ _)
      | dsimp only

theorem parse_program_fst (fuel : Nat) (p : PState) :
    (parse_program fuel p).1 = (parse_program fuel p).2.error_code := by
  unfold parse_program
  dsimp only
  repeat' split
  all_goals rfl

end

/-- A set latch survives any later parser work; contrapositive direction of
the first `Evo` component. -/
theorem evo_he_back {q r : PState} (h : Evo q r) (hr : r.had_error = false) :
    q.had_error = false := by
  cases hq : q.had_error with
  | false => rfl
  | true => exact absurd (h.1 hq).1 (by rw [hr]; exact fun hc => Bool.noConfusion hc)

theorem parser_init_code (ts : List Token) : (parser_init ts).error_code = SUCCESS := by
  unfold parser_init next_token
  cases ts <;> rfl

theorem parser_init_he (ts : List Token) : (parser_init ts).had_error = false := by
  unfold parser_init next_token
  cases ts <;> rfl

theorem error_diags (code : Int) (msg : String) (p : PState) :
    (error code msg p).diags =
      p.diags ++ [(code, p.current_token.line, p.current_token.column, msg)] := by
  unfold error
  dsimp only
  split <;> rfl

theorem error_tok (code : Int) (msg : String) (p : PState) :
    (error code msg p).current_token = p.current_token := by
  unfold error
  dsimp only
  split <;> rfl

theorem error_latched (code : Int) (msg : String) (p : PState)
    (h : p.had_error = true) :
    (error code msg p).had_error = true ∧
    (error code msg p).error_code = p.error_code := by
  unfold error
  dsimp only
  rw [if_pos h]
  exact ⟨h, rfl⟩

theorem error_first (code : Int) (msg : String) (p : PState)
    (h : p.had_error = false) :
    (error code msg p).had_error = true ∧
    (error code msg p).error_code = code := by
  unfold error
  dsimp only
  rw [if_neg (by rw [h]; exact fun hc => Bool.noConfusion hc)]
  exact ⟨rfl, rfl⟩

theorem error_fold_latched (calls : List (Int × String)) : ∀ q : PState,
    q.had_error = true →
    ((calls.foldl (fun r cm => error cm.1 cm.2 r) q).had_error = true ∧
     (calls.foldl (fun r cm => error cm.1 cm.2 r) q).error_code = q.error_code ∧
     (calls.foldl (fun r cm => error cm.1 cm.2 r) q).diags = q.diags ++
       calls.map (fun cm =>
         (cm.1, q.current_token.line, q.current_token.column, cm.2)) ∧
     (calls.foldl (fun r cm => error cm.1 cm.2 r) q).current_token =
       q.current_token) := by
  induction calls with
  | nil => intro q h; exact ⟨h, rfl, by simp, rfl⟩
  | cons cm calls ih =>
    intro q h
    simp only [List.foldl_cons, List.map_cons]
    obtain ⟨h1, h2, h3, h4⟩ := ih (error cm.1 cm.2 q) (error_latched _ _ _ h).1
    refine ⟨h1, h2.trans (error_latched _ _ _ h).2, ?_,
      h4.trans (error_tok _ _ _)⟩
    rw [h3, error_diags, error_tok]
    simp [List.append_assoc]

theorem next_token_global (q : PState) :
    (next_token q).global_table = q.global_table := by
  unfold next_token
  cases q.tokens <;> rfl

theorem next_token_he (q : PState) : (next_token q).had_error = q.had_error := by
  unfold next_token
  cases q.tokens <;> rfl

theorem expect_hit (p : PState) (t : TokenType) (h : p.current_token.type = t) :
    expect p t = (true, p) := by
  unfold expect accept
  rw [h]
  simp

/-- C4: the error latch is first-error-wins.  `error` always appends its
diagnostic (code, current token's line/column, message); with the latch set
it never touches the flag or the code; with it clear it sets both; a first
call followed by any further calls leaves the first code latched while every
diagnostic is reported; `parse_program` (hence `main.c`) returns exactly the
latched code, and a run that ends with the flag clear exits with `SUCCESS`. -/
theorem claim_C4 :
    (∀ (code : Int) (msg : String) (p : PState),
      (error code msg p).diags =
        p.diags ++ [(code, p.current_token.line, p.current_token.column, msg)]) ∧
    (∀ (code : Int) (msg : String) (p : PState), p.had_error = true →
      (error code msg p).had_error = true ∧
      (error code msg p).error_code = p.error_code) ∧
    (∀ (code : Int) (msg : String) (p : PState), p.had_error = false →
      (error code msg p).had_error = true ∧
      (error code msg p).error_code = code) ∧
    (∀ (c0 : Int) (m0 : String) (calls : List (Int × String)) (p : PState),
      p.had_error = false →
      ((((c0, m0) :: calls).foldl (fun r cm => error cm.1 cm.2 r) p).error_code = c0 ∧
       (((c0, m0) :: calls).foldl (fun r cm => error cm.1 cm.2 r) p).diags =
         p.diags ++ ((c0, m0) :: calls).map (fun cm =>
           (cm.1, p.current_token.line, p.current_token.column, cm.2)))) ∧
    (∀ (fuel : Nat) (p : PState),
      (parse_program fuel p).1 = (parse_program fuel p).2.error_code) ∧
    (∀ (fuel : Nat) (ts : List Token),
      (parse_program fuel (parser_init ts)).2.had_error = false →
      (parse_program fuel (parser_init ts)).1 = SUCCESS) := by
  refine ⟨error_diags, error_latched, error_first, ?_, parse_program_fst, ?_⟩
  · intro c0 m0 calls p hp
    simp only [List.foldl_cons, List.map_cons]
    obtain ⟨h1, h2, h3, h4⟩ :=
      error_fold_latched calls (error c0 m0 p) (error_first _ _ _ hp).1
    refine ⟨h2.trans (error_first _ _ _ hp).2, ?_⟩
    rw [h3, error_diags, error_tok]
    simp [List.append_assoc]
  · intro fuel ts h
    rw [parse_program_fst]
    rw [(evo_parse_program fuel (parser_init ts)).2.1 h]
    exact parser_init_code ts

theorem claim_C4_witness :
    (parser_init []).had_error = false ∧
    ((error SYNTAX_ERROR "m" (parser_init [])).had_error = true ∧
      (error SYNTAX_ERROR "m" (parser_init [])).error_code = SYNTAX_ERROR) ∧
    (([(SYNTAX_ERROR, "m"), (SEMANTIC_OTHER, "n")].foldl
        (fun r cm => error cm.1 cm.2 r) (parser_init [])).error_code =
          SYNTAX_ERROR ∧
      ([(SYNTAX_ERROR, "m"), (SEMANTIC_OTHER, "n")].foldl
        (fun r cm => error cm.1 cm.2 r) (parser_init [])).diags =
        (parser_init []).diags ++
          [(SYNTAX_ERROR, "m"), (SEMANTIC_OTHER, "n")].map (fun cm =>
            (cm.1, (parser_init []).current_token.line,
              (parser_init []).current_token.column, cm.2))) ∧
    (parse_program 200 (parser_init (tokenize 200 minProgramSrc))).1 = SUCCESS :=
  ⟨by decide, claim_C4.2.2.1 SYNTAX_ERROR "m" (parser_init []) (by decide),
    claim_C4.2.2.2.1 SYNTAX_ERROR "m" [(SEMANTIC_OTHER, "n")] (parser_init [])
      (by decide),
    claim_C4.2.2.2.2.2 200 (tokenize 200 minProgramSrc) (by decide)⟩

/-- C9: for `2 + 3 * 4` the recursive descent (term inside simple-expression)
pushes 2, 3 and 4 and emits `MULS` before `ADDS`; also checked from the raw
source text through the scanner. -/
theorem claim_C9 :
    (parse_expression 20 (parser_init
      [create_token .TOKEN_INT_LITERAL (some "2") 1 1,
       create_token .TOKEN_PLUS none 1 3,
       create_token .TOKEN_INT_LITERAL (some "3") 1 5,
       create_token .TOKEN_MULTIPLY none 1 7,
       create_token .TOKEN_INT_LITERAL (some "4") 1 9,
       create_token .TOKEN_EOL none 1 10])).output =
      ["PUSHS int@2", "PUSHS int@3", "PUSHS int@4", "MULS", "ADDS"] ∧
    (tokenize 50 "2 + 3 * 4".data).map (fun t => (t.type, t.value)) =
      [(.TOKEN_INT_LITERAL, some "2"), (.TOKEN_PLUS, none),
       (.TOKEN_INT_LITERAL, some "3"), (.TOKEN_MULTIPLY, none),
       (.TOKEN_INT_LITERAL, some "4"), (.TOKEN_EOF, none)] := by
  exact ⟨by decide, by decide⟩

/-- C5: `generate_epilog` looks `main_0` up in the global table — absent, it
latches `SEMANTIC_UNDEFINED`; present, it appends exactly `CALL $main` and
`EXIT int@0` and leaves the latch alone.  When the three parse stages finish
with the latch clear, `parse_program`'s result is exactly the epilog's; and
the minimal `static main()` program compiles to output ending in
`CALL $main`, `EXIT int@0` with exit status 0. -/
theorem claim_C5 :
    (∀ p : PState, p.had_error = false →
      symtable_find p.global_table "main_0" = none →
      (generate_epilog p).had_error = true ∧
      (generate_epilog p).error_code = SEMANTIC_UNDEFINED) ∧
    (∀ (p : PState) (d : SymbolData),
      symtable_find p.global_table "main_0" = some d →
      (generate_epilog p).output = p.output ++ ["CALL $main", "EXIT int@0"] ∧
      (generate_epilog p).had_error = p.had_error ∧
      (generate_epilog p).error_code = p.error_code) ∧
    (∀ (fuel : Nat) (ts : List Token),
      (parse_function_definitions fuel (parse_class (parse_prolog
        (generate_prolog (emit ".IFJcode25" (parser_init ts)))))).had_error =
          false →
      parse_program fuel (parser_init ts) =
        ((generate_epilog (parse_function_definitions fuel (parse_class
            (parse_prolog (generate_prolog
              (emit ".IFJcode25" (parser_init ts))))))).error_code,
          generate_epilog (parse_function_definitions fuel (parse_class
            (parse_prolog (generate_prolog
              (emit ".IFJcode25" (parser_init ts)))))))) ∧
    ((parse_program 200 (parser_init (tokenize 200 minProgramSrc))).1 = 0 ∧
      (parse_program 200 (parser_init (tokenize 200 minProgramSrc))).2.output =
        [".IFJcode25", "CREATEFRAME", "PUSHFRAME", "LABEL $main", "CREATEFRAME",
         "PUSHFRAME", "PUSHS nil@nil", "POPFRAME", "RETURN", "CALL $main",
         "EXIT int@0"] ∧
      compiler_main 200 minProgramSrc = 0) := by
  refine ⟨?_, ?_, ?_, by decide, by decide, by decide⟩
  · intro p hp hfind
    unfold generate_epilog
    rw [hfind]
    exact error_first _ _ _ hp
  · intro p d hfind
    unfold generate_epilog
    rw [hfind]
    refine ⟨?_, rfl, rfl⟩
    show (p.output ++ ["CALL $main"]) ++ ["EXIT int@0"] = _
    simp
  · intro fuel ts h
    have h2 : (parse_class (parse_prolog (generate_prolog
        (emit ".IFJcode25" (parser_init ts))))).had_error = false :=
      evo_he_back (evo_parse_function_definitions fuel _) h
    have h1 : (parse_prolog (generate_prolog
        (emit ".IFJcode25" (parser_init ts)))).had_error = false :=
      evo_he_back (evo_parse_class _) h2
    unfold parse_program
    dsimp only
    rw [if_neg (by rw [h1]; exact fun hc => Bool.noConfusion hc)]
    rw [if_neg (by rw [h2]; exact fun hc => Bool.noConfusion hc)]
    rw [if_neg (by rw [h]; exact fun hc => Bool.noConfusion hc)]

theorem claim_C5_witness :
    ((generate_epilog (parser_init [])).had_error = true ∧
      (generate_epilog (parser_init [])).error_code = SEMANTIC_UNDEFINED) ∧
    ((generate_epilog { parser_init [] with
        global_table := symtable_insert symtable_init "main_0"
          (symdata_create_func .funcSym 0) }).output =
      (parser_init []).output ++ ["CALL $main", "EXIT int@0"] ∧
      (generate_epilog { parser_init [] with
        global_table := symtable_insert symtable_init "main_0"
          (symdata_create_func .funcSym 0) }).had_error = false ∧
      (generate_epilog { parser_init [] with
        global_table := symtable_insert symtable_init "main_0"
          (symdata_create_func .funcSym 0) }).error_code = SUCCESS) ∧
    parse_program 200 (parser_init (tokenize 200 minProgramSrc)) =
      ((generate_epilog (parse_function_definitions 200 (parse_class
          (parse_prolog (generate_prolog (emit ".IFJcode25"
            (parser_init (tokenize 200 minProgramSrc)))))))).error_code,
        generate_epilog (parse_function_definitions 200 (parse_class
          (parse_prolog (generate_prolog (emit ".IFJcode25"
            (parser_init (tokenize 200 minProgramSrc)))))))) := by
  refine ⟨claim_C5.1 (parser_init []) (by decide) (by decide), ?_, ?_⟩
  · have h := claim_C5.2.1 { parser_init [] with
        global_table := symtable_insert symtable_init "main_0"
          (symdata_create_func .funcSym 0) }
      (symdata_create_func .funcSym 0) (by decide)
    exact ⟨h.1, h.2.1.trans (by decide), h.2.2.trans (by decide)⟩
  · exact claim_C5.2.2.1 200 (tokenize 200 minProgramSrc) (by decide)

/-- C6: a call whose `name_arity` key is missing from the global table (name
not in the `Ifj.` namespace) latches `SEMANTIC_UNDEFINED`; calling the
1-parameter `foo` with two arguments is reported through exactly this lookup
(exit 3); and no run of the compiler can ever latch `SEMANTIC_ARG_COUNT`. -/
theorem claim_C6 :
    (∀ (fuel : Nat) (name : String) (p : PState) (rt : Token) (ts : List Token),
      p.had_error = false →
      p.current_token.type = .TOKEN_LEFT_PAREN →
      p.tokens = rt :: ts →
      rt.type = .TOKEN_RIGHT_PAREN →
      ¬ (name.data.take 4 = ['I', 'f', 'j', '.']) →
      symtable_find p.global_table (strTrunc 255 (name ++ "_" ++ toString 0)) =
        none →
      (parse_function_call (fuel + 1) name p).had_error = true ∧
      (parse_function_call (fuel + 1) name p).error_code = SEMANTIC_UNDEFINED) ∧
    compiler_main 300 argMismatchSrc = SEMANTIC_UNDEFINED ∧
    (∀ (fuel : Nat) (ts : List Token),
      (parse_program fuel (parser_init ts)).1 ≠ SEMANTIC_ARG_COUNT ∧
      (parse_program fuel (parser_init ts)).2.error_code ≠ SEMANTIC_ARG_COUNT) := by
  refine ⟨?_, by decide, ?_⟩
  · intro fuel name p rt ts hp hcur htoks hrt hifj hfind
    have hnext : next_token p = { p with current_token := rt, tokens := ts } := by
      unfold next_token
      rw [htoks]
    have haccept : accept { p with current_token := rt, tokens := ts }
        .TOKEN_RIGHT_PAREN = true := by
      unfold accept
      dsimp only
      rw [hrt]
      rfl
    rw [parse_function_call]
    rw [expect_hit p .TOKEN_LEFT_PAREN hcur]
    dsimp only
    rw [if_neg (by decide : ¬ ((!true) = true))]
    rw [hnext]
    rw [haccept]
    rw [if_neg (by decide : ¬ ((!true) = true))]
    dsimp only
    rw [expect_hit { p with current_token := rt, tokens := ts }
      .TOKEN_RIGHT_PAREN hrt]
    dsimp only
    rw [if_neg (by decide : ¬ ((!true) = true))]
    rw [if_neg hifj]
    have hfind2 : symtable_find
        (next_token { p with current_token := rt, tokens := ts }).global_table
        (strTrunc 255 (name ++ "_" ++ toString 0)) = none := by
      rw [next_token_global]
      exact hfind
    rw [hfind2]
    exact error_first _ _ _ (by rw [next_token_he]; exact hp)
  · intro fuel ts
    have hev := evo_parse_program fuel (parser_init ts)
    have hcode : (parse_program fuel (parser_init ts)).2.error_code ≠
        SEMANTIC_ARG_COUNT := by
      rcases hev.2.2 with h | h | h | h | h | h <;> rw [h] <;>
        first
        | rw [parser_init_code]; decide
        | decide
    exact ⟨by rw [parse_program_fst]; exact hcode, hcode⟩

theorem claim_C6_witness :
    ((parse_function_call 3 "foo" c6CallState).had_error = true ∧
      (parse_function_call 3 "foo" c6CallState).error_code =
        SEMANTIC_UNDEFINED) ∧
    ((parse_program 7 (parser_init [])).1 ≠ SEMANTIC_ARG_COUNT ∧
      (parse_program 7 (parser_init [])).2.error_code ≠ SEMANTIC_ARG_COUNT) :=
  ⟨claim_C6.1 2 "foo" c6CallState (create_token .TOKEN_RIGHT_PAREN none 1 9) []
      (by decide) (by decide) (by decide) (by decide) (by decide) (by decide),
    claim_C6.2.2 7 []⟩

end Ifj
